import Mathlib

/-!
Align (gonum plot, `align.go`)

A shallow embedding of `Align`, the function that lays out a grid of plots so
that their data canvases are evenly sized and spaced.

Modelling decisions.

* `vg.Length` is a `float64` in the source; lengths are exact rationals here,
  and `math.Max` is `max`. The values of `float64` that are not numbers (NaN and
  the infinities) are left to a second model of lines 20-47, further down
  (`spacingRunF`), which takes `math.Max` with its special cases and agrees
  with this one on finite values (`spacing_agrees_on_numbers`).
* `draw.Canvas` embeds a `vg.Canvas` (the drawing backend) and a
  `vg.Rectangle`; `Align` only reads and writes the rectangle, so a canvas is a
  rectangle.
* A `*Plot` is used through its method `DataCanvas` only.
* `draw.Tiles.At` and `draw.Crop` live in package `vg/draw`, which is not part
  of the sources at hand: `At` is a field of `Tiles`, and `Align` takes the
  cropping function as an argument.
* Go slices are lists; every index expression is checked and an index out of
  range ends the run with `Fault.indexOutOfRange`, as the Go runtime does.
* `t.Rows` and `t.Cols` are Go `int`s, hence `Int`; `make` with a negative
  length ends the run with `Fault.negativeLen`.
* `float64(t.Cols)` can only be zero when the loops that use `avgWidth` have no
  iteration (and likewise `t.Rows` and `avgHeight`), so the value of a division
  by zero is never used.
-/

namespace GonumPlot

variable {α σ : Type}

/-! ## Definitions: the embedding of `align.go`, then what its loops compute -/

/-- Type `vg.Length`. -/
abbrev Length := ℚ

/-- Type `vg.Point`. -/
structure Point where
  X : Length
  Y : Length
  deriving DecidableEq, Repr

/-- Type `vg.Rectangle`. -/
structure Rectangle where
  Min : Point
  Max : Point
  deriving DecidableEq, Repr

/-- Type `draw.Canvas`, reduced to its rectangle. -/
abbrev Canvas := Rectangle

/-- The zero value of a canvas, as `make` fills a fresh slice with. -/
def zeroCanvas : Canvas := ⟨⟨0, 0⟩, ⟨0, 0⟩⟩

/-- A plot, seen through `(*Plot).DataCanvas`. -/
structure Plot where
  DataCanvas : Canvas → Canvas

instance : Inhabited Plot := ⟨⟨fun c => c⟩⟩

/-- Type `draw.Tiles`: the fields `Rows` and `Cols`, and the method `At`
(`At c x y` is the tile at column `x`, row `y` of canvas `c`). -/
structure Tiles where
  Rows : Int
  Cols : Int
  At : Canvas → Int → Int → Canvas

/-- The local type `posNeg` of `Align`. -/
structure posNeg where
  p : ℚ
  n : ℚ
  deriving DecidableEq, Repr

/-- The ways a run of `Align` can end in a Go runtime failure. -/
inductive Fault where
  | indexOutOfRange
  | negativeLen
  deriving DecidableEq, Repr

/-- The type of `draw.Crop`: canvas, left, right, bottom, top. -/
abbrev CropFn := Canvas → Length → Length → Length → Length → Canvas

/-- Modelled from the spec: `draw.Crop` (package `vg/draw`, not among the
sources), a signed crop of the four edges in the additive reading: the lengths
`left` and `bottom` are added to the minimum point and `right` and `top` to the
maximum point of the rectangle, so a positive `left` and a negative `right`
shrink it. -/
def Crop : CropFn := fun c left right bottom top =>
  ⟨⟨c.Min.X + left, c.Min.Y + bottom⟩, ⟨c.Max.X + right, c.Max.Y + top⟩⟩

/-- The index expression `xs[i]`, read. -/
def getAt (xs : List α) (i : Nat) : Except Fault α :=
  match xs[i]? with
  | some v => .ok v
  | none => .error .indexOutOfRange

/-- The assignment `xs[i] = v`. -/
def setAt (xs : List α) (i : Nat) (v : α) : Except Fault (List α) :=
  if i < xs.length then .ok (xs.set i v) else .error .indexOutOfRange

/-- An update in place of `xs[i]`, such as `xs[i].n = e`. -/
def modifyAt (xs : List α) (i : Nat) (f : α → α) : Except Fault (List α) :=
  getAt xs i >>= fun v => setAt xs i (f v)

/-- The index expression `o[j][i]`, read. -/
def getCell (o : List (List α)) (j i : Nat) : Except Fault α :=
  getAt o j >>= fun row => getAt row i

/-- The assignment `o[j][i] = v`. -/
def setCell (o : List (List α)) (j i : Nat) (v : α) : Except Fault (List (List α)) :=
  getAt o j >>= fun row => setAt row i v >>= fun row => setAt o j row

/-- The call `make([]T, n)`, `zero` being the zero value of `T`. -/
def makeSlice (n : Int) (zero : α) : Except Fault (List α) :=
  if n < 0 then .error .negativeLen else .ok (List.replicate n.toNat zero)

/-- The loop `for k := lo; k < lo + n; k++ { body }` on a state. -/
def forUp (body : Nat → σ → Except Fault σ) : Nat → Nat → σ → Except Fault σ
  | _, 0, s => .ok s
  | lo, n + 1, s => body lo s >>= forUp body (lo + 1) n

/-- The loop `for k := n - 1; k >= 0; k-- { body }` on a state. -/
def forDown (body : Nat → σ → Except Fault σ) : Nat → σ → Except Fault σ
  | 0, s => .ok s
  | n + 1, s => body n s >>= forDown body n

/-- The loop `for k, x := range xs { body }` on a state, `k` counted from `lo`. -/
def forRange (body : Nat → α → σ → Except Fault σ) : Nat → List α → σ → Except Fault σ
  | _, [], s => .ok s
  | lo, x :: rest, s => body lo x s >>= forRange body (lo + 1) rest

/-- Lines 20-28: the allocation of `o` and the initial tiles. -/
def initialTiles (plots : List (List Plot)) (t : Tiles) (dc : Canvas) :
    Except Fault (List (List Canvas)) :=
  forUp (fun j o =>
      getAt plots j >>= fun row =>
      setAt o j (List.replicate row.length zeroCanvas) >>= fun o =>
      forUp (fun i o => setCell o j i (t.At dc i j)) 0 t.Cols.toNat o)
    0 t.Rows.toNat (List.replicate plots.length [])

/-- The body of the loop of lines 38-47 at the cell `(j, i)` holding plot `p`.
On rationals `math.Max` is `max`; its cases for NaN and the infinities are in
`spacingStepF`. -/
def spacingStep (o : List (List Canvas)) (j i : Nat) (p : Plot)
    (s : List posNeg × List posNeg) : Except Fault (List posNeg × List posNeg) :=
  getCell o j i >>= fun c =>
  let dataC := p.DataCanvas c
  modifyAt s.1 i (fun v => { v with n := max (dataC.Min.X - c.Min.X) v.n }) >>= fun xSpacing =>
  modifyAt xSpacing i (fun v => { v with p := max (c.Max.X - dataC.Max.X) v.p }) >>= fun xSpacing =>
  modifyAt s.2 j (fun v => { v with n := max (dataC.Min.Y - c.Min.Y) v.n }) >>= fun ySpacing =>
  modifyAt ySpacing j (fun v => { v with p := max (c.Max.Y - dataC.Max.Y) v.p }) >>= fun ySpacing =>
  .ok (xSpacing, ySpacing)

/-- Lines 33-47: `xSpacing` and `ySpacing`, the largest margins of each column
and row of the tiles `o`. -/
def spacing (plots : List (List Plot)) (t : Tiles) (o : List (List Canvas)) :
    Except Fault (List posNeg × List posNeg) :=
  makeSlice t.Cols (⟨0, 0⟩ : posNeg) >>= fun xSpacing =>
  makeSlice t.Rows (⟨0, 0⟩ : posNeg) >>= fun ySpacing =>
  forRange (fun j row s => forRange (fun i p s => spacingStep o j i p s) 0 row s)
    0 plots (xSpacing, ySpacing)

/-- The body of the loop of lines 52-63 at the cell `(j, i)` holding plot `p`. -/
def normaliseStep (crop : CropFn) (xSpacing ySpacing : List posNeg) (j i : Nat) (p : Plot)
    (o : List (List Canvas)) : Except Fault (List (List Canvas)) :=
  getCell o j i >>= fun c =>
  let dataC := p.DataCanvas c
  getAt xSpacing i >>= fun xs =>
  getAt ySpacing j >>= fun ys =>
  setCell o j i (crop c
    (xs.n - (dataC.Min.X - c.Min.X))
    (c.Max.X - dataC.Max.X - xs.p)
    (ys.n - (dataC.Min.Y - c.Min.Y))
    (c.Max.Y - dataC.Max.Y - ys.p))

/-- Lines 52-63: every cell is cropped to the spacing of its column and row. -/
def normalise (crop : CropFn) (plots : List (List Plot)) (xSpacing ySpacing : List posNeg)
    (o : List (List Canvas)) : Except Fault (List (List Canvas)) :=
  forRange (fun j row o =>
      forRange (fun i p o => normaliseStep crop xSpacing ySpacing j i p o) 0 row o)
    0 plots o

/-- Lines 66-73: the sum of `s.n + s.p` over a spacing slice. -/
def totalSpace (spacing : List posNeg) : ℚ :=
  spacing.foldl (fun total s => total + (s.n + s.p)) 0

/-- The body of the inner loop of lines 80-94 at the cell `(j, i)`; the state is
`o` and `moveHorizontal`. -/
def horizontalStep (crop : CropFn) (plots : List (List Plot)) (avgWidth : Length) (j i : Nat)
    (s : List (List Canvas) × Length) : Except Fault (List (List Canvas) × Length) :=
  getCell s.1 j i >>= fun c =>
  getCell plots j i >>= fun p =>
  let dataC := p.DataCanvas c
  let width := dataC.Max.X - dataC.Min.X
  setCell s.1 j i (crop c s.2 (s.2 + avgWidth - width) 0 0) >>= fun o =>
  .ok (o, s.2 + (avgWidth - width))

/-- Lines 80-94: the pass that gives every data canvas the width `avgWidth`. -/
def horizontalPass (crop : CropFn) (plots : List (List Plot)) (t : Tiles) (avgWidth : Length)
    (o : List (List Canvas)) : Except Fault (List (List Canvas)) :=
  forUp (fun j o =>
      forUp (fun i s => horizontalStep crop plots avgWidth j i s) 0 t.Cols.toNat (o, 0)
        >>= fun s => .ok s.1)
    0 t.Rows.toNat o

/-- The body of the inner loop of lines 98-112 at the cell `(j, i)`; the state
is `o` and `moveVertical`. -/
def verticalStep (crop : CropFn) (plots : List (List Plot)) (avgHeight : Length) (i j : Nat)
    (s : List (List Canvas) × Length) : Except Fault (List (List Canvas) × Length) :=
  getCell s.1 j i >>= fun c =>
  getCell plots j i >>= fun p =>
  let dataC := p.DataCanvas c
  let height := dataC.Max.Y - dataC.Min.Y
  setCell s.1 j i (crop c 0 0 s.2 (s.2 + avgHeight - height)) >>= fun o =>
  .ok (o, s.2 + (avgHeight - height))

/-- Lines 98-112: the pass that gives every data canvas the height `avgHeight`. -/
def verticalPass (crop : CropFn) (plots : List (List Plot)) (t : Tiles) (avgHeight : Length)
    (o : List (List Canvas)) : Except Fault (List (List Canvas)) :=
  forUp (fun i o =>
      forDown (fun j s => verticalStep crop plots avgHeight i j s) t.Rows.toNat (o, 0)
        >>= fun s => .ok s.1)
    0 t.Cols.toNat o

/-- The values `Align` computes on its way: the initial tiles, the spacings,
the grid after the normalisation loop, the two averages, the grid after the
horizontal pass, and the grid it returns. -/
structure Trace where
  tiles : List (List Canvas)
  xSpacing : List posNeg
  ySpacing : List posNeg
  normalised : List (List Canvas)
  avgWidth : Length
  avgHeight : Length
  horizontal : List (List Canvas)
  out : List (List Canvas)

/-- The body of `Align`, keeping the intermediate values. -/
def alignTrace (crop : CropFn) (plots : List (List Plot)) (t : Tiles) (dc : Canvas) :
    Except Fault Trace :=
  initialTiles plots t dc >>= fun tiles =>
  spacing plots t tiles >>= fun sp =>
  normalise crop plots sp.1 sp.2 tiles >>= fun normalised =>
  let xTotalSpace := totalSpace sp.1
  let yTotalSpace := totalSpace sp.2
  let avgWidth := ((dc.Max.X - dc.Min.X) - xTotalSpace) / (t.Cols : ℚ)
  let avgHeight := ((dc.Max.Y - dc.Min.Y) - yTotalSpace) / (t.Rows : ℚ)
  horizontalPass crop plots t avgWidth normalised >>= fun horizontal =>
  verticalPass crop plots t avgHeight horizontal >>= fun out =>
  .ok ⟨tiles, sp.1, sp.2, normalised, avgWidth, avgHeight, horizontal, out⟩

/-- Function `Align` of `align.go`. -/
def Align (crop : CropFn) (plots : List (List Plot)) (t : Tiles) (dc : Canvas) :
    Except Fault (List (List Canvas)) :=
  alignTrace crop plots t dc >>= fun tr => .ok tr.out

/-- The slice of length `n` whose entry `i` is `f i`. -/
def tab1 (n : Nat) (f : Nat → α) : List α := (List.range n).map f

/-- The grid of `R` rows of length `C` whose cell `(j, i)` is `f j i`. -/
def tab (R C : Nat) (f : Nat → Nat → α) : List (List α) := tab1 R (fun j => tab1 C (f j))

/-- The grid function `f` with the cell `(j, i)` replaced by `v`. -/
def upd2 (f : Nat → Nat → α) (j i : Nat) (v : α) : Nat → Nat → α :=
  fun j' i' => if j' = j ∧ i' = i then v else f j' i'

/-- The tile of the cell in row `j` and column `i`, as line 26 asks for it. -/
def tileOf (t : Tiles) (dc : Canvas) (j i : Nat) : Canvas := t.At dc (i : Int) (j : Int)

/-- The left margin of plot `p` in cell `c` (line 42). -/
def marginLeft (p : Plot) (c : Canvas) : Length := (p.DataCanvas c).Min.X - c.Min.X

/-- The right margin of plot `p` in cell `c` (line 43). -/
def marginRight (p : Plot) (c : Canvas) : Length := c.Max.X - (p.DataCanvas c).Max.X

/-- The bottom margin of plot `p` in cell `c` (line 44). -/
def marginBottom (p : Plot) (c : Canvas) : Length := (p.DataCanvas c).Min.Y - c.Min.Y

/-- The top margin of plot `p` in cell `c` (line 45). -/
def marginTop (p : Plot) (c : Canvas) : Length := c.Max.Y - (p.DataCanvas c).Max.Y

/-- The value a zero-initialised field holds after `k` rounds of
`v = math.Max(f k, v)`. -/
def runMax (f : Nat → ℚ) : Nat → ℚ
  | 0 => 0
  | k + 1 => max (f k) (runMax f k)

/-- The entry `xSpacing[i]` once the first `k` rows have been visited. -/
def xSp (P : Nat → Nat → Plot) (T : Nat → Nat → Canvas) (k i : Nat) : posNeg :=
  ⟨runMax (fun j => marginRight (P j i) (T j i)) k, runMax (fun j => marginLeft (P j i) (T j i)) k⟩

/-- The entry `ySpacing[j]` once the first `k` cells of row `j` have been visited. -/
def ySp (P : Nat → Nat → Plot) (T : Nat → Nat → Canvas) (k j : Nat) : posNeg :=
  ⟨runMax (fun i => marginTop (P j i) (T j i)) k, runMax (fun i => marginBottom (P j i) (T j i)) k⟩

/-- The slices `xSpacing` and `ySpacing` when the loop of lines 38-47 reaches
the cell `(j, i)`. -/
def spState (R C : Nat) (P : Nat → Nat → Plot) (T : Nat → Nat → Canvas) (j i : Nat) :
    List posNeg × List posNeg :=
  (tab1 C (fun i' => xSp P T (if i' < i then j + 1 else j) i'),
   tab1 R (fun j' => ySp P T (if j' < j then C else if j' = j then i else 0) j'))

/-- The grid when a row-by-row sweep that turns `old` into `new` reaches the
cell `(j, i)`. -/
def prog {α : Type} (j i : Nat) (new old : Nat → Nat → α) : Nat → Nat → α :=
  fun j' i' => if j' < j ∨ (j' = j ∧ i' < i) then new j' i' else old j' i'

/-- The grid when a column-by-column sweep, bottom row first, that turns `old`
into `new` is in column `i` with the rows below `k` still to visit. -/
def progV {α : Type} (i k : Nat) (new old : Nat → Nat → α) : Nat → Nat → α :=
  fun j' i' => if i' < i ∨ (i' = i ∧ k ≤ j') then new j' i' else old j' i'

/-- The cell `(j, i)` after the normalisation loop (lines 52-63). -/
def normCell (crop : CropFn) (P : Nat → Nat → Plot) (T : Nat → Nat → Canvas) (R C : Nat)
    (j i : Nat) : Canvas :=
  crop (T j i)
    ((xSp P T R i).n - marginLeft (P j i) (T j i))
    (marginRight (P j i) (T j i) - (xSp P T R i).p)
    ((ySp P T C j).n - marginBottom (P j i) (T j i))
    (marginTop (P j i) (T j i) - (ySp P T C j).p)

/-- The width of the data canvas of plot `p` in cell `c` (line 85). -/
def dataWidth (p : Plot) (c : Canvas) : Length := (p.DataCanvas c).Max.X - (p.DataCanvas c).Min.X

/-- The height of the data canvas of plot `p` in cell `c` (line 103). -/
def dataHeight (p : Plot) (c : Canvas) : Length := (p.DataCanvas c).Max.Y - (p.DataCanvas c).Min.Y

/-- The value of `moveHorizontal` when the horizontal pass over the grid `N`
reaches the cell `(j, i)`. -/
def moveH (avgWidth : Length) (P : Nat → Nat → Plot) (N : Nat → Nat → Canvas) (j i : Nat) :
    Length :=
  ∑ k in Finset.range i, (avgWidth - dataWidth (P j k) (N j k))

/-- The cell `(j, i)` after the horizontal pass over the grid `N`. -/
def horCell (crop : CropFn) (avgWidth : Length) (P : Nat → Nat → Plot)
    (N : Nat → Nat → Canvas) (j i : Nat) : Canvas :=
  crop (N j i) (moveH avgWidth P N j i)
    (moveH avgWidth P N j i + avgWidth - dataWidth (P j i) (N j i)) 0 0

/-- The value of `moveVertical` when the vertical pass over the grid `H` of `R`
rows reaches the cell `(j, i)`. -/
def moveV (avgHeight : Length) (P : Nat → Nat → Plot) (H : Nat → Nat → Canvas) (R : Nat)
    (j i : Nat) : Length :=
  ∑ k in Finset.Ico (j + 1) R, (avgHeight - dataHeight (P k i) (H k i))

/-- The cell `(j, i)` after the vertical pass over the grid `H` of `R` rows. -/
def verCell (crop : CropFn) (avgHeight : Length) (P : Nat → Nat → Plot)
    (H : Nat → Nat → Canvas) (R : Nat) (j i : Nat) : Canvas :=
  crop (H j i) 0 0 (moveV avgHeight P H R j i)
    (moveV avgHeight P H R j i + avgHeight - dataHeight (P j i) (H j i))

/-- The value of `avgWidth` (line 75) for a grid of `R` rows and `C` columns. -/
def avgW (P : Nat → Nat → Plot) (t : Tiles) (dc : Canvas) (R C : Nat) : Length :=
  ((dc.Max.X - dc.Min.X) - totalSpace (tab1 C (xSp P (tileOf t dc) R))) / (t.Cols : ℚ)

/-- The value of `avgHeight` (line 76) for a grid of `R` rows and `C` columns. -/
def avgH (P : Nat → Nat → Plot) (t : Tiles) (dc : Canvas) (R C : Nat) : Length :=
  ((dc.Max.Y - dc.Min.Y) - totalSpace (tab1 R (ySp P (tileOf t dc) C))) / (t.Rows : ℚ)

/-- The cell `(j, i)` after the normalisation loop. -/
def gridN (crop : CropFn) (P : Nat → Nat → Plot) (t : Tiles) (dc : Canvas) (R C : Nat) :
    Nat → Nat → Canvas :=
  normCell crop P (tileOf t dc) R C

/-- The cell `(j, i)` after the horizontal pass. -/
def gridH (crop : CropFn) (P : Nat → Nat → Plot) (t : Tiles) (dc : Canvas) (R C : Nat) :
    Nat → Nat → Canvas :=
  horCell crop (avgW P t dc R C) P (gridN crop P t dc R C)

/-- The cell `(j, i)` of the grid `Align` returns. -/
def gridV (crop : CropFn) (P : Nat → Nat → Plot) (t : Tiles) (dc : Canvas) (R C : Nat) :
    Nat → Nat → Canvas :=
  verCell crop (avgH P t dc R C) P (gridH crop P t dc R C) R

/-- The trace of `Align` on a grid of `R` rows and `C` columns, cell by cell. -/
def traceOf (crop : CropFn) (P : Nat → Nat → Plot) (t : Tiles) (dc : Canvas) (R C : Nat) :
    Trace :=
  ⟨tab R C (tileOf t dc), tab1 C (xSp P (tileOf t dc) R), tab1 R (ySp P (tileOf t dc) C),
   tab R C (gridN crop P t dc R C), avgW P t dc R C, avgH P t dc R C,
   tab R C (gridH crop P t dc R C), tab R C (gridV crop P t dc R C)⟩

/-- The grid is well formed for the tiling: at least one row and one column,
as many rows as the tiling has, each as long as the tiling has columns. -/
def WellFormed (plots : List (List Plot)) (t : Tiles) : Prop :=
  1 ≤ t.Rows ∧ 1 ≤ t.Cols ∧ (plots.length : Int) = t.Rows ∧
    ∀ row ∈ plots, (row.length : Int) = t.Cols

/-- The plot of the cell `(j, i)` of a grid (the identity plot off the grid). -/
def plotAt (plots : List (List Plot)) (j i : Nat) : Plot := (plots.getD j []).getD i default

/-- The plot whose data canvas is the cell with its minimum point moved in by
`(left, bottom)` and its maximum point moved in by `(right, top)`. -/
def fixedMargin (left right bottom top : Length) : Plot :=
  ⟨fun c => ⟨⟨c.Min.X + left, c.Min.Y + bottom⟩, ⟨c.Max.X - right, c.Max.Y - top⟩⟩⟩

/-- A fixed-margin plot: its data canvas is the cell moved in by four constants. -/
def IsFixedMargin (p : Plot) : Prop :=
  ∃ left right bottom top : Length, ∀ c, p.DataCanvas c =
    ⟨⟨c.Min.X + left, c.Min.Y + bottom⟩, ⟨c.Max.X - right, c.Max.Y - top⟩⟩

/-- Every plot of the grid is a fixed-margin plot. -/
def FixedGrid (plots : List (List Plot)) : Prop :=
  ∀ row ∈ plots, ∀ p ∈ row, IsFixedMargin p

/-- The running horizontal shift of row `j` before column `i`, from the tiles
and the spacings. -/
def shiftH (P : Nat → Nat → Plot) (t : Tiles) (dc : Canvas) (R C : Nat) (j i : Nat) : Length :=
  ∑ k in Finset.range i, (avgW P t dc R C -
    ((tileOf t dc j k).Max.X - (tileOf t dc j k).Min.X
      - (xSp P (tileOf t dc) R k).n - (xSp P (tileOf t dc) R k).p))

/-- The running vertical shift of column `i` once the rows `j` and below have
been visited, from the tiles and the spacings. -/
def shiftV (P : Nat → Nat → Plot) (t : Tiles) (dc : Canvas) (R C : Nat) (j i : Nat) : Length :=
  ∑ k in Finset.Ico j R, (avgH P t dc R C -
    ((tileOf t dc k i).Max.Y - (tileOf t dc k i).Min.Y
      - (ySp P (tileOf t dc) C k).n - (ySp P (tileOf t dc) C k).p))

/-- The data canvas of the cell `(j, i)` in a grid `o` of rectangles:
`plots[j][i].DataCanvas(o[j][i])`. -/
def dataOf (plots : List (List Plot)) (o : List (List Canvas)) (j i : Nat) :
    Except Fault Canvas :=
  getCell plots j i >>= fun p => getCell o j i >>= fun c => .ok (p.DataCanvas c)

/-- Modelled from the spec: `draw.Tiles.At` without padding (package `vg/draw`,
not among the sources). The canvas is cut into `rows` by `cols` equal tiles,
column 0 on the left and row 0 at the top; this is the tile of column `x` and
row `y`. -/
def equalAt (rows cols : Int) (c : Canvas) (x y : Int) : Canvas :=
  ⟨⟨c.Min.X + (x : ℚ) * ((c.Max.X - c.Min.X) / (cols : ℚ)),
    c.Max.Y - ((y : ℚ) + 1) * ((c.Max.Y - c.Min.Y) / (rows : ℚ))⟩,
   ⟨c.Min.X + ((x : ℚ) + 1) * ((c.Max.X - c.Min.X) / (cols : ℚ)),
    c.Max.Y - (y : ℚ) * ((c.Max.Y - c.Min.Y) / (rows : ℚ))⟩⟩

/-- The tiling of `rows` by `cols` equal tiles. -/
def equalTiles (rows cols : Int) : Tiles := ⟨rows, cols, equalAt rows cols⟩

/-- The tiling `t` cuts the canvas `dc` into equal tiles, row 0 at the top. -/
def IsEqualTiling (t : Tiles) (dc : Canvas) : Prop :=
  ∀ x y : Nat, (x : Int) < t.Cols → (y : Int) < t.Rows →
    t.At dc x y = equalAt t.Rows t.Cols dc x y

/-- The unit square `[0,0]-[1,1]`. -/
def unitCanvas : Canvas := ⟨⟨0, 0⟩, ⟨1, 1⟩⟩

/-- One row of two plots: margin 1/10 on every side, then 1/5 on every side. -/
def scenarioPlots : List (List Plot) :=
  [[fixedMargin (1/10) (1/10) (1/10) (1/10), fixedMargin (1/5) (1/5) (1/5) (1/5)]]

/-- One row of two plots whose margins do not fit the unit square: no margin,
then a left margin of 3. -/
def tightPlots : List (List Plot) :=
  [[fixedMargin 0 0 0 0, fixedMargin 3 0 0 0]]

/-- One column of two plots: margin 1/10 on every side, then 1/5 on every side. -/
def columnPlots : List (List Plot) :=
  [[fixedMargin (1/10) (1/10) (1/10) (1/10)], [fixedMargin (1/5) (1/5) (1/5) (1/5)]]

/-- A single plot whose data canvas sticks out of its cell by 1 on every side. -/
def stickingOutPlots : List (List Plot) := [[fixedMargin (-1) (-1) (-1) (-1)]]

/-- The largest of `f 0, ..., f k`. -/
def maxUpTo (f : Nat → ℚ) : Nat → ℚ
  | 0 => f 0
  | k + 1 => max (maxUpTo f k) (f (k + 1))

/-- One row of two plots with a margin of 1/10 on every side. -/
def evenPlots : List (List Plot) :=
  [[fixedMargin (1/10) (1/10) (1/10) (1/10), fixedMargin (1/10) (1/10) (1/10) (1/10)]]

/-- Two rows of two plots; the plots of column 0 have right margins 1/10 and
1/5, and there is no other margin. -/
def gapPlots : List (List Plot) :=
  [[fixedMargin 0 (1/10) 0 0, fixedMargin 0 0 0 0],
   [fixedMargin 0 (1/5) 0 0, fixedMargin 0 0 0 0]]

/-- Every plot of the grid is a fixed-margin plot with non-negative margins. -/
def NonnegMargins (plots : List (List Plot)) : Prop :=
  ∀ row ∈ plots, ∀ p ∈ row, ∃ left right bottom top : Length,
    0 ≤ left ∧ 0 ≤ right ∧ 0 ≤ bottom ∧ 0 ≤ top ∧
    ∀ c, p.DataCanvas c = ⟨⟨c.Min.X + left, c.Min.Y + bottom⟩, ⟨c.Max.X - right, c.Max.Y - top⟩⟩

/-- The share of the canvas width that column `k` takes in the returned grid:
`avgWidth` and the two spacings of the column. -/
def colShare (P : Nat → Nat → Plot) (t : Tiles) (dc : Canvas) (R C : Nat) (k : Nat) : Length :=
  avgW P t dc R C + (xSp P (tileOf t dc) R k).n + (xSp P (tileOf t dc) R k).p

/-- The share of the canvas height that row `k` takes in the returned grid:
`avgHeight` and the two spacings of the row. -/
def rowShare (P : Nat → Nat → Plot) (t : Tiles) (dc : Canvas) (R C : Nat) (k : Nat) : Length :=
  avgH P t dc R C + (ySp P (tileOf t dc) C k).n + (ySp P (tileOf t dc) C k).p

/-- The length of row `k` of a grid, 0 when the grid has no row `k`. -/
def rowLen {α : Type} (o : List (List α)) (k : Nat) : Nat := (o.getD k []).length

/-- Two rows of plots, the second one empty. -/
def raggedPlots : List (List Plot) := [[fixedMargin 0 0 0 0], []]

/-- A single row of one plot. -/
def singlePlots : List (List Plot) := [[fixedMargin 0 0 0 0]]

/-- Lines 81-93 for the row `j`: the inner loop of the horizontal pass, run on
the grid `o` with `moveHorizontal` starting at 0; it yields the grid and the
final value of `moveHorizontal`. -/
def horizontalRow (crop : CropFn) (plots : List (List Plot)) (t : Tiles) (avgWidth : Length)
    (j : Nat) (o : List (List Canvas)) : Except Fault (List (List Canvas) × Length) :=
  forUp (fun i s => horizontalStep crop plots avgWidth j i s) 0 t.Cols.toNat (o, 0)

/-- The first `n` rounds of the loop of line 80. -/
def horizontalRows (crop : CropFn) (plots : List (List Plot)) (t : Tiles) (avgWidth : Length)
    (n : Nat) (o : List (List Canvas)) : Except Fault (List (List Canvas)) :=
  forUp (fun j o => horizontalRow crop plots t avgWidth j o >>= fun s => .ok s.1) 0 n o

/-- Lines 99-111 for the column `i`: the inner loop of the vertical pass, run on
the grid `o` with `moveVertical` starting at 0; it yields the grid and the final
value of `moveVertical`. -/
def verticalColumn (crop : CropFn) (plots : List (List Plot)) (t : Tiles) (avgHeight : Length)
    (i : Nat) (o : List (List Canvas)) : Except Fault (List (List Canvas) × Length) :=
  forDown (fun j s => verticalStep crop plots avgHeight i j s) t.Rows.toNat (o, 0)

/-- The first `n` rounds of the loop of line 98. -/
def verticalColumns (crop : CropFn) (plots : List (List Plot)) (t : Tiles) (avgHeight : Length)
    (n : Nat) (o : List (List Canvas)) : Except Fault (List (List Canvas)) :=
  forUp (fun i o => verticalColumn crop plots t avgHeight i o >>= fun s => .ok s.1) 0 n o

/-- The rectangle of the cell `(j, i)` of a grid (the zero canvas off the grid). -/
def cellAt (o : List (List Canvas)) (j i : Nat) : Canvas := (o.getD j []).getD i zeroCanvas

/-! ## A float-aware model of lines 20-47

The definitions above take `vg.Length` as an exact rational and `math.Max` as
`max`; that leaves out the values of `float64` that are not numbers. The
definitions below repeat the tile loop and the spacing loop on `float64` values
that may be infinite or NaN, with `math.Max` as the Go library defines it. -/

/-- A `float64` value: a finite number, an infinity or NaN. Finite values are
taken among the rationals (every finite `float64` is one) and the two zeros are
one value. -/
inductive GoFloat where
  | num (q : ℚ)
  | posInf
  | negInf
  | nan
  deriving DecidableEq

/-- Function `math.Max` of the Go standard library: `+Inf` when an argument is
`+Inf`, otherwise NaN when an argument is NaN, otherwise the larger argument. -/
def goMax : GoFloat → GoFloat → GoFloat
  | .posInf, _ => .posInf
  | _, .posInf => .posInf
  | .nan, _ => .nan
  | _, .nan => .nan
  | .negInf, y => y
  | x, .negInf => x
  | .num a, .num b => .num (max a b)

/-- The comparison `x <= y` of Go on `float64`: false when an argument is NaN. -/
def goLe : GoFloat → GoFloat → Prop
  | .nan, _ => False
  | _, .nan => False
  | .negInf, _ => True
  | _, .posInf => True
  | .posInf, _ => False
  | _, .negInf => False
  | .num a, .num b => a ≤ b

/-- The subtraction of `float64` without rounding: exact on finite values, NaN
when an argument is NaN or for `Inf - Inf`. -/
def goSub : GoFloat → GoFloat → GoFloat
  | .nan, _ => .nan
  | _, .nan => .nan
  | .num a, .num b => .num (a - b)
  | .posInf, .posInf => .nan
  | .negInf, .negInf => .nan
  | .posInf, _ => .posInf
  | .negInf, _ => .negInf
  | .num _, .posInf => .negInf
  | .num _, .negInf => .posInf

/-- Type `vg.Point` on `float64` values. -/
structure PointF where
  X : GoFloat
  Y : GoFloat
  deriving DecidableEq

/-- Type `vg.Rectangle` on `float64` values. -/
structure RectangleF where
  Min : PointF
  Max : PointF
  deriving DecidableEq

/-- Type `draw.Canvas` on `float64` values, reduced to its rectangle. -/
abbrev CanvasF := RectangleF

/-- The zero value of a canvas on `float64` values. -/
def zeroCanvasF : CanvasF := ⟨⟨.num 0, .num 0⟩, ⟨.num 0, .num 0⟩⟩

/-- A plot on `float64` values, seen through `(*Plot).DataCanvas`. -/
structure PlotF where
  DataCanvas : CanvasF → CanvasF

instance : Inhabited PlotF := ⟨⟨fun c => c⟩⟩

/-- Type `draw.Tiles` on `float64` values. -/
structure TilesF where
  Rows : Int
  Cols : Int
  At : CanvasF → Int → Int → CanvasF

/-- The local type `posNeg` of `Align`, on `float64` values. -/
structure posNegF where
  p : GoFloat
  n : GoFloat
  deriving DecidableEq

/-- Lines 20-28 on `float64` values: the allocation of `o` and the initial
tiles. -/
def initialTilesF (plots : List (List PlotF)) (t : TilesF) (dc : CanvasF) :
    Except Fault (List (List CanvasF)) :=
  forUp (fun j o =>
      getAt plots j >>= fun row =>
      setAt o j (List.replicate row.length zeroCanvasF) >>= fun o =>
      forUp (fun i o => setCell o j i (t.At dc i j)) 0 t.Cols.toNat o)
    0 t.Rows.toNat (List.replicate plots.length [])

/-- The body of the loop of lines 38-47 on `float64` values, at the cell
`(j, i)` holding plot `p`; `sub` is the subtraction of `float64`, whatever its
rounding. -/
def spacingStepF (sub : GoFloat → GoFloat → GoFloat) (o : List (List CanvasF)) (j i : Nat)
    (p : PlotF) (s : List posNegF × List posNegF) :
    Except Fault (List posNegF × List posNegF) :=
  getCell o j i >>= fun c =>
  let dataC := p.DataCanvas c
  modifyAt s.1 i (fun v => { v with n := goMax (sub dataC.Min.X c.Min.X) v.n })
    >>= fun xSpacing =>
  modifyAt xSpacing i (fun v => { v with p := goMax (sub c.Max.X dataC.Max.X) v.p })
    >>= fun xSpacing =>
  modifyAt s.2 j (fun v => { v with n := goMax (sub dataC.Min.Y c.Min.Y) v.n })
    >>= fun ySpacing =>
  modifyAt ySpacing j (fun v => { v with p := goMax (sub c.Max.Y dataC.Max.Y) v.p })
    >>= fun ySpacing =>
  .ok (xSpacing, ySpacing)

/-- Lines 33-47 on `float64` values: `xSpacing` and `ySpacing`. -/
def spacingF (sub : GoFloat → GoFloat → GoFloat) (plots : List (List PlotF)) (t : TilesF)
    (o : List (List CanvasF)) : Except Fault (List posNegF × List posNegF) :=
  makeSlice t.Cols (⟨.num 0, .num 0⟩ : posNegF) >>= fun xSpacing =>
  makeSlice t.Rows (⟨.num 0, .num 0⟩ : posNegF) >>= fun ySpacing =>
  forRange (fun j row s => forRange (fun i p s => spacingStepF sub o j i p s) 0 row s)
    0 plots (xSpacing, ySpacing)

/-- Lines 20-47 on `float64` values: the initial tiles, then the spacings. -/
def spacingRunF (sub : GoFloat → GoFloat → GoFloat) (plots : List (List PlotF)) (t : TilesF)
    (dc : CanvasF) : Except Fault (List posNegF × List posNegF) :=
  initialTilesF plots t dc >>= fun tiles => spacingF sub plots t tiles

/-- The unit square on `float64` values. -/
def unitCanvasF : CanvasF := ⟨⟨.num 0, .num 0⟩, ⟨.num 1, .num 1⟩⟩

/-- The tiling of one row and one column whose only tile is the canvas. -/
def oneTileF : TilesF := ⟨1, 1, fun c _ _ => c⟩

/-- A single plot whose data canvas has NaN for `Min.X` and is the cell
otherwise. -/
def nanPlots : List (List PlotF) := [[⟨fun c => ⟨⟨.nan, c.Min.Y⟩, c.Max⟩⟩]]

/-- The tile of the cell in row `j` and column `i`, on `float64` values. -/
def tileOfF (t : TilesF) (dc : CanvasF) (j i : Nat) : CanvasF := t.At dc (i : Int) (j : Int)

/-- The left margin of plot `p` in cell `c` (line 42), on `float64` values. -/
def marginLeftF (sub : GoFloat → GoFloat → GoFloat) (p : PlotF) (c : CanvasF) : GoFloat :=
  sub (p.DataCanvas c).Min.X c.Min.X

/-- The right margin of plot `p` in cell `c` (line 43), on `float64` values. -/
def marginRightF (sub : GoFloat → GoFloat → GoFloat) (p : PlotF) (c : CanvasF) : GoFloat :=
  sub c.Max.X (p.DataCanvas c).Max.X

/-- The bottom margin of plot `p` in cell `c` (line 44), on `float64` values. -/
def marginBottomF (sub : GoFloat → GoFloat → GoFloat) (p : PlotF) (c : CanvasF) : GoFloat :=
  sub (p.DataCanvas c).Min.Y c.Min.Y

/-- The top margin of plot `p` in cell `c` (line 45), on `float64` values. -/
def marginTopF (sub : GoFloat → GoFloat → GoFloat) (p : PlotF) (c : CanvasF) : GoFloat :=
  sub c.Max.Y (p.DataCanvas c).Max.Y

/-- The value a zero-initialised `float64` field holds after `k` rounds of
`v = math.Max(f k, v)`. -/
def runMaxF (f : Nat → GoFloat) : Nat → GoFloat
  | 0 => .num 0
  | k + 1 => goMax (f k) (runMaxF f k)

/-- The `math.Max` of `f 0, ..., f k`. -/
def maxUpToF (f : Nat → GoFloat) : Nat → GoFloat
  | 0 => f 0
  | k + 1 => goMax (maxUpToF f k) (f (k + 1))

/-- The entry `xSpacing[i]` once the first `k` rows have been visited, on
`float64` values. -/
def xSpF (sub : GoFloat → GoFloat → GoFloat) (P : Nat → Nat → PlotF)
    (T : Nat → Nat → CanvasF) (k i : Nat) : posNegF :=
  ⟨runMaxF (fun j => marginRightF sub (P j i) (T j i)) k,
   runMaxF (fun j => marginLeftF sub (P j i) (T j i)) k⟩

/-- The entry `ySpacing[j]` once the first `k` cells of row `j` have been
visited, on `float64` values. -/
def ySpF (sub : GoFloat → GoFloat → GoFloat) (P : Nat → Nat → PlotF)
    (T : Nat → Nat → CanvasF) (k j : Nat) : posNegF :=
  ⟨runMaxF (fun i => marginTopF sub (P j i) (T j i)) k,
   runMaxF (fun i => marginBottomF sub (P j i) (T j i)) k⟩

/-- The slices `xSpacing` and `ySpacing` on `float64` values when the loop of
lines 38-47 reaches the cell `(j, i)`. -/
def spStateF (sub : GoFloat → GoFloat → GoFloat) (R C : Nat) (P : Nat → Nat → PlotF)
    (T : Nat → Nat → CanvasF) (j i : Nat) : List posNegF × List posNegF :=
  (tab1 C (fun i' => xSpF sub P T (if i' < i then j + 1 else j) i'),
   tab1 R (fun j' => ySpF sub P T (if j' < j then C else if j' = j then i else 0) j'))

/-- The grid of plots on `float64` values is well formed for the tiling. -/
def WellFormedF (plots : List (List PlotF)) (t : TilesF) : Prop :=
  1 ≤ t.Rows ∧ 1 ≤ t.Cols ∧ (plots.length : Int) = t.Rows ∧
    ∀ row ∈ plots, (row.length : Int) = t.Cols

/-- The plot of the cell `(j, i)` of a grid of plots on `float64` values. -/
def plotAtF (plots : List (List PlotF)) (j i : Nat) : PlotF := (plots.getD j []).getD i default

/-- A single plot whose data canvas is the square `[1/10,1/10]-[9/10,9/10]`. -/
def insetPlots : List (List PlotF) :=
  [[⟨fun _ => ⟨⟨.num (1/10), .num (1/10)⟩, ⟨.num (9/10), .num (9/10)⟩⟩⟩]]

/-- The value `v` is the larger of 0 and the largest of `f 0, ..., f (n - 1)`:
it is their `math.Max`, it is at least 0 and at least every `f k`, and it is 0
or one of the `f k`. -/
def ClampedMax (f : Nat → GoFloat) (n : Nat) (v : GoFloat) : Prop :=
  v = goMax (.num 0) (maxUpToF f (n - 1)) ∧ goLe (.num 0) v ∧
    (∀ k, k < n → goLe (f k) v) ∧ (v = .num 0 ∨ ∃ k, k < n ∧ f k = v)

/-- A point of rationals as a point of `float64` values. -/
def liftPoint (p : Point) : PointF := ⟨.num p.X, .num p.Y⟩

/-- A canvas of rationals as a canvas of `float64` values. -/
def liftCanvas (c : Canvas) : CanvasF := ⟨liftPoint c.Min, liftPoint c.Max⟩

/-- The canvas of rationals that a canvas of finite `float64` values is. -/
def lowerCanvas (c : CanvasF) : Option Canvas :=
  match c with
  | ⟨⟨.num a, .num b⟩, ⟨.num a', .num b'⟩⟩ => some ⟨⟨a, b⟩, ⟨a', b'⟩⟩
  | _ => none

/-- A plot on rationals as a plot on `float64` values (the identity on the
canvases that are not finite). -/
def liftPlot (p : Plot) : PlotF :=
  ⟨fun c => match lowerCanvas c with
    | some c' => liftCanvas (p.DataCanvas c')
    | none => c⟩

/-- A tiling on rationals as a tiling on `float64` values. -/
def liftTiles (t : Tiles) : TilesF :=
  ⟨t.Rows, t.Cols, fun c x y => match lowerCanvas c with
    | some c' => liftCanvas (t.At c' x y)
    | none => c⟩

/-- A `posNeg` of rationals as one of `float64` values. -/
def liftPosNeg (s : posNeg) : posNegF := ⟨.num s.p, .num s.n⟩

/-! ## Theorems -/

theorem ok_bind {β γ : Type} (a : β) (f : β → Except Fault γ) :
    ((Except.ok a : Except Fault β) >>= f) = f a := rfl

theorem tab1_length (n : Nat) (f : Nat → α) : (tab1 n f).length = n := by
  simp [tab1]

theorem tab1_getElem? (n : Nat) (f : Nat → α) (i : Nat) :
    (tab1 n f)[i]? = if i < n then some (f i) else none := by
  unfold tab1
  rw [List.getElem?_map]
  by_cases h : i < n
  · simp [h, List.getElem?_range h]
  · have : (List.range n)[i]? = none := by
      apply List.getElem?_eq_none
      simpa using h
    simp [h, this]

theorem tab1_congr (n : Nat) (f g : Nat → α) (h : ∀ i, i < n → f i = g i) :
    tab1 n f = tab1 n g := by
  apply List.ext_getElem?
  intro i
  rw [tab1_getElem?, tab1_getElem?]
  by_cases hi : i < n
  · simp [hi, h i hi]
  · simp [hi]

theorem tab_congr (R C : Nat) (f g : Nat → Nat → α)
    (h : ∀ j i, j < R → i < C → f j i = g j i) : tab R C f = tab R C g := by
  unfold tab
  apply tab1_congr
  intro j hj
  apply tab1_congr
  intro i hi
  exact h j i hj hi

theorem replicate_eq_tab1 (n : Nat) (v : α) : List.replicate n v = tab1 n (fun _ => v) := by
  apply List.ext_getElem?
  intro i
  rw [tab1_getElem?, List.getElem?_replicate]

theorem getAt_tab1 (n : Nat) (f : Nat → α) (i : Nat) (h : i < n) :
    getAt (tab1 n f) i = .ok (f i) := by
  simp [getAt, tab1_getElem?, h]

theorem setAt_tab1 (n : Nat) (f : Nat → α) (i : Nat) (v : α) (h : i < n) :
    setAt (tab1 n f) i v = .ok (tab1 n (Function.update f i v)) := by
  unfold setAt
  rw [if_pos (by simpa [tab1_length] using h)]
  congr 1
  apply List.ext_getElem?
  intro k
  rw [List.getElem?_set, tab1_getElem?, tab1_getElem?, tab1_length]
  by_cases hk : i = k
  · subst hk
    simp [h]
  · have hk' : k ≠ i := fun e => hk e.symm
    simp [hk, Function.update_noteq hk']

theorem modifyAt_tab1 (n : Nat) (f : Nat → α) (i : Nat) (g : α → α) (h : i < n) :
    modifyAt (tab1 n f) i g = .ok (tab1 n (Function.update f i (g (f i)))) := by
  unfold modifyAt
  rw [getAt_tab1 n f i h, ok_bind, setAt_tab1 n f i _ h]

theorem getCell_tab (R C : Nat) (f : Nat → Nat → α) (j i : Nat) (hj : j < R) (hi : i < C) :
    getCell (tab R C f) j i = .ok (f j i) := by
  unfold getCell tab
  rw [getAt_tab1 R _ j hj, ok_bind, getAt_tab1 C _ i hi]

theorem setCell_tab (R C : Nat) (f : Nat → Nat → α) (j i : Nat) (v : α) (hj : j < R)
    (hi : i < C) : setCell (tab R C f) j i v = .ok (tab R C (upd2 f j i v)) := by
  unfold setCell tab
  rw [getAt_tab1 R _ j hj, ok_bind, setAt_tab1 C _ i v hi, ok_bind, setAt_tab1 R _ j _ hj]
  congr 1
  apply tab1_congr
  intro j' _
  by_cases hjj : j' = j
  · subst hjj
    rw [Function.update_same]
    apply tab1_congr
    intro i' _
    by_cases hii : i' = i
    · subst hii
      simp [upd2]
    · simp [upd2, hii, Function.update_noteq hii]
  · rw [Function.update_noteq hjj]
    apply tab1_congr
    intro i' _
    simp [upd2, hjj]

theorem forUp_seq (body : Nat → σ → Except Fault σ) (S : Nat → σ) (lo n : Nat)
    (h : ∀ k, k < n → body (lo + k) (S k) = .ok (S (k + 1))) :
    forUp body lo n (S 0) = .ok (S n) := by
  induction n generalizing lo S with
  | zero => rfl
  | succ n ih =>
    have h0 := h 0 (Nat.succ_pos n)
    rw [Nat.add_zero] at h0
    show (body lo (S 0) >>= forUp body (lo + 1) n) = _
    rw [h0, ok_bind]
    apply ih (fun k => S (k + 1)) (lo + 1)
    intro k hk
    have := h (k + 1) (Nat.succ_lt_succ hk)
    rw [show lo + 1 + k = lo + (k + 1) by omega]
    exact this

theorem forDown_seq (body : Nat → σ → Except Fault σ) (S : Nat → σ) (n : Nat)
    (h : ∀ k, k < n → body k (S (k + 1)) = .ok (S k)) :
    forDown body n (S n) = .ok (S 0) := by
  induction n with
  | zero => rfl
  | succ n ih =>
    show (body n (S (n + 1)) >>= forDown body n) = _
    rw [h n (Nat.lt_succ_self n), ok_bind]
    exact ih (fun k hk => h k (Nat.lt_succ_of_lt hk))

theorem forRange_seq {β : Type} (body : Nat → β → σ → Except Fault σ) (S : Nat → σ)
    (lo : Nat) (xs : List β)
    (h : ∀ k x, xs[k]? = some x → body (lo + k) x (S k) = .ok (S (k + 1))) :
    forRange body lo xs (S 0) = .ok (S xs.length) := by
  induction xs generalizing lo S with
  | nil => rfl
  | cons x rest ih =>
    have h0 := h 0 x (by simp)
    rw [Nat.add_zero] at h0
    show (body lo x (S 0) >>= forRange body (lo + 1) rest) = _
    rw [h0, ok_bind]
    apply ih (fun k => S (k + 1)) (lo + 1)
    intro k y hk
    have := h (k + 1) y (by simpa using hk)
    rw [show lo + 1 + k = lo + (k + 1) by omega]
    exact this

theorem initialTiles_tab (R C : Nat) (P : Nat → Nat → Plot) (t : Tiles) (dc : Canvas)
    (hR : t.Rows = R) (hC : t.Cols = C) :
    initialTiles (tab R C P) t dc = .ok (tab R C (tileOf t dc)) := by
  have hR' : t.Rows.toNat = R := by rw [hR]; exact Int.toNat_natCast R
  have hC' : t.Cols.toNat = C := by rw [hC]; exact Int.toNat_natCast C
  unfold initialTiles
  rw [hR', hC']
  have hlen : (tab R C P).length = R := by unfold tab; exact tab1_length R _
  rw [hlen]
  have key := forUp_seq (fun j o =>
      getAt (tab R C P) j >>= fun row =>
      setAt o j (List.replicate row.length zeroCanvas) >>= fun o =>
      forUp (fun i o => setCell o j i (t.At dc i j)) 0 C o)
    (fun j => tab1 R (fun j' => if j' < j then tab1 C (tileOf t dc j') else [])) 0 R ?_
  · have e0 : (List.replicate R ([] : List Canvas)) =
        tab1 R (fun j' => if j' < 0 then tab1 C (tileOf t dc j') else []) := by
      rw [replicate_eq_tab1]
      apply tab1_congr
      intro j' _
      simp
    have eR : tab1 R (fun j' => if j' < R then tab1 C (tileOf t dc j') else []) =
        tab R C (tileOf t dc) := by
      unfold tab
      apply tab1_congr
      intro j' hj'
      simp [hj']
    rw [e0, ← eR]
    exact key
  · intro j hj
    simp only [Nat.zero_add]
    have hrow : getAt (tab R C P) j = .ok (tab1 C (P j)) := by
      unfold tab
      exact getAt_tab1 R _ j hj
    rw [hrow, ok_bind, tab1_length, setAt_tab1 R _ j _ hj, ok_bind]
    have inner := forUp_seq (fun i o => setCell o j i (t.At dc i j))
      (fun i => tab1 R (fun j' => if j' < j then tab1 C (tileOf t dc j')
        else if j' = j then tab1 C (fun i' => if i' < i then tileOf t dc j i' else zeroCanvas)
        else [])) 0 C ?_
    · have e0 : tab1 R (Function.update
            (fun j' => if j' < j then tab1 C (tileOf t dc j') else [])
            j (List.replicate C zeroCanvas)) =
          tab1 R (fun j' => if j' < j then tab1 C (tileOf t dc j')
            else if j' = j then tab1 C (fun i' => if i' < 0 then tileOf t dc j i' else zeroCanvas)
            else []) := by
        apply tab1_congr
        intro j' _
        by_cases hjj : j' = j
        · subst hjj
          simp [replicate_eq_tab1]
        · have : ¬ (j' < j) ∨ j' < j := by omega
          simp [Function.update_noteq hjj, hjj]
      have eC : tab1 R (fun j' => if j' < j then tab1 C (tileOf t dc j')
            else if j' = j then tab1 C (fun i' => if i' < C then tileOf t dc j i' else zeroCanvas)
            else []) =
          tab1 R (fun j' => if j' < j + 1 then tab1 C (tileOf t dc j') else []) := by
        apply tab1_congr
        intro j' _
        by_cases h1 : j' < j
        · have h2 : j' < j + 1 := by omega
          simp [h1, h2]
        · by_cases h2 : j' = j
          · subst h2
            simp
            apply tab1_congr
            intro i' hi'
            simp [hi']
          · have h3 : ¬ (j' < j + 1) := by omega
            simp [h1, h2, h3]
      rw [e0, ← eC]
      exact inner
    · intro i hi
      simp only [Nat.zero_add]
      unfold setCell
      rw [getAt_tab1 R _ j hj, ok_bind]
      simp only [Nat.lt_irrefl, if_false, if_true]
      rw [setAt_tab1 C _ i _ hi, ok_bind, setAt_tab1 R _ j _ hj]
      congr 1
      apply tab1_congr
      intro j' _
      by_cases hjj : j' = j
      · subst hjj
        simp only [Function.update_same, Nat.lt_irrefl, if_false, if_true]
        apply tab1_congr
        intro i' _
        by_cases hii : i' = i
        · subst hii
          simp [tileOf]
        · have : (i' < i + 1) = (i' < i) := by
            apply propext
            omega
          simp [Function.update_noteq hii, this]
      · simp [Function.update_noteq hjj, hjj]

theorem spacingStep_tab (R C : Nat) (P : Nat → Nat → Plot) (T : Nat → Nat → Canvas)
    (j i : Nat) (hj : j < R) (hi : i < C) :
    spacingStep (tab R C T) j i (P j i) (spState R C P T j i) =
      .ok (spState R C P T j (i + 1)) := by
  unfold spacingStep spState
  rw [getCell_tab R C T j i hj hi, ok_bind]
  simp only []
  rw [modifyAt_tab1 C _ i _ hi, ok_bind, modifyAt_tab1 C _ i _ hi, ok_bind,
    modifyAt_tab1 R _ j _ hj, ok_bind, modifyAt_tab1 R _ j _ hj, ok_bind]
  congr 1
  apply Prod.ext
  · apply tab1_congr
    intro i' _
    by_cases h : i' = i
    · subst h
      simp [xSp, runMax, marginLeft, marginRight]
    · have : (i' < i + 1) = (i' < i) := by
        apply propext
        omega
      simp [Function.update_noteq h, this]
  · apply tab1_congr
    intro j' _
    by_cases h : j' = j
    · subst h
      simp [ySp, runMax, marginBottom, marginTop]
    · simp [Function.update_noteq h, h]

theorem spacing_tab (R C : Nat) (P : Nat → Nat → Plot) (T : Nat → Nat → Canvas) (t : Tiles)
    (hR : t.Rows = R) (hC : t.Cols = C) :
    spacing (tab R C P) t (tab R C T) = .ok (tab1 C (xSp P T R), tab1 R (ySp P T C)) := by
  unfold spacing makeSlice
  rw [hR, hC, if_neg (by omega), if_neg (by omega), ok_bind, ok_bind, Int.toNat_natCast,
    Int.toNat_natCast]
  have hrow : ∀ k row, (tab R C P)[k]? = some row → k < R ∧ row = tab1 C (P k) := by
    intro k row h
    unfold tab at h
    rw [tab1_getElem?] at h
    by_cases hk : k < R
    · rw [if_pos hk] at h
      exact ⟨hk, (Option.some.inj h).symm⟩
    · rw [if_neg hk] at h
      cases h
  have hcell : ∀ k i p, (tab1 C (P k))[i]? = some p → i < C ∧ p = P k i := by
    intro k i p h
    rw [tab1_getElem?] at h
    by_cases hi : i < C
    · rw [if_pos hi] at h
      exact ⟨hi, (Option.some.inj h).symm⟩
    · rw [if_neg hi] at h
      cases h
  have key := forRange_seq
    (fun j row s => forRange (fun i p s => spacingStep (tab R C T) j i p s) 0 row s)
    (fun j => spState R C P T j 0) 0 (tab R C P) ?_
  · have hlen : (tab R C P).length = R := by unfold tab; exact tab1_length R _
    rw [hlen] at key
    have e0 : ((List.replicate C (⟨0, 0⟩ : posNeg), List.replicate R (⟨0, 0⟩ : posNeg))) =
        spState R C P T 0 0 := by
      unfold spState
      apply Prod.ext
      · show List.replicate C (⟨0, 0⟩ : posNeg) = _
        rw [replicate_eq_tab1]
        apply tab1_congr
        intro i' _
        simp [xSp, runMax]
      · show List.replicate R (⟨0, 0⟩ : posNeg) = _
        rw [replicate_eq_tab1]
        apply tab1_congr
        intro j' _
        simp [ySp, runMax]
    have eR : spState R C P T R 0 = (tab1 C (xSp P T R), tab1 R (ySp P T C)) := by
      unfold spState
      apply Prod.ext
      · apply tab1_congr
        intro i' _
        simp
      · apply tab1_congr
        intro j' hj'
        simp [hj']
    rw [e0, ← eR]
    exact key
  · intro j row hjrow
    obtain ⟨hj, rfl⟩ := hrow j row hjrow
    simp only [Nat.zero_add]
    have inner := forRange_seq (fun i p s => spacingStep (tab R C T) j i p s)
      (fun i => spState R C P T j i) 0 (tab1 C (P j)) ?_
    · rw [tab1_length] at inner
      have eC : spState R C P T j C = spState R C P T (j + 1) 0 := by
        unfold spState
        apply Prod.ext
        · apply tab1_congr
          intro i' hi'
          simp [hi']
        · apply tab1_congr
          intro j' _
          by_cases h1 : j' < j
          · have h2 : j' < j + 1 := by omega
            simp [h1, h2]
          · by_cases h2 : j' = j
            · subst h2
              simp
            · have h3 : ¬ (j' < j + 1) := by omega
              have h4 : j' ≠ j + 1 ∨ j' = j + 1 := by omega
              simp [h1, h2, h3]
      rw [← eC]
      exact inner
    · intro i p hip
      obtain ⟨hi, rfl⟩ := hcell j i p hip
      simp only [Nat.zero_add]
      exact spacingStep_tab R C P T j i hj hi

theorem upd2_prog {α : Type} (j i : Nat) (new old : Nat → Nat → α) (j' i' : Nat) :
    upd2 (prog j i new old) j i (new j i) j' i' = prog j (i + 1) new old j' i' := by
  unfold upd2 prog
  by_cases h1 : j' = j ∧ i' = i
  · obtain ⟨rfl, rfl⟩ := h1
    simp
  · have h2 : (j' < j ∨ (j' = j ∧ i' < i + 1)) ↔ (j' < j ∨ (j' = j ∧ i' < i)) := by
      constructor
      · rintro (h | ⟨h, h'⟩)
        · exact Or.inl h
        · refine Or.inr ⟨h, ?_⟩
          have : i' ≠ i := fun e => h1 ⟨h, e⟩
          omega
      · rintro (h | ⟨h, h'⟩)
        · exact Or.inl h
        · exact Or.inr ⟨h, by omega⟩
    rw [if_neg h1]
    exact if_congr h2.symm rfl rfl

theorem upd2_progV {α : Type} (i k : Nat) (new old : Nat → Nat → α) (j' i' : Nat) :
    upd2 (progV i (k + 1) new old) k i (new k i) j' i' = progV i k new old j' i' := by
  unfold upd2 progV
  by_cases h1 : j' = k ∧ i' = i
  · obtain ⟨rfl, rfl⟩ := h1
    simp
  · have h2 : (i' < i ∨ (i' = i ∧ k + 1 ≤ j')) ↔ (i' < i ∨ (i' = i ∧ k ≤ j')) := by
      constructor
      · rintro (h | ⟨h, h'⟩)
        · exact Or.inl h
        · exact Or.inr ⟨h, by omega⟩
      · rintro (h | ⟨h, h'⟩)
        · exact Or.inl h
        · refine Or.inr ⟨h, ?_⟩
          have : j' ≠ k := fun e => h1 ⟨e, h⟩
          omega
    rw [if_neg h1]
    exact if_congr h2 rfl rfl

theorem prog_start {α : Type} (R C : Nat) (new old : Nat → Nat → α) :
    tab R C (prog 0 0 new old) = tab R C old := by
  apply tab_congr
  intro j i _ _
  simp [prog]

theorem prog_row {α : Type} (R C j : Nat) (new old : Nat → Nat → α) :
    tab R C (prog j C new old) = tab R C (prog (j + 1) 0 new old) := by
  apply tab_congr
  intro j' i' _ hi'
  unfold prog
  have : (j' < j ∨ (j' = j ∧ i' < C)) ↔ (j' < j + 1 ∨ (j' = j + 1 ∧ i' < 0)) := by
    constructor
    · rintro (h | ⟨h, _⟩)
      · exact Or.inl (by omega)
      · exact Or.inl (by omega)
    · rintro (h | ⟨_, h'⟩)
      · by_cases e : j' = j
        · exact Or.inr ⟨e, hi'⟩
        · exact Or.inl (by omega)
      · omega
  exact if_congr this rfl rfl

theorem prog_end {α : Type} (R C : Nat) (new old : Nat → Nat → α) :
    tab R C (prog R 0 new old) = tab R C new := by
  apply tab_congr
  intro j i hj _
  simp [prog, hj]

theorem progV_start {α : Type} (R C : Nat) (new old : Nat → Nat → α) :
    tab R C (progV 0 R new old) = tab R C old := by
  apply tab_congr
  intro j i hj _
  have : ¬ (R ≤ j) := by omega
  simp [progV, this]

theorem progV_col {α : Type} (R C i : Nat) (new old : Nat → Nat → α) :
    tab R C (progV i 0 new old) = tab R C (progV (i + 1) R new old) := by
  apply tab_congr
  intro j' i' hj' _
  unfold progV
  have : (i' < i ∨ (i' = i ∧ 0 ≤ j')) ↔ (i' < i + 1 ∨ (i' = i + 1 ∧ R ≤ j')) := by
    constructor
    · rintro (h | ⟨h, _⟩)
      · exact Or.inl (by omega)
      · exact Or.inl (by omega)
    · rintro (h | ⟨_, h'⟩)
      · by_cases e : i' = i
        · exact Or.inr ⟨e, Nat.zero_le _⟩
        · exact Or.inl (by omega)
      · omega
  exact if_congr this rfl rfl

theorem progV_end {α : Type} (R C : Nat) (new old : Nat → Nat → α) :
    tab R C (progV C R new old) = tab R C new := by
  apply tab_congr
  intro j i _ hi
  simp [progV, hi]

theorem tab_row {α : Type} (R C : Nat) (f : Nat → Nat → α) (k : Nat) (row : List α)
    (h : (tab R C f)[k]? = some row) : k < R ∧ row = tab1 C (f k) := by
  unfold tab at h
  rw [tab1_getElem?] at h
  by_cases hk : k < R
  · rw [if_pos hk] at h
    exact ⟨hk, (Option.some.inj h).symm⟩
  · rw [if_neg hk] at h
    cases h

theorem tab1_entry {α : Type} (C : Nat) (f : Nat → α) (i : Nat) (p : α)
    (h : (tab1 C f)[i]? = some p) : i < C ∧ p = f i := by
  rw [tab1_getElem?] at h
  by_cases hi : i < C
  · rw [if_pos hi] at h
    exact ⟨hi, (Option.some.inj h).symm⟩
  · rw [if_neg hi] at h
    cases h

theorem tab_length {α : Type} (R C : Nat) (f : Nat → Nat → α) : (tab R C f).length = R := by
  unfold tab
  exact tab1_length R _

theorem normalise_tab (crop : CropFn) (R C : Nat) (P : Nat → Nat → Plot)
    (T : Nat → Nat → Canvas) :
    normalise crop (tab R C P) (tab1 C (xSp P T R)) (tab1 R (ySp P T C)) (tab R C T) =
      .ok (tab R C (normCell crop P T R C)) := by
  unfold normalise
  have key := forRange_seq
    (fun j row o => forRange (fun i p o =>
      normaliseStep crop (tab1 C (xSp P T R)) (tab1 R (ySp P T C)) j i p o) 0 row o)
    (fun j => tab R C (prog j 0 (normCell crop P T R C) T)) 0 (tab R C P) ?_
  · rw [tab_length, prog_end] at key
    rw [← prog_start R C (normCell crop P T R C) T]
    exact key
  · intro j row hjrow
    obtain ⟨hj, rfl⟩ := tab_row R C P j row hjrow
    simp only [Nat.zero_add]
    have inner := forRange_seq (fun i p o =>
        normaliseStep crop (tab1 C (xSp P T R)) (tab1 R (ySp P T C)) j i p o)
      (fun i => tab R C (prog j i (normCell crop P T R C) T)) 0 (tab1 C (P j)) ?_
    · rw [tab1_length, prog_row] at inner
      exact inner
    · intro i p hip
      obtain ⟨hi, rfl⟩ := tab1_entry C (P j) i p hip
      simp only [Nat.zero_add]
      unfold normaliseStep
      rw [getCell_tab R C _ j i hj hi, ok_bind]
      simp only []
      rw [getAt_tab1 C _ i hi, ok_bind, getAt_tab1 R _ j hj, ok_bind,
        setCell_tab R C _ j i _ hj hi]
      congr 1
      apply tab_congr
      intro j' i' _ _
      rw [← upd2_prog]
      have e : prog j i (normCell crop P T R C) T j i = T j i := by
        simp [prog]
      rw [e]
      rfl

theorem horizontalPass_tab (crop : CropFn) (R C : Nat) (P : Nat → Nat → Plot)
    (N : Nat → Nat → Canvas) (t : Tiles) (avgWidth : Length)
    (hR : t.Rows = R) (hC : t.Cols = C) :
    horizontalPass crop (tab R C P) t avgWidth (tab R C N) =
      .ok (tab R C (horCell crop avgWidth P N)) := by
  unfold horizontalPass
  rw [hR, hC, Int.toNat_natCast, Int.toNat_natCast]
  have key := forUp_seq
    (fun j o => forUp (fun i s => horizontalStep crop (tab R C P) avgWidth j i s) 0 C (o, 0)
      >>= fun s => .ok s.1)
    (fun j => tab R C (prog j 0 (horCell crop avgWidth P N) N)) 0 R ?_
  · rw [prog_end, prog_start] at key
    exact key
  · intro j hj
    simp only [Nat.zero_add]
    have inner := forUp_seq (fun i s => horizontalStep crop (tab R C P) avgWidth j i s)
      (fun i => (tab R C (prog j i (horCell crop avgWidth P N) N), moveH avgWidth P N j i))
      0 C ?_
    · have e0 : moveH avgWidth P N j 0 = 0 := by simp [moveH]
      rw [e0] at inner
      rw [inner, ok_bind, prog_row]
    · intro i hi
      simp only [Nat.zero_add]
      unfold horizontalStep
      simp only []
      rw [getCell_tab R C _ j i hj hi, ok_bind, getCell_tab R C P j i hj hi, ok_bind,
        setCell_tab R C _ j i _ hj hi, ok_bind]
      have e : prog j i (horCell crop avgWidth P N) N j i = N j i := by
        simp [prog]
      rw [e]
      congr 1
      apply Prod.ext
      · apply tab_congr
        intro j' i' _ _
        rw [← upd2_prog]
        rfl
      · show moveH avgWidth P N j i + (avgWidth - dataWidth (P j i) (N j i)) = _
        unfold moveH
        rw [Finset.sum_range_succ]

theorem verticalPass_tab (crop : CropFn) (R C : Nat) (P : Nat → Nat → Plot)
    (H : Nat → Nat → Canvas) (t : Tiles) (avgHeight : Length)
    (hR : t.Rows = R) (hC : t.Cols = C) :
    verticalPass crop (tab R C P) t avgHeight (tab R C H) =
      .ok (tab R C (verCell crop avgHeight P H R)) := by
  unfold verticalPass
  rw [hR, hC, Int.toNat_natCast, Int.toNat_natCast]
  have key := forUp_seq
    (fun i o => forDown (fun j s => verticalStep crop (tab R C P) avgHeight i j s) R (o, 0)
      >>= fun s => .ok s.1)
    (fun i => tab R C (progV i R (verCell crop avgHeight P H R) H)) 0 C ?_
  · rw [progV_end, progV_start] at key
    exact key
  · intro i hi
    simp only [Nat.zero_add]
    have inner := forDown_seq (fun j s => verticalStep crop (tab R C P) avgHeight i j s)
      (fun k => (tab R C (progV i k (verCell crop avgHeight P H R) H),
        ∑ k' in Finset.Ico k R, (avgHeight - dataHeight (P k' i) (H k' i))))
      R ?_
    · simp only [Finset.Ico_self, Finset.sum_empty] at inner
      rw [inner, ok_bind, progV_col]
    · intro k hk
      unfold verticalStep
      simp only []
      rw [getCell_tab R C _ k i hk hi, ok_bind, getCell_tab R C P k i hk hi, ok_bind,
        setCell_tab R C _ k i _ hk hi, ok_bind]
      have e : progV i (k + 1) (verCell crop avgHeight P H R) H k i = H k i := by
        simp [progV]
      rw [e]
      congr 1
      apply Prod.ext
      · apply tab_congr
        intro j' i' _ _
        rw [← upd2_progV]
        rfl
      · show _ + (avgHeight - dataHeight (P k i) (H k i)) = _
        rw [Finset.sum_eq_sum_Ico_succ_bot hk, add_comm]

theorem alignTrace_tab (crop : CropFn) (R C : Nat) (P : Nat → Nat → Plot) (t : Tiles)
    (dc : Canvas) (hR : t.Rows = R) (hC : t.Cols = C) :
    alignTrace crop (tab R C P) t dc = .ok (traceOf crop P t dc R C) := by
  unfold alignTrace
  rw [initialTiles_tab R C P t dc hR hC, ok_bind, spacing_tab R C P _ t hR hC, ok_bind]
  simp only []
  rw [normalise_tab, ok_bind, horizontalPass_tab crop R C P _ t _ hR hC, ok_bind,
    verticalPass_tab crop R C P _ t _ hR hC, ok_bind]
  rfl

theorem list_eq_tab1 {α : Type} (l : List α) (d : α) :
    l = tab1 l.length (fun i => l.getD i d) := by
  apply List.ext_getElem?
  intro i
  rw [tab1_getElem?]
  by_cases h : i < l.length
  · rw [if_pos h, List.getD_eq_getElem?_getD, List.getElem?_eq_getElem h]
    rfl
  · rw [if_neg h]
    apply List.getElem?_eq_none
    omega

theorem wellFormed_tab (plots : List (List Plot)) (t : Tiles) (h : WellFormed plots t) :
    plots = tab t.Rows.toNat t.Cols.toNat (plotAt plots) := by
  obtain ⟨_, _, hlen, hrows⟩ := h
  have hR : t.Rows.toNat = plots.length := by rw [← hlen]; exact Int.toNat_natCast _
  rw [hR]
  conv_lhs => rw [list_eq_tab1 plots []]
  unfold tab
  apply tab1_congr
  intro j hj
  have hmem : plots.getD j [] ∈ plots := by
    rw [List.getD_eq_getElem?_getD, List.getElem?_eq_getElem hj]
    exact List.getElem_mem hj
  have hC : t.Cols.toNat = (plots.getD j []).length := by
    rw [← hrows _ hmem]
    exact Int.toNat_natCast _
  rw [hC]
  exact list_eq_tab1 _ default

/-- On a well-formed grid `Align` runs to its end, and its trace is the one
tabulated by `traceOf`. -/
theorem alignTrace_wellFormed (crop : CropFn) (plots : List (List Plot)) (t : Tiles)
    (dc : Canvas) (h : WellFormed plots t) :
    alignTrace crop plots t dc =
      .ok (traceOf crop (plotAt plots) t dc t.Rows.toNat t.Cols.toNat) := by
  have hR : t.Rows = (t.Rows.toNat : Int) := (Int.toNat_of_nonneg (by have := h.1; omega)).symm
  have hC : t.Cols = (t.Cols.toNat : Int) := (Int.toNat_of_nonneg (by have := h.2.1; omega)).symm
  have e := alignTrace_tab crop t.Rows.toNat t.Cols.toNat (plotAt plots) t dc hR hC
  rw [← wellFormed_tab plots t h] at e
  exact e

theorem align_eq_out (crop : CropFn) (plots : List (List Plot)) (t : Tiles) (dc : Canvas)
    (tr : Trace) (h : alignTrace crop plots t dc = .ok tr) :
    Align crop plots t dc = .ok tr.out := by
  unfold Align
  rw [h, ok_bind]

theorem getCell_plots (plots : List (List Plot)) (t : Tiles) (h : WellFormed plots t)
    (j i : Nat) (hj : (j : Int) < t.Rows) (hi : (i : Int) < t.Cols) :
    getCell plots j i = .ok (plotAt plots j i) := by
  conv_lhs => rw [wellFormed_tab plots t h]
  exact getCell_tab _ _ _ j i (by omega) (by omega)

theorem isFixedMargin_fixedMargin (l r b tp : Length) : IsFixedMargin (fixedMargin l r b tp) :=
  ⟨l, r, b, tp, fun _ => rfl⟩

theorem plotAt_fixed (plots : List (List Plot)) (h : FixedGrid plots) (j i : Nat) :
    IsFixedMargin (plotAt plots j i) := by
  unfold plotAt
  by_cases hj : j < plots.length
  · have hrow : plots.getD j [] = plots[j] := by
      rw [List.getD_eq_getElem?_getD, List.getElem?_eq_getElem hj]
      rfl
    rw [hrow]
    by_cases hi : i < plots[j].length
    · have hp : plots[j].getD i default = plots[j][i] := by
        rw [List.getD_eq_getElem?_getD, List.getElem?_eq_getElem hi]
        rfl
      rw [hp]
      exact h _ (List.getElem_mem hj) _ (List.getElem_mem hi)
    · have hp : plots[j].getD i default = default := by
        rw [List.getD_eq_getElem?_getD, List.getElem?_eq_none (by omega)]
        rfl
      rw [hp]
      exact ⟨0, 0, 0, 0, fun c => by simp [default]⟩
  · have hrow : plots.getD j [] = [] := by
      rw [List.getD_eq_getElem?_getD, List.getElem?_eq_none (by omega)]
      rfl
    rw [hrow]
    exact ⟨0, 0, 0, 0, fun c => by simp [default]⟩

/-- The margins of a fixed-margin plot do not depend on the cell. -/
theorem margins_fixed (p : Plot) (h : IsFixedMargin p) (c c' : Canvas) :
    marginLeft p c = marginLeft p c' ∧ marginRight p c = marginRight p c' ∧
    marginBottom p c = marginBottom p c' ∧ marginTop p c = marginTop p c' := by
  obtain ⟨l, r, b, tp, hp⟩ := h
  simp [marginLeft, marginRight, marginBottom, marginTop, hp]

theorem dataCanvas_margins (p : Plot) (c : Canvas) :
    p.DataCanvas c = ⟨⟨c.Min.X + marginLeft p c, c.Min.Y + marginBottom p c⟩,
      ⟨c.Max.X - marginRight p c, c.Max.Y - marginTop p c⟩⟩ := by
  simp [marginLeft, marginRight, marginBottom, marginTop]

theorem dataWidth_margins (p : Plot) (c : Canvas) :
    dataWidth p c = c.Max.X - c.Min.X - marginLeft p c - marginRight p c := by
  simp only [dataWidth, marginLeft, marginRight]
  ring

theorem dataHeight_margins (p : Plot) (c : Canvas) :
    dataHeight p c = c.Max.Y - c.Min.Y - marginBottom p c - marginTop p c := by
  simp only [dataHeight, marginBottom, marginTop]
  ring

theorem gridN_fixed (P : Nat → Nat → Plot) (t : Tiles) (dc : Canvas) (R C j i : Nat) :
    gridN Crop P t dc R C j i =
      ⟨⟨(tileOf t dc j i).Min.X
          + ((xSp P (tileOf t dc) R i).n - marginLeft (P j i) (tileOf t dc j i)),
        (tileOf t dc j i).Min.Y
          + ((ySp P (tileOf t dc) C j).n - marginBottom (P j i) (tileOf t dc j i))⟩,
       ⟨(tileOf t dc j i).Max.X
          + (marginRight (P j i) (tileOf t dc j i) - (xSp P (tileOf t dc) R i).p),
        (tileOf t dc j i).Max.Y
          + (marginTop (P j i) (tileOf t dc j i) - (ySp P (tileOf t dc) C j).p)⟩⟩ := rfl

theorem dataWidth_gridN (P : Nat → Nat → Plot) (t : Tiles) (dc : Canvas) (R C j i : Nat)
    (hP : IsFixedMargin (P j i)) :
    dataWidth (P j i) (gridN Crop P t dc R C j i) =
      (tileOf t dc j i).Max.X - (tileOf t dc j i).Min.X
        - (xSp P (tileOf t dc) R i).n - (xSp P (tileOf t dc) R i).p := by
  have hm := margins_fixed (P j i) hP (gridN Crop P t dc R C j i) (tileOf t dc j i)
  rw [dataWidth_margins, hm.1, hm.2.1, gridN_fixed]
  ring

theorem moveH_fixed (P : Nat → Nat → Plot) (t : Tiles) (dc : Canvas) (R C j i : Nat)
    (hP : ∀ j i, IsFixedMargin (P j i)) :
    moveH (avgW P t dc R C) P (gridN Crop P t dc R C) j i = shiftH P t dc R C j i := by
  unfold moveH shiftH
  apply Finset.sum_congr rfl
  intro k _
  rw [dataWidth_gridN P t dc R C j k (hP j k)]

theorem gridH_fixed (P : Nat → Nat → Plot) (t : Tiles) (dc : Canvas) (R C j i : Nat)
    (hP : ∀ j i, IsFixedMargin (P j i)) :
    gridH Crop P t dc R C j i =
      ⟨⟨(tileOf t dc j i).Min.X
          + ((xSp P (tileOf t dc) R i).n - marginLeft (P j i) (tileOf t dc j i))
          + shiftH P t dc R C j i,
        (tileOf t dc j i).Min.Y
          + ((ySp P (tileOf t dc) C j).n - marginBottom (P j i) (tileOf t dc j i))⟩,
       ⟨(tileOf t dc j i).Max.X
          + (marginRight (P j i) (tileOf t dc j i) - (xSp P (tileOf t dc) R i).p)
          + shiftH P t dc R C j (i + 1),
        (tileOf t dc j i).Max.Y
          + (marginTop (P j i) (tileOf t dc j i) - (ySp P (tileOf t dc) C j).p)⟩⟩ := by
  have e : gridH Crop P t dc R C j i =
      Crop (gridN Crop P t dc R C j i) (moveH (avgW P t dc R C) P (gridN Crop P t dc R C) j i)
        (moveH (avgW P t dc R C) P (gridN Crop P t dc R C) j i + avgW P t dc R C
          - dataWidth (P j i) (gridN Crop P t dc R C j i)) 0 0 := rfl
  have hs : shiftH P t dc R C j (i + 1) = shiftH P t dc R C j i + (avgW P t dc R C -
      ((tileOf t dc j i).Max.X - (tileOf t dc j i).Min.X
        - (xSp P (tileOf t dc) R i).n - (xSp P (tileOf t dc) R i).p)) := by
    unfold shiftH
    rw [Finset.sum_range_succ]
  rw [e, moveH_fixed P t dc R C j i hP, dataWidth_gridN P t dc R C j i (hP j i), hs, gridN_fixed]
  simp only [Crop, Rectangle.mk.injEq, Point.mk.injEq]
  refine ⟨⟨trivial, by ring⟩, ⟨by ring, by ring⟩⟩

theorem dataHeight_gridH (P : Nat → Nat → Plot) (t : Tiles) (dc : Canvas) (R C j i : Nat)
    (hP : ∀ j i, IsFixedMargin (P j i)) :
    dataHeight (P j i) (gridH Crop P t dc R C j i) =
      (tileOf t dc j i).Max.Y - (tileOf t dc j i).Min.Y
        - (ySp P (tileOf t dc) C j).n - (ySp P (tileOf t dc) C j).p := by
  have hm := margins_fixed (P j i) (hP j i) (gridH Crop P t dc R C j i) (tileOf t dc j i)
  rw [dataHeight_margins, hm.2.2.1, hm.2.2.2, gridH_fixed P t dc R C j i hP]
  ring

theorem moveV_fixed (P : Nat → Nat → Plot) (t : Tiles) (dc : Canvas) (R C j i : Nat)
    (hP : ∀ j i, IsFixedMargin (P j i)) :
    moveV (avgH P t dc R C) P (gridH Crop P t dc R C) R j i = shiftV P t dc R C (j + 1) i := by
  unfold moveV shiftV
  apply Finset.sum_congr rfl
  intro k _
  rw [dataHeight_gridH P t dc R C k i hP]

/-- The rectangle `Align` returns for the cell `(j, i)` of a grid of
fixed-margin plots, from the tiles, the margins and the spacings. -/
theorem gridV_fixed (P : Nat → Nat → Plot) (t : Tiles) (dc : Canvas) (R C j i : Nat)
    (hP : ∀ j i, IsFixedMargin (P j i)) (hj : j < R) :
    gridV Crop P t dc R C j i =
      ⟨⟨(tileOf t dc j i).Min.X
          + ((xSp P (tileOf t dc) R i).n - marginLeft (P j i) (tileOf t dc j i))
          + shiftH P t dc R C j i,
        (tileOf t dc j i).Min.Y
          + ((ySp P (tileOf t dc) C j).n - marginBottom (P j i) (tileOf t dc j i))
          + shiftV P t dc R C (j + 1) i⟩,
       ⟨(tileOf t dc j i).Max.X
          + (marginRight (P j i) (tileOf t dc j i) - (xSp P (tileOf t dc) R i).p)
          + shiftH P t dc R C j (i + 1),
        (tileOf t dc j i).Max.Y
          + (marginTop (P j i) (tileOf t dc j i) - (ySp P (tileOf t dc) C j).p)
          + shiftV P t dc R C j i⟩⟩ := by
  have e : gridV Crop P t dc R C j i =
      Crop (gridH Crop P t dc R C j i) 0 0
        (moveV (avgH P t dc R C) P (gridH Crop P t dc R C) R j i)
        (moveV (avgH P t dc R C) P (gridH Crop P t dc R C) R j i + avgH P t dc R C
          - dataHeight (P j i) (gridH Crop P t dc R C j i)) := rfl
  have hs : shiftV P t dc R C j i = shiftV P t dc R C (j + 1) i + (avgH P t dc R C -
      ((tileOf t dc j i).Max.Y - (tileOf t dc j i).Min.Y
        - (ySp P (tileOf t dc) C j).n - (ySp P (tileOf t dc) C j).p)) := by
    unfold shiftV
    rw [Finset.sum_eq_sum_Ico_succ_bot hj, add_comm]
  rw [e, moveV_fixed P t dc R C j i hP, dataHeight_gridH P t dc R C j i hP, hs,
    gridH_fixed P t dc R C j i hP]
  simp only [Crop, Rectangle.mk.injEq, Point.mk.injEq]
  refine ⟨⟨by ring, trivial⟩, ⟨by ring, by ring⟩⟩

theorem foldl_add_eq {α : Type} (f : α → ℚ) (l : List α) (init : ℚ) :
    l.foldl (fun total s => total + f s) init = init + (l.map f).sum := by
  induction l generalizing init with
  | nil => simp
  | cons x rest ih =>
    simp only [List.foldl_cons, List.map_cons, List.sum_cons]
    rw [ih]
    ring

theorem totalSpace_eq_sum (s : List posNeg) :
    totalSpace s = (s.map (fun v => v.n + v.p)).sum := by
  unfold totalSpace
  rw [foldl_add_eq (fun v => v.n + v.p) s 0]
  ring

theorem sum_tab1 {α : Type} (n : Nat) (f : Nat → α) (g : α → ℚ) :
    ((tab1 n f).map g).sum = ∑ i in Finset.range n, g (f i) := by
  induction n with
  | zero => simp [tab1]
  | succ n ih =>
    unfold tab1 at ih ⊢
    rw [List.range_succ, List.map_append, List.map_append, List.sum_append, ih,
      Finset.sum_range_succ]
    simp

theorem totalSpace_tab1 (n : Nat) (f : Nat → posNeg) :
    totalSpace (tab1 n f) = ∑ i in Finset.range n, ((f i).n + (f i).p) := by
  rw [totalSpace_eq_sum, sum_tab1]

theorem dataOf_tab (plots : List (List Plot)) (t : Tiles) (h : WellFormed plots t)
    (G : Nat → Nat → Canvas) (j i : Nat) (hj : (j : Int) < t.Rows) (hi : (i : Int) < t.Cols) :
    dataOf plots (tab t.Rows.toNat t.Cols.toNat G) j i =
      .ok ((plotAt plots j i).DataCanvas (G j i)) := by
  unfold dataOf
  rw [getCell_plots plots t h j i hj hi, ok_bind,
    getCell_tab _ _ G j i (by omega) (by omega), ok_bind]

/-- The data canvas of the cell `(j, i)` in the grid `Align` returns, for
fixed-margin plots. -/
theorem data_gridV_fixed (P : Nat → Nat → Plot) (t : Tiles) (dc : Canvas) (R C j i : Nat)
    (hP : ∀ j i, IsFixedMargin (P j i)) (hj : j < R) :
    (P j i).DataCanvas (gridV Crop P t dc R C j i) =
      ⟨⟨(tileOf t dc j i).Min.X + (xSp P (tileOf t dc) R i).n + shiftH P t dc R C j i,
        (tileOf t dc j i).Min.Y + (ySp P (tileOf t dc) C j).n + shiftV P t dc R C (j + 1) i⟩,
       ⟨(tileOf t dc j i).Max.X - (xSp P (tileOf t dc) R i).p + shiftH P t dc R C j (i + 1),
        (tileOf t dc j i).Max.Y - (ySp P (tileOf t dc) C j).p + shiftV P t dc R C j i⟩⟩ := by
  have hm := margins_fixed (P j i) (hP j i) (gridV Crop P t dc R C j i) (tileOf t dc j i)
  rw [dataCanvas_margins, hm.1, hm.2.1, hm.2.2.1, hm.2.2.2, gridV_fixed P t dc R C j i hP hj]
  simp only [Rectangle.mk.injEq, Point.mk.injEq]
  refine ⟨⟨by ring, by ring⟩, ⟨by ring, by ring⟩⟩

theorem shiftH_succ (P : Nat → Nat → Plot) (t : Tiles) (dc : Canvas) (R C j i : Nat) :
    shiftH P t dc R C j (i + 1) = shiftH P t dc R C j i + (avgW P t dc R C -
      ((tileOf t dc j i).Max.X - (tileOf t dc j i).Min.X
        - (xSp P (tileOf t dc) R i).n - (xSp P (tileOf t dc) R i).p)) := by
  unfold shiftH
  rw [Finset.sum_range_succ]

theorem shiftV_succ (P : Nat → Nat → Plot) (t : Tiles) (dc : Canvas) (R C j i : Nat)
    (hj : j < R) :
    shiftV P t dc R C j i = shiftV P t dc R C (j + 1) i + (avgH P t dc R C -
      ((tileOf t dc j i).Max.Y - (tileOf t dc j i).Min.Y
        - (ySp P (tileOf t dc) C j).n - (ySp P (tileOf t dc) C j).p)) := by
  unfold shiftV
  rw [Finset.sum_eq_sum_Ico_succ_bot hj, add_comm]

theorem shiftH_congr (P : Nat → Nat → Plot) (t : Tiles) (dc : Canvas) (R C j j' i : Nat)
    (h : ∀ k, k < i → (tileOf t dc j k).Min.X = (tileOf t dc j' k).Min.X ∧
      (tileOf t dc j k).Max.X = (tileOf t dc j' k).Max.X) :
    shiftH P t dc R C j i = shiftH P t dc R C j' i := by
  unfold shiftH
  apply Finset.sum_congr rfl
  intro k hk
  rw [(h k (Finset.mem_range.mp hk)).1, (h k (Finset.mem_range.mp hk)).2]

theorem shiftV_congr (P : Nat → Nat → Plot) (t : Tiles) (dc : Canvas) (R C j i i' : Nat)
    (h : ∀ k, k < R → (tileOf t dc k i).Min.Y = (tileOf t dc k i').Min.Y ∧
      (tileOf t dc k i).Max.Y = (tileOf t dc k i').Max.Y) :
    shiftV P t dc R C j i = shiftV P t dc R C j i' := by
  unfold shiftV
  apply Finset.sum_congr rfl
  intro k hk
  rw [(h k (Finset.mem_Ico.mp hk).2).1, (h k (Finset.mem_Ico.mp hk).2).2]

theorem fixedGrid_of_forall (plots : List (List Plot))
    (h : ∀ row ∈ plots, ∀ p ∈ row, ∃ l r b tp, p = fixedMargin l r b tp) : FixedGrid plots := by
  intro row hrow p hp
  obtain ⟨l, r, b, tp, rfl⟩ := h row hrow p hp
  exact isFixedMargin_fixedMargin l r b tp

theorem scenario_wellFormed : WellFormed scenarioPlots (equalTiles 1 2) := by
  simp [WellFormed, scenarioPlots, equalTiles]

theorem scenario_fixed : FixedGrid scenarioPlots := by
  apply fixedGrid_of_forall
  simp [scenarioPlots]
  exact ⟨⟨_, _, _, _, rfl⟩, ⟨_, _, _, _, rfl⟩⟩

theorem equalTiles_isEqualTiling (rows cols : Int) (dc : Canvas) :
    IsEqualTiling (equalTiles rows cols) dc := fun _ _ _ _ => rfl

/-- C1. Uniform data size: for a well-formed grid of fixed-margin plots (with
the additive `Crop` and exact arithmetic), `Align` returns a grid in which the
data canvas of every cell has width exactly `avgWidth`, the canvas width minus
the sum of `xSpacing[i].n + xSpacing[i].p` over the columns, divided by the
number of columns, and height exactly `avgHeight`, likewise from the rows; so
all data canvases have one common width and one common height. -/
theorem uniform_data_size (plots : List (List Plot)) (t : Tiles) (dc : Canvas)
    (hwf : WellFormed plots t) (hfm : FixedGrid plots) :
    ∃ tr, alignTrace Crop plots t dc = .ok tr ∧ Align Crop plots t dc = .ok tr.out ∧
      (tr.xSpacing.length : Int) = t.Cols ∧ (tr.ySpacing.length : Int) = t.Rows ∧
      tr.avgWidth = ((dc.Max.X - dc.Min.X)
        - (tr.xSpacing.map (fun s => s.n + s.p)).sum) / (t.Cols : ℚ) ∧
      tr.avgHeight = ((dc.Max.Y - dc.Min.Y)
        - (tr.ySpacing.map (fun s => s.n + s.p)).sum) / (t.Rows : ℚ) ∧
      ∀ j i : Nat, (j : Int) < t.Rows → (i : Int) < t.Cols →
        ∃ d, dataOf plots tr.out j i = .ok d ∧
          d.Max.X - d.Min.X = tr.avgWidth ∧ d.Max.Y - d.Min.Y = tr.avgHeight := by
  have hrun := alignTrace_wellFormed Crop plots t dc hwf
  refine ⟨_, hrun, align_eq_out _ _ _ _ _ hrun, ?_, ?_, ?_, ?_, ?_⟩
  · show ((tab1 _ _).length : Int) = _
    rw [tab1_length]
    exact Int.toNat_of_nonneg (by have := hwf.2.1; omega)
  · show ((tab1 _ _).length : Int) = _
    rw [tab1_length]
    exact Int.toNat_of_nonneg (by have := hwf.1; omega)
  · show avgW _ _ _ _ _ = _
    unfold avgW
    rw [totalSpace_eq_sum]
    rfl
  · show avgH _ _ _ _ _ = _
    unfold avgH
    rw [totalSpace_eq_sum]
    rfl
  · intro j i hj hi
    refine ⟨_, dataOf_tab plots t hwf _ j i hj hi, ?_, ?_⟩
    · show _ = avgW _ _ _ _ _
      rw [data_gridV_fixed _ t dc _ _ j i (plotAt_fixed plots hfm) (by omega), shiftH_succ]
      ring
    · show _ = avgH _ _ _ _ _
      rw [data_gridV_fixed _ t dc _ _ j i (plotAt_fixed plots hfm) (by omega),
        shiftV_succ _ t dc _ _ j i (by omega)]
      ring

theorem uniform_data_size_witness :
    WellFormed scenarioPlots (equalTiles 1 2) ∧ FixedGrid scenarioPlots ∧
    ∃ tr : Trace, Align Crop scenarioPlots (equalTiles 1 2) unitCanvas = .ok tr.out ∧
      ∀ j i : Nat, (j : Int) < 1 → (i : Int) < 2 →
        ∃ d, dataOf scenarioPlots tr.out j i = .ok d ∧
          d.Max.X - d.Min.X = tr.avgWidth ∧ d.Max.Y - d.Min.Y = tr.avgHeight := by
  obtain ⟨tr, _, h2, _, _, _, _, h7⟩ :=
    uniform_data_size scenarioPlots (equalTiles 1 2) unitCanvas scenario_wellFormed
      scenario_fixed
  exact ⟨scenario_wellFormed, scenario_fixed, tr, h2, h7⟩

/-- C2. Data canvases line up: for a well-formed grid of fixed-margin plots
(additive `Crop`, exact arithmetic) on tiles that have the same X-extent down
each column and the same Y-extent along each row, in the grid `Align` returns
any two cells of a column have data canvases with equal `Min.X` and equal
`Max.X`, and any two cells of a row have data canvases with equal `Min.Y` and
equal `Max.Y`. -/
theorem data_canvases_line_up (plots : List (List Plot)) (t : Tiles) (dc : Canvas)
    (hwf : WellFormed plots t) (hfm : FixedGrid plots)
    (hX : ∀ j j' i : Nat, (j : Int) < t.Rows → (j' : Int) < t.Rows → (i : Int) < t.Cols →
      (t.At dc i j).Min.X = (t.At dc i j').Min.X ∧ (t.At dc i j).Max.X = (t.At dc i j').Max.X)
    (hY : ∀ j i i' : Nat, (j : Int) < t.Rows → (i : Int) < t.Cols → (i' : Int) < t.Cols →
      (t.At dc i j).Min.Y = (t.At dc i' j).Min.Y ∧ (t.At dc i j).Max.Y = (t.At dc i' j).Max.Y) :
    ∃ tr, alignTrace Crop plots t dc = .ok tr ∧ Align Crop plots t dc = .ok tr.out ∧
      (∀ j j' i : Nat, (j : Int) < t.Rows → (j' : Int) < t.Rows → (i : Int) < t.Cols →
        ∃ d d', dataOf plots tr.out j i = .ok d ∧ dataOf plots tr.out j' i = .ok d' ∧
          d.Min.X = d'.Min.X ∧ d.Max.X = d'.Max.X) ∧
      (∀ j i i' : Nat, (j : Int) < t.Rows → (i : Int) < t.Cols → (i' : Int) < t.Cols →
        ∃ d d', dataOf plots tr.out j i = .ok d ∧ dataOf plots tr.out j i' = .ok d' ∧
          d.Min.Y = d'.Min.Y ∧ d.Max.Y = d'.Max.Y) := by
  have hrun := alignTrace_wellFormed Crop plots t dc hwf
  have hP := plotAt_fixed plots hfm
  refine ⟨_, hrun, align_eq_out _ _ _ _ _ hrun, ?_, ?_⟩
  · intro j j' i hj hj' hi
    refine ⟨_, _, dataOf_tab plots t hwf _ j i hj hi, dataOf_tab plots t hwf _ j' i hj' hi, ?_⟩
    rw [data_gridV_fixed _ t dc _ _ j i hP (by omega),
      data_gridV_fixed _ t dc _ _ j' i hP (by omega)]
    have e1 := shiftH_congr (plotAt plots) t dc t.Rows.toNat t.Cols.toNat j j' i
      (fun k hk => hX j j' k hj hj' (by omega))
    have e2 := shiftH_congr (plotAt plots) t dc t.Rows.toNat t.Cols.toNat j j' (i + 1)
      (fun k hk => hX j j' k hj hj' (by omega))
    have e3 : (tileOf t dc j i).Min.X = (tileOf t dc j' i).Min.X ∧
        (tileOf t dc j i).Max.X = (tileOf t dc j' i).Max.X := hX j j' i hj hj' hi
    simp only []
    rw [e1, e2, e3.1, e3.2]
    exact ⟨rfl, rfl⟩
  · intro j i i' hj hi hi'
    refine ⟨_, _, dataOf_tab plots t hwf _ j i hj hi, dataOf_tab plots t hwf _ j i' hj hi', ?_⟩
    rw [data_gridV_fixed _ t dc _ _ j i hP (by omega),
      data_gridV_fixed _ t dc _ _ j i' hP (by omega)]
    have hk : ∀ k, k < t.Rows.toNat → (tileOf t dc k i).Min.Y = (tileOf t dc k i').Min.Y ∧
        (tileOf t dc k i).Max.Y = (tileOf t dc k i').Max.Y :=
      fun k hk => hY k i i' (by omega) hi hi'
    have e1 := shiftV_congr (plotAt plots) t dc t.Rows.toNat t.Cols.toNat j i i' hk
    have e2 := shiftV_congr (plotAt plots) t dc t.Rows.toNat t.Cols.toNat (j + 1) i i' hk
    have e3 := hk j (by omega)
    simp only []
    rw [e1, e2, e3.1, e3.2]
    exact ⟨rfl, rfl⟩

theorem data_canvases_line_up_witness :
    WellFormed scenarioPlots (equalTiles 1 2) ∧ FixedGrid scenarioPlots ∧
    ∃ tr : Trace, Align Crop scenarioPlots (equalTiles 1 2) unitCanvas = .ok tr.out ∧
      ∀ j i i' : Nat, (j : Int) < 1 → (i : Int) < 2 → (i' : Int) < 2 →
        ∃ d d', dataOf scenarioPlots tr.out j i = .ok d ∧
          dataOf scenarioPlots tr.out j i' = .ok d' ∧
          d.Min.Y = d'.Min.Y ∧ d.Max.Y = d'.Max.Y := by
  obtain ⟨tr, _, h2, _, h4⟩ :=
    data_canvases_line_up scenarioPlots (equalTiles 1 2) unitCanvas scenario_wellFormed
      scenario_fixed (fun _ _ _ _ _ _ => ⟨rfl, rfl⟩) (fun _ _ _ _ _ _ => ⟨rfl, rfl⟩)
  exact ⟨scenario_wellFormed, scenario_fixed, tr, h2, h4⟩

theorem tab1_two {α : Type} (f : Nat → α) : tab1 2 f = [f 0, f 1] := rfl

theorem tab1_one {α : Type} (f : Nat → α) : tab1 1 f = [f 0] := rfl

theorem tab_rows {α : Type} (R C : Nat) (f : Nat → Nat → α) (row : List α)
    (h : row ∈ tab R C f) : row.length = C := by
  unfold tab tab1 at h
  rw [List.mem_map] at h
  obtain ⟨j, _, rfl⟩ := h
  exact tab1_length C _

/-- The data canvas of a cell of the returned grid, for fixed-margin plots, has
the width `avgWidth` and the height `avgHeight`. -/
theorem dataOf_out_fixed (plots : List (List Plot)) (t : Tiles) (dc : Canvas)
    (hwf : WellFormed plots t) (hfm : FixedGrid plots) (j i : Nat)
    (hj : (j : Int) < t.Rows) (hi : (i : Int) < t.Cols) :
    ∃ d, dataOf plots (traceOf Crop (plotAt plots) t dc t.Rows.toNat t.Cols.toNat).out j i
        = .ok d ∧
      d.Max.X - d.Min.X = avgW (plotAt plots) t dc t.Rows.toNat t.Cols.toNat ∧
      d.Max.Y - d.Min.Y = avgH (plotAt plots) t dc t.Rows.toNat t.Cols.toNat := by
  refine ⟨_, dataOf_tab plots t hwf _ j i hj hi, ?_, ?_⟩
  · rw [data_gridV_fixed _ t dc _ _ j i (plotAt_fixed plots hfm) (by omega), shiftH_succ]
    ring
  · rw [data_gridV_fixed _ t dc _ _ j i (plotAt_fixed plots hfm) (by omega),
      shiftV_succ _ t dc _ _ j i (by omega)]
    ring

theorem scenario_plotAt0 :
    plotAt scenarioPlots 0 0 = fixedMargin (1/10) (1/10) (1/10) (1/10) := rfl

theorem scenario_plotAt1 :
    plotAt scenarioPlots 0 1 = fixedMargin (1/5) (1/5) (1/5) (1/5) := rfl

theorem scenario_avgW : avgW (plotAt scenarioPlots) (equalTiles 1 2) unitCanvas 1 2 = 1/5 := by
  simp only [avgW, totalSpace_tab1, Finset.sum_range_succ, Finset.sum_range_zero, xSp, runMax,
    scenario_plotAt0, scenario_plotAt1, marginLeft, marginRight, fixedMargin, equalTiles,
    unitCanvas]
  norm_num

/-- C8. Worked scenario: one row of two plots on the unit square, plot A with a
margin of 1/10 and plot B with a margin of 1/5 on every side, tiles
`[0,1/2]x[0,1]` and `[1/2,1]x[0,1]`. `Align` finds the margins (1/10, 1/10) for
column 0, (1/5, 1/5) for column 1 and (1/5, 1/5) for row 0, and in the grid it
returns both data canvases have width exactly (1 - 3/5)/2 = 1/5. -/
theorem worked_scenario :
    ∃ tr : Trace, alignTrace Crop scenarioPlots (equalTiles 1 2) unitCanvas = .ok tr ∧
      Align Crop scenarioPlots (equalTiles 1 2) unitCanvas = .ok tr.out ∧
      tr.tiles = [[⟨⟨0, 0⟩, ⟨1/2, 1⟩⟩, ⟨⟨1/2, 0⟩, ⟨1, 1⟩⟩]] ∧
      tr.xSpacing = [⟨1/10, 1/10⟩, ⟨1/5, 1/5⟩] ∧ tr.ySpacing = [⟨1/5, 1/5⟩] ∧
      tr.avgWidth = (1 - 3/5) / 2 ∧ ((1 - 3/5) / 2 : ℚ) = 1/5 ∧
      ∀ i : Nat, i < 2 →
        ∃ d, dataOf scenarioPlots tr.out 0 i = .ok d ∧ d.Max.X - d.Min.X = 1/5 := by
  have hrun : alignTrace Crop scenarioPlots (equalTiles 1 2) unitCanvas =
      .ok (traceOf Crop (plotAt scenarioPlots) (equalTiles 1 2) unitCanvas 1 2) :=
    alignTrace_wellFormed Crop scenarioPlots (equalTiles 1 2) unitCanvas scenario_wellFormed
  refine ⟨_, hrun, align_eq_out _ _ _ _ _ hrun, ?_, ?_, ?_, ?_, by norm_num, ?_⟩
  · show tab 1 2 (tileOf (equalTiles 1 2) unitCanvas) = _
    simp only [tab, tab1_one, tab1_two, tileOf, equalTiles, equalAt, unitCanvas]
    norm_num
  · show tab1 2 (xSp (plotAt scenarioPlots) (tileOf (equalTiles 1 2) unitCanvas) 1) = _
    simp only [tab1_two, xSp, runMax, scenario_plotAt0, scenario_plotAt1, marginLeft,
      marginRight, fixedMargin]
    norm_num
  · show tab1 1 (ySp (plotAt scenarioPlots) (tileOf (equalTiles 1 2) unitCanvas) 2) = _
    simp only [tab1_one, ySp, runMax, scenario_plotAt0, scenario_plotAt1, marginBottom,
      marginTop, fixedMargin]
    norm_num
  · show avgW (plotAt scenarioPlots) (equalTiles 1 2) unitCanvas 1 2 = _
    rw [scenario_avgW]
    norm_num
  · intro i hi
    obtain ⟨d, hd, hw, _⟩ := dataOf_out_fixed scenarioPlots (equalTiles 1 2) unitCanvas
      scenario_wellFormed scenario_fixed 0 i (by decide)
      (by show (i : Int) < 2; omega)
    refine ⟨d, hd, ?_⟩
    rw [hw]
    exact scenario_avgW

/-- C9. Degenerate layout is propagated, not signalled: for a well-formed grid
of fixed-margin plots, `Align` returns a full grid without error; if the canvas
is narrower than the sum of `xSpacing[i].n + xSpacing[i].p`, then `avgWidth` is
negative and the data canvas of every returned cell has `Min.X > Max.X`; if the
canvas is lower than the sum of `ySpacing[j].n + ySpacing[j].p`, then
`avgHeight` is negative and every data canvas has `Min.Y > Max.Y`. -/
theorem degenerate_layout_propagated (plots : List (List Plot)) (t : Tiles) (dc : Canvas)
    (hwf : WellFormed plots t) (hfm : FixedGrid plots) :
    ∃ tr : Trace, alignTrace Crop plots t dc = .ok tr ∧ Align Crop plots t dc = .ok tr.out ∧
      (tr.out.length : Int) = t.Rows ∧ (∀ row ∈ tr.out, (row.length : Int) = t.Cols) ∧
      (dc.Max.X - dc.Min.X < (tr.xSpacing.map (fun s => s.n + s.p)).sum →
        tr.avgWidth < 0 ∧
        ∀ j i : Nat, (j : Int) < t.Rows → (i : Int) < t.Cols →
          ∃ d, dataOf plots tr.out j i = .ok d ∧ d.Min.X > d.Max.X) ∧
      (dc.Max.Y - dc.Min.Y < (tr.ySpacing.map (fun s => s.n + s.p)).sum →
        tr.avgHeight < 0 ∧
        ∀ j i : Nat, (j : Int) < t.Rows → (i : Int) < t.Cols →
          ∃ d, dataOf plots tr.out j i = .ok d ∧ d.Min.Y > d.Max.Y) := by
  have hrun := alignTrace_wellFormed Crop plots t dc hwf
  have hR : ((t.Rows.toNat : Nat) : Int) = t.Rows :=
    Int.toNat_of_nonneg (by have := hwf.1; omega)
  have hC : ((t.Cols.toNat : Nat) : Int) = t.Cols :=
    Int.toNat_of_nonneg (by have := hwf.2.1; omega)
  have hCpos : (0 : ℚ) < (t.Cols : ℚ) := by
    have := hwf.2.1
    exact_mod_cast (by omega : (0 : Int) < t.Cols)
  have hRpos : (0 : ℚ) < (t.Rows : ℚ) := by
    have := hwf.1
    exact_mod_cast (by omega : (0 : Int) < t.Rows)
  refine ⟨_, hrun, align_eq_out _ _ _ _ _ hrun, ?_, ?_, ?_, ?_⟩
  · show ((tab _ _ _).length : Int) = _
    rw [tab_length]
    exact hR
  · intro row hrow
    have := tab_rows _ _ _ row hrow
    rw [this]
    exact hC
  · intro hlt
    have hlt' : dc.Max.X - dc.Min.X < (List.map (fun v : posNeg => v.n + v.p)
        (tab1 t.Cols.toNat (xSp (plotAt plots) (tileOf t dc) t.Rows.toNat))).sum := hlt
    have hneg : avgW (plotAt plots) t dc t.Rows.toNat t.Cols.toNat < 0 := by
      unfold avgW
      rw [totalSpace_eq_sum]
      exact div_neg_of_neg_of_pos (by linarith) hCpos
    refine ⟨hneg, ?_⟩
    intro j i hj hi
    obtain ⟨d, hd, hw, _⟩ := dataOf_out_fixed plots t dc hwf hfm j i hj hi
    exact ⟨d, hd, by linarith⟩
  · intro hlt
    have hlt' : dc.Max.Y - dc.Min.Y < (List.map (fun v : posNeg => v.n + v.p)
        (tab1 t.Rows.toNat (ySp (plotAt plots) (tileOf t dc) t.Cols.toNat))).sum := hlt
    have hneg : avgH (plotAt plots) t dc t.Rows.toNat t.Cols.toNat < 0 := by
      unfold avgH
      rw [totalSpace_eq_sum]
      exact div_neg_of_neg_of_pos (by linarith) hRpos
    refine ⟨hneg, ?_⟩
    intro j i hj hi
    obtain ⟨d, hd, _, hh⟩ := dataOf_out_fixed plots t dc hwf hfm j i hj hi
    exact ⟨d, hd, by linarith⟩

theorem tight_wellFormed : WellFormed tightPlots (equalTiles 1 2) := by
  simp [WellFormed, tightPlots, equalTiles]

theorem tight_fixed : FixedGrid tightPlots := by
  apply fixedGrid_of_forall
  simp [tightPlots]
  exact ⟨⟨_, _, _, _, rfl⟩, ⟨_, _, _, _, rfl⟩⟩

theorem degenerate_layout_propagated_witness :
    WellFormed tightPlots (equalTiles 1 2) ∧ FixedGrid tightPlots ∧
    ∃ tr : Trace, Align Crop tightPlots (equalTiles 1 2) unitCanvas = .ok tr.out ∧
      (unitCanvas.Max.X - unitCanvas.Min.X < (tr.xSpacing.map (fun s => s.n + s.p)).sum →
        tr.avgWidth < 0 ∧
        ∀ j i : Nat, (j : Int) < 1 → (i : Int) < 2 →
          ∃ d, dataOf tightPlots tr.out j i = .ok d ∧ d.Min.X > d.Max.X) := by
  obtain ⟨tr, _, h2, _, _, h5, _⟩ :=
    degenerate_layout_propagated tightPlots (equalTiles 1 2) unitCanvas tight_wellFormed
      tight_fixed
  exact ⟨tight_wellFormed, tight_fixed, tr, h2, h5⟩

/-- C10. Totality on well-formed input: with at least one row and one column,
as many rows of plots as the tiling has and every row as long as the tiling has
columns, for every canvas and every `DataCanvas`, `Tiles.At` and `Crop`, every
index `Align` evaluates is in range and the divisors `cols` and `rows` are not
zero: `Align` returns a grid and ends in no failure. -/
theorem align_total (crop : CropFn) (plots : List (List Plot)) (t : Tiles) (dc : Canvas)
    (hwf : WellFormed plots t) :
    (∃ out, Align crop plots t dc = .ok out) ∧ (∀ e, Align crop plots t dc ≠ .error e) ∧
      (t.Cols : ℚ) ≠ 0 ∧ (t.Rows : ℚ) ≠ 0 := by
  have hrun := align_eq_out _ _ _ _ _ (alignTrace_wellFormed crop plots t dc hwf)
  refine ⟨⟨_, hrun⟩, ?_, ?_, ?_⟩
  · intro e he
    rw [hrun] at he
    cases he
  · have := hwf.2.1
    exact_mod_cast (by omega : t.Cols ≠ 0)
  · have := hwf.1
    exact_mod_cast (by omega : t.Rows ≠ 0)

theorem align_total_witness :
    WellFormed scenarioPlots (equalTiles 1 2) ∧
    ∃ out, Align Crop scenarioPlots (equalTiles 1 2) unitCanvas = .ok out :=
  ⟨scenario_wellFormed,
    (align_total Crop scenarioPlots (equalTiles 1 2) unitCanvas scenario_wellFormed).1⟩

theorem runMax_eq_max (f : Nat → ℚ) (k : Nat) : runMax f (k + 1) = max 0 (maxUpTo f k) := by
  induction k with
  | zero => simp [runMax, maxUpTo, max_comm]
  | succ k ih =>
    show max (f (k + 1)) (runMax f (k + 1)) = max 0 (max (maxUpTo f k) (f (k + 1)))
    rw [ih, max_left_comm, max_comm (f (k + 1))]

theorem runMax_nonneg (f : Nat → ℚ) (n : Nat) : 0 ≤ runMax f n := by
  induction n with
  | zero => exact le_refl _
  | succ n ih => exact le_trans ih (le_max_right _ _)

theorem le_runMax (f : Nat → ℚ) (n k : Nat) (h : k < n) : f k ≤ runMax f n := by
  induction n with
  | zero => omega
  | succ n ih =>
    by_cases e : k = n
    · subst e
      exact le_max_left _ _
    · exact le_trans (ih (by omega)) (le_max_right _ _)

theorem runMax_attained (f : Nat → ℚ) (n : Nat) (hn : 0 < n) (hf : ∀ k, k < n → 0 ≤ f k) :
    ∃ k, k < n ∧ f k = runMax f n := by
  induction n with
  | zero => omega
  | succ n ih =>
    by_cases h0 : n = 0
    · subst h0
      refine ⟨0, by omega, ?_⟩
      show f 0 = max (f 0) 0
      rw [max_eq_left (hf 0 (by omega))]
    · obtain ⟨k, hk, hk'⟩ := ih (by omega) (fun k hk => hf k (by omega))
      by_cases hle : runMax f n ≤ f n
      · refine ⟨n, by omega, ?_⟩
        show f n = max (f n) (runMax f n)
        rw [max_eq_left hle]
      · refine ⟨k, by omega, ?_⟩
        show f k = max (f n) (runMax f n)
        rw [max_eq_right (le_of_lt (lt_of_not_le hle)), hk']

theorem runMax_const (f : Nat → ℚ) (n : Nat) (v : ℚ) (hn : 0 < n) (hv : 0 ≤ v)
    (hf : ∀ k, k < n → f k = v) : runMax f n = v := by
  obtain ⟨k, hk, hk'⟩ := runMax_attained f n hn (fun k hk => by rw [hf k hk]; exact hv)
  rw [← hk', hf k hk]

theorem getAt_xSpacing (crop : CropFn) (plots : List (List Plot)) (t : Tiles) (dc : Canvas)
    (i : Nat) (hi : (i : Int) < t.Cols) :
    getAt (traceOf crop (plotAt plots) t dc t.Rows.toNat t.Cols.toNat).xSpacing i =
      .ok (xSp (plotAt plots) (tileOf t dc) t.Rows.toNat i) :=
  getAt_tab1 _ _ i (by omega)

theorem getAt_ySpacing (crop : CropFn) (plots : List (List Plot)) (t : Tiles) (dc : Canvas)
    (j : Nat) (hj : (j : Int) < t.Rows) :
    getAt (traceOf crop (plotAt plots) t dc t.Rows.toNat t.Cols.toNat).ySpacing j =
      .ok (ySp (plotAt plots) (tileOf t dc) t.Cols.toNat j) :=
  getAt_tab1 _ _ j (by omega)

theorem toNat_pred_succ (n : Int) (h : 1 ≤ n) : n.toNat - 1 + 1 = n.toNat := by
  omega

/-- C6, as the code has it. Column and row margin maxima, clamped at zero, in
exact arithmetic (every margin an exact number, so none is NaN): for every
well-formed grid and every plot behaviour (and every `Crop`), `xSpacing[i].n`
is the larger of 0 and the maximum over the rows `j` of the left margin
`DataCanvas(tile[j][i]).Min.X - tile[j][i].Min.X`, `xSpacing[i].p` the larger
of 0 and the maximum of the right margins, and `ySpacing[j].n`, `ySpacing[j].p`
the larger of 0 and the maximum over the columns of the bottom and top
margins. -/
theorem spacing_is_clamped_maximum (crop : CropFn) (plots : List (List Plot)) (t : Tiles)
    (dc : Canvas) (hwf : WellFormed plots t) :
    ∃ tr : Trace, alignTrace crop plots t dc = .ok tr ∧
      (∀ i : Nat, (i : Int) < t.Cols → ∃ xs, getAt tr.xSpacing i = .ok xs ∧
        xs.n = max 0 (maxUpTo (fun j => marginLeft (plotAt plots j i) (t.At dc i j))
          (t.Rows.toNat - 1)) ∧
        xs.p = max 0 (maxUpTo (fun j => marginRight (plotAt plots j i) (t.At dc i j))
          (t.Rows.toNat - 1))) ∧
      (∀ j : Nat, (j : Int) < t.Rows → ∃ ys, getAt tr.ySpacing j = .ok ys ∧
        ys.n = max 0 (maxUpTo (fun i => marginBottom (plotAt plots j i) (t.At dc i j))
          (t.Cols.toNat - 1)) ∧
        ys.p = max 0 (maxUpTo (fun i => marginTop (plotAt plots j i) (t.At dc i j))
          (t.Cols.toNat - 1))) := by
  have hrun := alignTrace_wellFormed crop plots t dc hwf
  have hR := toNat_pred_succ t.Rows hwf.1
  have hC := toNat_pred_succ t.Cols hwf.2.1
  refine ⟨_, hrun, ?_, ?_⟩
  · intro i hi
    refine ⟨_, getAt_xSpacing crop plots t dc i hi, ?_, ?_⟩
    · rw [← runMax_eq_max, hR]
      rfl
    · rw [← runMax_eq_max, hR]
      rfl
  · intro j hj
    refine ⟨_, getAt_ySpacing crop plots t dc j hj, ?_, ?_⟩
    · rw [← runMax_eq_max, hC]
      rfl
    · rw [← runMax_eq_max, hC]
      rfl

theorem spacing_is_clamped_maximum_witness :
    WellFormed scenarioPlots (equalTiles 1 2) ∧
    ∃ tr : Trace, alignTrace Crop scenarioPlots (equalTiles 1 2) unitCanvas = .ok tr ∧
      ∀ i : Nat, (i : Int) < 2 → ∃ xs, getAt tr.xSpacing i = .ok xs ∧
        xs.n = max 0 (maxUpTo
          (fun j => marginLeft (plotAt scenarioPlots j i) (equalAt 1 2 unitCanvas i j)) 0) ∧
        xs.p = max 0 (maxUpTo
          (fun j => marginRight (plotAt scenarioPlots j i) (equalAt 1 2 unitCanvas i j)) 0) := by
  obtain ⟨tr, h1, h2, _⟩ :=
    spacing_is_clamped_maximum Crop scenarioPlots (equalTiles 1 2) unitCanvas
      scenario_wellFormed
  exact ⟨scenario_wellFormed, tr, h1, h2⟩

theorem stickingOut_wellFormed : WellFormed stickingOutPlots (equalTiles 1 1) := by
  simp [WellFormed, stickingOutPlots, equalTiles]

/-- C6, as stated, fails: for the single plot whose data canvas sticks out of
its tile by 1 on every side, the only left margin of column 0 is -1, so the
maximum over the rows is -1, but `xSpacing[0].n` is 0. -/
theorem column_maximum_counterexample :
    WellFormed stickingOutPlots (equalTiles 1 1) ∧
    ∃ tr : Trace, alignTrace Crop stickingOutPlots (equalTiles 1 1) unitCanvas = .ok tr ∧
      ∃ xs, getAt tr.xSpacing 0 = .ok xs ∧ xs.n = 0 ∧
        maxUpTo (fun j => marginLeft (plotAt stickingOutPlots j 0)
          ((equalTiles 1 1).At unitCanvas 0 j)) ((equalTiles 1 1).Rows.toNat - 1) = -1 ∧
        xs.n ≠ maxUpTo (fun j => marginLeft (plotAt stickingOutPlots j 0)
          ((equalTiles 1 1).At unitCanvas 0 j)) ((equalTiles 1 1).Rows.toNat - 1) := by
  have hrun := alignTrace_wellFormed Crop stickingOutPlots (equalTiles 1 1) unitCanvas
    stickingOut_wellFormed
  have hp : plotAt stickingOutPlots 0 0 = fixedMargin (-1) (-1) (-1) (-1) := rfl
  have hm : maxUpTo (fun j => marginLeft (plotAt stickingOutPlots j 0)
      ((equalTiles 1 1).At unitCanvas 0 j)) ((equalTiles 1 1).Rows.toNat - 1) = -1 := by
    show marginLeft (plotAt stickingOutPlots 0 0) _ = -1
    rw [hp]
    simp [marginLeft, fixedMargin]
  have hx : (xSp (plotAt stickingOutPlots) (tileOf (equalTiles 1 1) unitCanvas) 1 0).n = 0 := by
    show max (marginLeft (plotAt stickingOutPlots 0 0) _) 0 = 0
    rw [hp]
    simp [marginLeft, fixedMargin]
  refine ⟨stickingOut_wellFormed, _, hrun,
    _, getAt_xSpacing Crop stickingOutPlots (equalTiles 1 1) unitCanvas 0 (by decide), hx, hm, ?_⟩
  rw [hm]
  show (xSp (plotAt stickingOutPlots) (tileOf (equalTiles 1 1) unitCanvas) 1 0).n ≠ -1
  rw [hx]
  norm_num

theorem getCell_tiles (crop : CropFn) (plots : List (List Plot)) (t : Tiles) (dc : Canvas)
    (j i : Nat) (hj : (j : Int) < t.Rows) (hi : (i : Int) < t.Cols) :
    getCell (traceOf crop (plotAt plots) t dc t.Rows.toNat t.Cols.toNat).tiles j i =
      .ok (t.At dc i j) :=
  getCell_tab _ _ _ j i (by omega) (by omega)

theorem getCell_normalised (crop : CropFn) (plots : List (List Plot)) (t : Tiles) (dc : Canvas)
    (j i : Nat) (hj : (j : Int) < t.Rows) (hi : (i : Int) < t.Cols) :
    getCell (traceOf crop (plotAt plots) t dc t.Rows.toNat t.Cols.toNat).normalised j i =
      .ok (gridN crop (plotAt plots) t dc t.Rows.toNat t.Cols.toNat j i) :=
  getCell_tab _ _ _ j i (by omega) (by omega)

theorem getCell_out (crop : CropFn) (plots : List (List Plot)) (t : Tiles) (dc : Canvas)
    (j i : Nat) (hj : (j : Int) < t.Rows) (hi : (i : Int) < t.Cols) :
    getCell (traceOf crop (plotAt plots) t dc t.Rows.toNat t.Cols.toNat).out j i =
      .ok (gridV crop (plotAt plots) t dc t.Rows.toNat t.Cols.toNat j i) :=
  getCell_tab _ _ _ j i (by omega) (by omega)

/-- C5, as the code has it. After the normalisation loop, for a well-formed
grid of fixed-margin plots, the data canvas of every cell lies at the spacing
of its column and row from the edges of the initial tile of the cell: with `c`
the normalised rectangle and `T` the tile of the cell `(j, i)`,
`DataCanvas(c).Min.X - T.Min.X = xSpacing[i].n`,
`T.Max.X - DataCanvas(c).Max.X = xSpacing[i].p`,
`DataCanvas(c).Min.Y - T.Min.Y = ySpacing[j].n` and
`T.Max.Y - DataCanvas(c).Max.Y = ySpacing[j].p`; so these offsets are the same
for all cells of a column (left, right) and for all cells of a row (bottom,
top). The margins measured against `c` itself remain those of the plot. -/
theorem normalised_offsets_uniform (plots : List (List Plot)) (t : Tiles) (dc : Canvas)
    (hwf : WellFormed plots t) (hfm : FixedGrid plots) :
    ∃ tr : Trace, alignTrace Crop plots t dc = .ok tr ∧
      ∀ j i : Nat, (j : Int) < t.Rows → (i : Int) < t.Cols →
        ∃ p T c xs ys, getCell plots j i = .ok p ∧ getCell tr.tiles j i = .ok T ∧
          getCell tr.normalised j i = .ok c ∧
          getAt tr.xSpacing i = .ok xs ∧ getAt tr.ySpacing j = .ok ys ∧
          (p.DataCanvas c).Min.X - T.Min.X = xs.n ∧ T.Max.X - (p.DataCanvas c).Max.X = xs.p ∧
          (p.DataCanvas c).Min.Y - T.Min.Y = ys.n ∧ T.Max.Y - (p.DataCanvas c).Max.Y = ys.p ∧
          marginLeft p c = marginLeft p T ∧ marginRight p c = marginRight p T ∧
          marginBottom p c = marginBottom p T ∧ marginTop p c = marginTop p T := by
  have hrun := alignTrace_wellFormed Crop plots t dc hwf
  refine ⟨_, hrun, ?_⟩
  intro j i hj hi
  have hm := margins_fixed (plotAt plots j i) (plotAt_fixed plots hfm j i)
    (gridN Crop (plotAt plots) t dc t.Rows.toNat t.Cols.toNat j i) (tileOf t dc j i)
  refine ⟨_, _, _, _, _, getCell_plots plots t hwf j i hj hi,
    getCell_tiles Crop plots t dc j i hj hi, getCell_normalised Crop plots t dc j i hj hi,
    getAt_xSpacing Crop plots t dc i hi, getAt_ySpacing Crop plots t dc j hj,
    ?_, ?_, ?_, ?_, hm.1, hm.2.1, hm.2.2.1, hm.2.2.2⟩
  · rw [dataCanvas_margins, hm.1, gridN_fixed]
    show (tileOf t dc j i).Min.X + _ + _ - (tileOf t dc j i).Min.X = _
    ring
  · rw [dataCanvas_margins, hm.2.1, gridN_fixed]
    show (tileOf t dc j i).Max.X - ((tileOf t dc j i).Max.X + _ - _) = _
    ring
  · rw [dataCanvas_margins, hm.2.2.1, gridN_fixed]
    show (tileOf t dc j i).Min.Y + _ + _ - (tileOf t dc j i).Min.Y = _
    ring
  · rw [dataCanvas_margins, hm.2.2.2, gridN_fixed]
    show (tileOf t dc j i).Max.Y - ((tileOf t dc j i).Max.Y + _ - _) = _
    ring

theorem column_wellFormed : WellFormed columnPlots (equalTiles 2 1) := by
  simp [WellFormed, columnPlots, equalTiles]

theorem column_fixed : FixedGrid columnPlots := by
  apply fixedGrid_of_forall
  simp [columnPlots]
  exact ⟨⟨_, _, _, _, rfl⟩, ⟨_, _, _, _, rfl⟩⟩

theorem normalised_offsets_uniform_witness :
    WellFormed columnPlots (equalTiles 2 1) ∧ FixedGrid columnPlots ∧
    ∃ tr : Trace, alignTrace Crop columnPlots (equalTiles 2 1) unitCanvas = .ok tr ∧
      ∀ j i : Nat, (j : Int) < 2 → (i : Int) < 1 →
        ∃ p T c xs, getCell columnPlots j i = .ok p ∧ getCell tr.tiles j i = .ok T ∧
          getCell tr.normalised j i = .ok c ∧ getAt tr.xSpacing i = .ok xs ∧
          (p.DataCanvas c).Min.X - T.Min.X = xs.n ∧
          T.Max.X - (p.DataCanvas c).Max.X = xs.p := by
  obtain ⟨tr, h1, h2⟩ :=
    normalised_offsets_uniform columnPlots (equalTiles 2 1) unitCanvas column_wellFormed
      column_fixed
  refine ⟨column_wellFormed, column_fixed, tr, h1, ?_⟩
  intro j i hj hi
  obtain ⟨p, T, c, xs, _, hp, hT, hc, hxs, _, hl, hr, _⟩ := h2 j i hj hi
  exact ⟨p, T, c, xs, hp, hT, hc, hxs, hl, hr⟩

/-- C5, as stated, fails: in the column of two plots with margins 1/10 and 1/5
on the unit square, after the normalisation loop the left margin of cell (0,0),
measured against its normalised rectangle, is 1/10 and that of cell (1,0) is
1/5: the two cells of column 0 do not have the same left margin. -/
theorem margin_uniformity_counterexample :
    WellFormed columnPlots (equalTiles 2 1) ∧
    ∃ tr : Trace, alignTrace Crop columnPlots (equalTiles 2 1) unitCanvas = .ok tr ∧
      ∃ p p' c c', getCell columnPlots 0 0 = .ok p ∧ getCell columnPlots 1 0 = .ok p' ∧
        getCell tr.normalised 0 0 = .ok c ∧ getCell tr.normalised 1 0 = .ok c' ∧
        (p.DataCanvas c).Min.X - c.Min.X = 1/10 ∧ (p'.DataCanvas c').Min.X - c'.Min.X = 1/5 ∧
        (p.DataCanvas c).Min.X - c.Min.X ≠ (p'.DataCanvas c').Min.X - c'.Min.X := by
  have hrun := alignTrace_wellFormed Crop columnPlots (equalTiles 2 1) unitCanvas
    column_wellFormed
  have h0 : ∀ c : Canvas,
      ((fixedMargin (1/10) (1/10) (1/10) (1/10)).DataCanvas c).Min.X - c.Min.X = 1/10 := by
    intro c
    simp [fixedMargin]
  have h1 : ∀ c : Canvas,
      ((fixedMargin (1/5) (1/5) (1/5) (1/5)).DataCanvas c).Min.X - c.Min.X = 1/5 := by
    intro c
    simp [fixedMargin]
  refine ⟨column_wellFormed, _, hrun, _, _, _, _,
    getCell_plots columnPlots _ column_wellFormed 0 0 (by decide) (by decide),
    getCell_plots columnPlots _ column_wellFormed 1 0 (by decide) (by decide),
    getCell_normalised Crop columnPlots (equalTiles 2 1) unitCanvas 0 0 (by decide) (by decide),
    getCell_normalised Crop columnPlots (equalTiles 2 1) unitCanvas 1 0 (by decide) (by decide),
    h0 _, h1 _, ?_⟩
  have e0 := h0 (gridN Crop (plotAt columnPlots) (equalTiles 2 1) unitCanvas
    (equalTiles 2 1).Rows.toNat (equalTiles 2 1).Cols.toNat 0 0)
  have e1 := h1 (gridN Crop (plotAt columnPlots) (equalTiles 2 1) unitCanvas
    (equalTiles 2 1).Rows.toNat (equalTiles 2 1).Cols.toNat 1 0)
  intro hne
  have : (1/10 : ℚ) = 1/5 := by
    rw [← e0, ← e1]
    exact hne
  norm_num at this

theorem cast_toNat (n : Int) (h : 0 ≤ n) : (n : ℚ) = ((n.toNat : Nat) : ℚ) := by
  have e : ((n.toNat : Nat) : Int) = n := Int.toNat_of_nonneg h
  calc (n : ℚ) = (((n.toNat : Nat) : Int) : ℚ) := by rw [e]
    _ = ((n.toNat : Nat) : ℚ) := Int.cast_natCast _

theorem crop_zero (c : Canvas) : Crop c 0 0 0 0 = c := by
  obtain ⟨⟨a, b⟩, ⟨a', b'⟩⟩ := c
  simp [Crop]

/-- C7. `Align` is the identity on an already aligned layout: take a
well-formed grid of plots with any `DataCanvas`, on tiles whose widths sum to
the canvas width along every row and whose heights sum to the canvas height
down every column. If, in the initial tiling, the cells of each column share
one non-negative left margin and one non-negative right margin, the cells of
each row share one non-negative bottom margin and one non-negative top margin,
and all data canvases have one common width and one common height, then the
rectangle `Align` returns for every cell is the tile of that cell. -/
theorem align_identity_on_aligned (plots : List (List Plot)) (t : Tiles) (dc : Canvas)
    (hwf : WellFormed plots t)
    (hW : ∀ j : Nat, (j : Int) < t.Rows →
      ∑ i in Finset.range t.Cols.toNat, ((t.At dc i j).Max.X - (t.At dc i j).Min.X)
        = dc.Max.X - dc.Min.X)
    (hH : ∀ i : Nat, (i : Int) < t.Cols →
      ∑ j in Finset.range t.Rows.toNat, ((t.At dc i j).Max.Y - (t.At dc i j).Min.Y)
        = dc.Max.Y - dc.Min.Y)
    (hcol : ∀ i : Nat, (i : Int) < t.Cols → ∃ l r : Length, 0 ≤ l ∧ 0 ≤ r ∧
      ∀ j : Nat, (j : Int) < t.Rows →
        marginLeft (plotAt plots j i) (t.At dc i j) = l ∧
        marginRight (plotAt plots j i) (t.At dc i j) = r)
    (hrow : ∀ j : Nat, (j : Int) < t.Rows → ∃ b tp : Length, 0 ≤ b ∧ 0 ≤ tp ∧
      ∀ i : Nat, (i : Int) < t.Cols →
        marginBottom (plotAt plots j i) (t.At dc i j) = b ∧
        marginTop (plotAt plots j i) (t.At dc i j) = tp)
    (hsize : ∃ w h : Length, ∀ j i : Nat, (j : Int) < t.Rows → (i : Int) < t.Cols →
      dataWidth (plotAt plots j i) (t.At dc i j) = w ∧
      dataHeight (plotAt plots j i) (t.At dc i j) = h) :
    ∃ tr : Trace, alignTrace Crop plots t dc = .ok tr ∧ Align Crop plots t dc = .ok tr.out ∧
      ∀ j i : Nat, (j : Int) < t.Rows → (i : Int) < t.Cols →
        getCell tr.out j i = .ok (t.At dc i j) := by
  have hrun := alignTrace_wellFormed Crop plots t dc hwf
  obtain ⟨w, h, hwh⟩ := hsize
  have hRpos : 0 < t.Rows.toNat := by have := hwf.1; omega
  have hCpos : 0 < t.Cols.toNat := by have := hwf.2.1; omega
  have hRq : (t.Rows : ℚ) = (t.Rows.toNat : ℚ) :=
    cast_toNat _ (by have := hwf.1; omega)
  have hCq : (t.Cols : ℚ) = (t.Cols.toNat : ℚ) :=
    cast_toNat _ (by have := hwf.2.1; omega)
  have hCne : (t.Cols.toNat : ℚ) ≠ 0 := by exact_mod_cast (by omega : t.Cols.toNat ≠ 0)
  have hRne : (t.Rows.toNat : ℚ) ≠ 0 := by exact_mod_cast (by omega : t.Rows.toNat ≠ 0)
  -- the spacings are the shared margins
  have hxn : ∀ j i : Nat, j < t.Rows.toNat → i < t.Cols.toNat →
      (xSp (plotAt plots) (tileOf t dc) t.Rows.toNat i).n
        = marginLeft (plotAt plots j i) (tileOf t dc j i) ∧
      (xSp (plotAt plots) (tileOf t dc) t.Rows.toNat i).p
        = marginRight (plotAt plots j i) (tileOf t dc j i) := by
    intro j i hj hi
    obtain ⟨l, r, hl, hr, hlr⟩ := hcol i (by omega)
    constructor
    · rw [show marginLeft (plotAt plots j i) (tileOf t dc j i) = l from (hlr j (by omega)).1]
      exact runMax_const _ _ l hRpos hl (fun k hk => (hlr k (by omega)).1)
    · rw [show marginRight (plotAt plots j i) (tileOf t dc j i) = r from (hlr j (by omega)).2]
      exact runMax_const _ _ r hRpos hr (fun k hk => (hlr k (by omega)).2)
  have hyn : ∀ j i : Nat, j < t.Rows.toNat → i < t.Cols.toNat →
      (ySp (plotAt plots) (tileOf t dc) t.Cols.toNat j).n
        = marginBottom (plotAt plots j i) (tileOf t dc j i) ∧
      (ySp (plotAt plots) (tileOf t dc) t.Cols.toNat j).p
        = marginTop (plotAt plots j i) (tileOf t dc j i) := by
    intro j i hj hi
    obtain ⟨b, tp, hb, htp, hbt⟩ := hrow j (by omega)
    constructor
    · rw [show marginBottom (plotAt plots j i) (tileOf t dc j i) = b from (hbt i (by omega)).1]
      exact runMax_const _ _ b hCpos hb (fun k hk => (hbt k (by omega)).1)
    · rw [show marginTop (plotAt plots j i) (tileOf t dc j i) = tp from (hbt i (by omega)).2]
      exact runMax_const _ _ tp hCpos htp (fun k hk => (hbt k (by omega)).2)
  -- normalisation changes nothing
  have hN : ∀ j i : Nat, j < t.Rows.toNat → i < t.Cols.toNat →
      gridN Crop (plotAt plots) t dc t.Rows.toNat t.Cols.toNat j i = tileOf t dc j i := by
    intro j i hj hi
    show Crop (tileOf t dc j i) _ _ _ _ = _
    rw [(hxn j i hj hi).1, (hxn j i hj hi).2, (hyn j i hj hi).1, (hyn j i hj hi).2]
    simp only [sub_self]
    exact crop_zero _
  -- the averages are the common width and height
  have haW : avgW (plotAt plots) t dc t.Rows.toNat t.Cols.toNat = w := by
    unfold avgW
    rw [totalSpace_tab1, ← hW 0 (by have := hwf.1; omega), ← Finset.sum_sub_distrib, hCq]
    have : ∀ i ∈ Finset.range t.Cols.toNat,
        ((t.At dc i (0 : Nat)).Max.X - (t.At dc i (0 : Nat)).Min.X
          - ((xSp (plotAt plots) (tileOf t dc) t.Rows.toNat i).n
            + (xSp (plotAt plots) (tileOf t dc) t.Rows.toNat i).p)) = w := by
      intro i hi
      have hi' := Finset.mem_range.mp hi
      have e := dataWidth_margins (plotAt plots 0 i) (tileOf t dc 0 i)
      rw [(hxn 0 i hRpos hi').1, (hxn 0 i hRpos hi').2,
        ← (hwh 0 i (by have := hwf.1; omega) (by omega)).1]
      show _ = dataWidth (plotAt plots 0 i) (tileOf t dc 0 i)
      rw [e]
      show (tileOf t dc 0 i).Max.X - (tileOf t dc 0 i).Min.X - _ = _
      ring
    rw [Finset.sum_congr rfl this, Finset.sum_const, Finset.card_range, nsmul_eq_mul]
    field_simp
  have haH : avgH (plotAt plots) t dc t.Rows.toNat t.Cols.toNat = h := by
    unfold avgH
    rw [totalSpace_tab1, ← hH 0 (by have := hwf.2.1; omega), ← Finset.sum_sub_distrib, hRq]
    have : ∀ j ∈ Finset.range t.Rows.toNat,
        ((t.At dc (0 : Nat) j).Max.Y - (t.At dc (0 : Nat) j).Min.Y
          - ((ySp (plotAt plots) (tileOf t dc) t.Cols.toNat j).n
            + (ySp (plotAt plots) (tileOf t dc) t.Cols.toNat j).p)) = h := by
      intro j hj
      have hj' := Finset.mem_range.mp hj
      have e := dataHeight_margins (plotAt plots j 0) (tileOf t dc j 0)
      rw [(hyn j 0 hj' hCpos).1, (hyn j 0 hj' hCpos).2,
        ← (hwh j 0 (by omega) (by have := hwf.2.1; omega)).2]
      show _ = dataHeight (plotAt plots j 0) (tileOf t dc j 0)
      rw [e]
      show (tileOf t dc j 0).Max.Y - (tileOf t dc j 0).Min.Y - _ = _
      ring
    rw [Finset.sum_congr rfl this, Finset.sum_const, Finset.card_range, nsmul_eq_mul]
    field_simp
  -- the horizontal pass changes nothing
  have hmH : ∀ j i : Nat, j < t.Rows.toNat → i ≤ t.Cols.toNat →
      moveH (avgW (plotAt plots) t dc t.Rows.toNat t.Cols.toNat) (plotAt plots)
        (gridN Crop (plotAt plots) t dc t.Rows.toNat t.Cols.toNat) j i = 0 := by
    intro j i hj hi
    unfold moveH
    apply Finset.sum_eq_zero
    intro k hk
    have hk' := Finset.mem_range.mp hk
    rw [hN j k hj (by omega), haW]
    have := (hwh j k (by omega) (by omega)).1
    show w - dataWidth (plotAt plots j k) (t.At dc k j) = 0
    rw [this, sub_self]
  have hHc : ∀ j i : Nat, j < t.Rows.toNat → i < t.Cols.toNat →
      gridH Crop (plotAt plots) t dc t.Rows.toNat t.Cols.toNat j i = tileOf t dc j i := by
    intro j i hj hi
    show Crop (gridN Crop (plotAt plots) t dc t.Rows.toNat t.Cols.toNat j i)
      (moveH _ _ _ j i) (moveH _ _ _ j i + avgW _ _ _ _ _ - dataWidth _ _) 0 0 = _
    rw [hmH j i hj (by omega), hN j i hj hi, haW]
    have := (hwh j i (by omega) (by omega)).1
    rw [show dataWidth (plotAt plots j i) (tileOf t dc j i) = w from this]
    simp only [zero_add, sub_self]
    exact crop_zero _
  -- the vertical pass changes nothing
  have hmV : ∀ j i : Nat, i < t.Cols.toNat →
      moveV (avgH (plotAt plots) t dc t.Rows.toNat t.Cols.toNat) (plotAt plots)
        (gridH Crop (plotAt plots) t dc t.Rows.toNat t.Cols.toNat) t.Rows.toNat j i = 0 := by
    intro j i hi
    unfold moveV
    apply Finset.sum_eq_zero
    intro k hk
    have hk' := (Finset.mem_Ico.mp hk).2
    rw [hHc k i hk' hi, haH]
    have := (hwh k i (by omega) (by omega)).2
    show h - dataHeight (plotAt plots k i) (t.At dc i k) = 0
    rw [this, sub_self]
  refine ⟨_, hrun, align_eq_out _ _ _ _ _ hrun, ?_⟩
  intro j i hj hi
  rw [getCell_out Crop plots t dc j i hj hi]
  congr 1
  show Crop (gridH Crop (plotAt plots) t dc t.Rows.toNat t.Cols.toNat j i)
    0 0 (moveV _ _ _ _ j i) (moveV _ _ _ _ j i + avgH _ _ _ _ _ - dataHeight _ _) = _
  rw [hmV j i (by omega), hHc j i (by omega) (by omega), haH]
  have := (hwh j i hj hi).2
  rw [show dataHeight (plotAt plots j i) (tileOf t dc j i) = h from this]
  simp only [zero_add, sub_self]
  exact crop_zero _

theorem even_wellFormed : WellFormed evenPlots (equalTiles 1 2) := by
  simp [WellFormed, evenPlots, equalTiles]

theorem align_identity_on_aligned_witness :
    WellFormed evenPlots (equalTiles 1 2) ∧
    ∃ tr : Trace, Align Crop evenPlots (equalTiles 1 2) unitCanvas = .ok tr.out ∧
      ∀ j i : Nat, (j : Int) < 1 → (i : Int) < 2 →
        getCell tr.out j i = .ok (equalAt 1 2 unitCanvas i j) := by
  have hp : ∀ j i : Nat, (j : Int) < 1 → (i : Int) < 2 →
      plotAt evenPlots j i = fixedMargin (1/10) (1/10) (1/10) (1/10) := by
    intro j i hj hi
    have hj0 : j = 0 := by omega
    have hi' : i = 0 ∨ i = 1 := by omega
    subst hj0
    rcases hi' with rfl | rfl <;> rfl
  obtain ⟨tr, _, h2, h3⟩ :=
    align_identity_on_aligned evenPlots (equalTiles 1 2) unitCanvas even_wellFormed
      (by
        intro j _
        show ∑ i in Finset.range 2, _ = _
        simp only [Finset.sum_range_succ, Finset.sum_range_zero, equalTiles, equalAt,
          unitCanvas]
        norm_num)
      (by
        intro i _
        show ∑ j in Finset.range 1, _ = _
        simp only [Finset.sum_range_succ, Finset.sum_range_zero, equalTiles, equalAt,
          unitCanvas]
        norm_num)
      (by
        intro i hi
        refine ⟨1/10, 1/10, by norm_num, by norm_num, ?_⟩
        intro j hj
        rw [hp j i hj hi]
        simp [marginLeft, marginRight, fixedMargin])
      (by
        intro j hj
        refine ⟨1/10, 1/10, by norm_num, by norm_num, ?_⟩
        intro i hi
        rw [hp j i hj hi]
        simp [marginBottom, marginTop, fixedMargin])
      (by
        refine ⟨3/10, 4/5, ?_⟩
        intro j i hj hi
        have hj0 : j = 0 := by
          have : (j : Int) < 1 := hj
          omega
        have hi' : i = 0 ∨ i = 1 := by
          have : (i : Int) < 2 := hi
          omega
        rw [hp j i hj hi]
        subst hj0
        rcases hi' with rfl | rfl <;>
          simp [dataWidth, dataHeight, fixedMargin, equalTiles, equalAt, unitCanvas] <;>
          norm_num)
  exact ⟨even_wellFormed, tr, h2, h3⟩

theorem tile_equal (t : Tiles) (dc : Canvas) (h : IsEqualTiling t dc) (j i : Nat)
    (hj : (j : Int) < t.Rows) (hi : (i : Int) < t.Cols) :
    tileOf t dc j i = equalAt t.Rows t.Cols dc i j := h i j hi hj

theorem tile_abut_X (t : Tiles) (dc : Canvas) (h : IsEqualTiling t dc) (j i : Nat)
    (hj : (j : Int) < t.Rows) (hi : (i : Int) + 1 < t.Cols) :
    (tileOf t dc j (i + 1)).Min.X = (tileOf t dc j i).Max.X := by
  rw [tile_equal t dc h j (i + 1) hj (by push_cast; omega),
    tile_equal t dc h j i hj (by omega)]
  simp only [equalAt]
  push_cast
  ring

theorem tile_abut_Y (t : Tiles) (dc : Canvas) (h : IsEqualTiling t dc) (j i : Nat)
    (hj : (j : Int) + 1 < t.Rows) (hi : (i : Int) < t.Cols) :
    (tileOf t dc j i).Min.Y = (tileOf t dc (j + 1) i).Max.Y := by
  rw [tile_equal t dc h (j + 1) i (by push_cast; omega) hi,
    tile_equal t dc h j i (by omega) hi]
  simp only [equalAt]
  push_cast
  ring

/-- The gap between the returned cells `(j, i)` and `(j, i + 1)`, for
fixed-margin plots on tiles that share their common edge. -/
theorem gap_X (P : Nat → Nat → Plot) (t : Tiles) (dc : Canvas) (R C j i : Nat)
    (hP : ∀ j i, IsFixedMargin (P j i)) (hj : j < R)
    (hT : (tileOf t dc j (i + 1)).Min.X = (tileOf t dc j i).Max.X) :
    (gridV Crop P t dc R C j (i + 1)).Min.X - (gridV Crop P t dc R C j i).Max.X =
      ((xSp P (tileOf t dc) R i).p - marginRight (P j i) (tileOf t dc j i)) +
      ((xSp P (tileOf t dc) R (i + 1)).n
        - marginLeft (P j (i + 1)) (tileOf t dc j (i + 1))) := by
  rw [gridV_fixed P t dc R C j (i + 1) hP hj, gridV_fixed P t dc R C j i hP hj]
  simp only []
  rw [hT]
  ring

/-- The gap between the returned cells `(j + 1, i)` and `(j, i)`, the latter
above the former, for fixed-margin plots on tiles that share their common
edge. -/
theorem gap_Y (P : Nat → Nat → Plot) (t : Tiles) (dc : Canvas) (R C j i : Nat)
    (hP : ∀ j i, IsFixedMargin (P j i)) (hj : j + 1 < R)
    (hT : (tileOf t dc j i).Min.Y = (tileOf t dc (j + 1) i).Max.Y) :
    (gridV Crop P t dc R C j i).Min.Y - (gridV Crop P t dc R C (j + 1) i).Max.Y =
      ((ySp P (tileOf t dc) C (j + 1)).p - marginTop (P (j + 1) i) (tileOf t dc (j + 1) i)) +
      ((ySp P (tileOf t dc) C j).n - marginBottom (P j i) (tileOf t dc j i)) := by
  rw [gridV_fixed P t dc R C j i hP (by omega), gridV_fixed P t dc R C (j + 1) i hP hj]
  simp only []
  rw [hT]
  ring

theorem slack_nonneg (P : Nat → Nat → Plot) (T : Nat → Nat → Canvas) (R C j i : Nat)
    (hj : j < R) (hi : i < C) :
    0 ≤ (xSp P T R i).n - marginLeft (P j i) (T j i) ∧
    0 ≤ (xSp P T R i).p - marginRight (P j i) (T j i) ∧
    0 ≤ (ySp P T C j).n - marginBottom (P j i) (T j i) ∧
    0 ≤ (ySp P T C j).p - marginTop (P j i) (T j i) := by
  refine ⟨?_, ?_, ?_, ?_⟩
  · exact sub_nonneg.mpr (le_runMax (fun j => marginLeft (P j i) (T j i)) R j hj)
  · exact sub_nonneg.mpr (le_runMax (fun j => marginRight (P j i) (T j i)) R j hj)
  · exact sub_nonneg.mpr (le_runMax (fun i => marginBottom (P j i) (T j i)) C i hi)
  · exact sub_nonneg.mpr (le_runMax (fun i => marginTop (P j i) (T j i)) C i hi)

/-- C4, as the code has it. Neighbouring returned cells do not overlap, and
the gap between them is the room the normalisation loop took from them: for a
well-formed grid of fixed-margin plots on an equal tiling (additive `Crop`,
exact arithmetic), for every row `j` and `i < cols - 1`,
`out[j][i+1].Min.X - out[j][i].Max.X` is
`(xSpacing[i].p - right margin of plot (j,i))
 + (xSpacing[i+1].n - left margin of plot (j,i+1))`, two terms that are not
negative; and for every column `i` and every row `j + 1 >= 1`,
`out[j][i].Min.Y - out[j+1][i].Max.Y` is
`(ySpacing[j+1].p - top margin of plot (j+1,i))
 + (ySpacing[j].n - bottom margin of plot (j,i))`, again two terms that are not
negative. The cells abut exactly where both plots have the full margins of
their column, respectively row. -/
theorem neighbour_gap (plots : List (List Plot)) (t : Tiles) (dc : Canvas)
    (hwf : WellFormed plots t) (hfm : FixedGrid plots) (heq : IsEqualTiling t dc) :
    ∃ tr : Trace, alignTrace Crop plots t dc = .ok tr ∧ Align Crop plots t dc = .ok tr.out ∧
      (∀ j i : Nat, (j : Int) < t.Rows → (i : Int) + 1 < t.Cols →
        ∃ p p' T T' c c' xs xs',
          getCell plots j i = .ok p ∧ getCell plots j (i + 1) = .ok p' ∧
          getCell tr.tiles j i = .ok T ∧ getCell tr.tiles j (i + 1) = .ok T' ∧
          getCell tr.out j i = .ok c ∧ getCell tr.out j (i + 1) = .ok c' ∧
          getAt tr.xSpacing i = .ok xs ∧ getAt tr.xSpacing (i + 1) = .ok xs' ∧
          c'.Min.X - c.Max.X = (xs.p - marginRight p T) + (xs'.n - marginLeft p' T') ∧
          0 ≤ xs.p - marginRight p T ∧ 0 ≤ xs'.n - marginLeft p' T' ∧
          c.Max.X ≤ c'.Min.X) ∧
      (∀ j i : Nat, (j : Int) + 1 < t.Rows → (i : Int) < t.Cols →
        ∃ p p' T T' c c' ys ys',
          getCell plots (j + 1) i = .ok p ∧ getCell plots j i = .ok p' ∧
          getCell tr.tiles (j + 1) i = .ok T ∧ getCell tr.tiles j i = .ok T' ∧
          getCell tr.out (j + 1) i = .ok c ∧ getCell tr.out j i = .ok c' ∧
          getAt tr.ySpacing (j + 1) = .ok ys ∧ getAt tr.ySpacing j = .ok ys' ∧
          c'.Min.Y - c.Max.Y = (ys.p - marginTop p T) + (ys'.n - marginBottom p' T') ∧
          0 ≤ ys.p - marginTop p T ∧ 0 ≤ ys'.n - marginBottom p' T' ∧
          c.Max.Y ≤ c'.Min.Y) := by
  have hrun := alignTrace_wellFormed Crop plots t dc hwf
  have hP := plotAt_fixed plots hfm
  refine ⟨_, hrun, align_eq_out _ _ _ _ _ hrun, ?_, ?_⟩
  · intro j i hj hi
    have hi1 : ((i + 1 : Nat) : Int) < t.Cols := by push_cast; omega
    have hi0 : (i : Int) < t.Cols := by omega
    have hgap := gap_X (plotAt plots) t dc t.Rows.toNat t.Cols.toNat j i hP (by omega)
      (tile_abut_X t dc heq j i hj hi)
    have h1 := (slack_nonneg (plotAt plots) (tileOf t dc) t.Rows.toNat t.Cols.toNat j i
      (by omega) (by omega)).2.1
    have h2 := (slack_nonneg (plotAt plots) (tileOf t dc) t.Rows.toNat t.Cols.toNat j (i + 1)
      (by omega) (by omega)).1
    refine ⟨_, _, _, _, _, _, _, _, getCell_plots plots t hwf j i hj hi0,
      getCell_plots plots t hwf j (i + 1) hj hi1,
      getCell_tiles Crop plots t dc j i hj hi0, getCell_tiles Crop plots t dc j (i + 1) hj hi1,
      getCell_out Crop plots t dc j i hj hi0, getCell_out Crop plots t dc j (i + 1) hj hi1,
      getAt_xSpacing Crop plots t dc i hi0, getAt_xSpacing Crop plots t dc (i + 1) hi1,
      hgap, h1, h2, ?_⟩
    linarith
  · intro j i hj hi
    have hj1 : ((j + 1 : Nat) : Int) < t.Rows := by push_cast; omega
    have hj0 : (j : Int) < t.Rows := by omega
    have hgap := gap_Y (plotAt plots) t dc t.Rows.toNat t.Cols.toNat j i hP (by omega)
      (tile_abut_Y t dc heq j i hj hi)
    have h1 := (slack_nonneg (plotAt plots) (tileOf t dc) t.Rows.toNat t.Cols.toNat (j + 1) i
      (by omega) (by omega)).2.2.2
    have h2 := (slack_nonneg (plotAt plots) (tileOf t dc) t.Rows.toNat t.Cols.toNat j i
      (by omega) (by omega)).2.2.1
    refine ⟨_, _, _, _, _, _, _, _, getCell_plots plots t hwf (j + 1) i hj1 hi,
      getCell_plots plots t hwf j i hj0 hi,
      getCell_tiles Crop plots t dc (j + 1) i hj1 hi, getCell_tiles Crop plots t dc j i hj0 hi,
      getCell_out Crop plots t dc (j + 1) i hj1 hi, getCell_out Crop plots t dc j i hj0 hi,
      getAt_ySpacing Crop plots t dc (j + 1) hj1, getAt_ySpacing Crop plots t dc j hj0,
      hgap, h1, h2, ?_⟩
    linarith

theorem gap_wellFormed : WellFormed gapPlots (equalTiles 2 2) := by
  simp [WellFormed, gapPlots, equalTiles]

theorem gap_fixed : FixedGrid gapPlots := by
  apply fixedGrid_of_forall
  simp [gapPlots]
  exact ⟨⟨⟨_, _, _, _, rfl⟩, ⟨_, _, _, _, rfl⟩⟩, ⟨⟨_, _, _, _, rfl⟩, ⟨_, _, _, _, rfl⟩⟩⟩

theorem neighbour_gap_witness :
    WellFormed gapPlots (equalTiles 2 2) ∧ FixedGrid gapPlots ∧
    IsEqualTiling (equalTiles 2 2) unitCanvas ∧
    ∃ tr : Trace, Align Crop gapPlots (equalTiles 2 2) unitCanvas = .ok tr.out ∧
      ∀ j i : Nat, (j : Int) < 2 → (i : Int) + 1 < 2 →
        ∃ c c', getCell tr.out j i = .ok c ∧ getCell tr.out j (i + 1) = .ok c' ∧
          c.Max.X ≤ c'.Min.X := by
  obtain ⟨tr, _, h2, h3, _⟩ :=
    neighbour_gap gapPlots (equalTiles 2 2) unitCanvas gap_wellFormed gap_fixed
      (equalTiles_isEqualTiling 2 2 unitCanvas)
  refine ⟨gap_wellFormed, gap_fixed, equalTiles_isEqualTiling 2 2 unitCanvas, tr, h2, ?_⟩
  intro j i hj hi
  obtain ⟨_, _, _, _, c, c', _, _, _, _, _, _, hc, hc', _, _, _, _, _, hle⟩ := h3 j i hj hi
  exact ⟨c, c', hc, hc', hle⟩

/-- C4, as stated, fails: on the unit square cut into 2 x 2 equal tiles, with
right margins 1/10 and 1/5 for the two plots of column 0 and no other margin,
the returned cells (0,0) and (0,1) leave a gap: `out[0][0].Max.X` is 1/10 less
than `out[0][1].Min.X`. -/
theorem no_gap_counterexample :
    WellFormed gapPlots (equalTiles 2 2) ∧ FixedGrid gapPlots ∧
    IsEqualTiling (equalTiles 2 2) unitCanvas ∧
    ∃ tr : Trace, alignTrace Crop gapPlots (equalTiles 2 2) unitCanvas = .ok tr ∧
      Align Crop gapPlots (equalTiles 2 2) unitCanvas = .ok tr.out ∧
      ∃ c c', getCell tr.out 0 0 = .ok c ∧ getCell tr.out 0 1 = .ok c' ∧
        c'.Min.X - c.Max.X = 1/10 ∧ c.Max.X ≠ c'.Min.X := by
  have hrun := alignTrace_wellFormed Crop gapPlots (equalTiles 2 2) unitCanvas gap_wellFormed
  have hgap := gap_X (plotAt gapPlots) (equalTiles 2 2) unitCanvas 2 2 0 0
    (plotAt_fixed gapPlots gap_fixed) (by decide)
    (tile_abut_X (equalTiles 2 2) unitCanvas (equalTiles_isEqualTiling 2 2 unitCanvas) 0 0
      (by decide) (by decide))
  have h00 : plotAt gapPlots 0 0 = fixedMargin 0 (1/10) 0 0 := rfl
  have h01 : plotAt gapPlots 0 1 = fixedMargin 0 0 0 0 := rfl
  have h10 : plotAt gapPlots 1 0 = fixedMargin 0 (1/5) 0 0 := rfl
  have h11 : plotAt gapPlots 1 1 = fixedMargin 0 0 0 0 := rfl
  have hval : (gridV Crop (plotAt gapPlots) (equalTiles 2 2) unitCanvas 2 2 0 1).Min.X
      - (gridV Crop (plotAt gapPlots) (equalTiles 2 2) unitCanvas 2 2 0 0).Max.X = 1/10 := by
    rw [hgap]
    simp only [xSp, runMax, h00, h01, h10, h11, marginLeft, marginRight, fixedMargin]
    norm_num
  refine ⟨gap_wellFormed, gap_fixed, equalTiles_isEqualTiling 2 2 unitCanvas, _, hrun,
    align_eq_out _ _ _ _ _ hrun, _, _,
    getCell_out Crop gapPlots (equalTiles 2 2) unitCanvas 0 0 (by decide) (by decide),
    getCell_out Crop gapPlots (equalTiles 2 2) unitCanvas 0 1 (by decide) (by decide),
    hval, ?_⟩
  intro hne
  have hval' : (gridV Crop (plotAt gapPlots) (equalTiles 2 2) unitCanvas
      (equalTiles 2 2).Rows.toNat (equalTiles 2 2).Cols.toNat 0 1).Min.X
      - (gridV Crop (plotAt gapPlots) (equalTiles 2 2) unitCanvas
      (equalTiles 2 2).Rows.toNat (equalTiles 2 2).Cols.toNat 0 0).Max.X = 1/10 := hval
  rw [hne, sub_self] at hval'
  norm_num at hval'

theorem nonneg_fixed (plots : List (List Plot)) (h : NonnegMargins plots) : FixedGrid plots := by
  intro row hrow p hp
  obtain ⟨l, r, b, tp, _, _, _, _, hc⟩ := h row hrow p hp
  exact ⟨l, r, b, tp, hc⟩

theorem plotAt_nonneg (plots : List (List Plot)) (h : NonnegMargins plots) (j i : Nat)
    (c : Canvas) :
    0 ≤ marginLeft (plotAt plots j i) c ∧ 0 ≤ marginRight (plotAt plots j i) c ∧
    0 ≤ marginBottom (plotAt plots j i) c ∧ 0 ≤ marginTop (plotAt plots j i) c := by
  have key : ∀ p : Plot, (∃ left right bottom top : Length,
      0 ≤ left ∧ 0 ≤ right ∧ 0 ≤ bottom ∧ 0 ≤ top ∧
      ∀ c, p.DataCanvas c =
        ⟨⟨c.Min.X + left, c.Min.Y + bottom⟩, ⟨c.Max.X - right, c.Max.Y - top⟩⟩) →
      0 ≤ marginLeft p c ∧ 0 ≤ marginRight p c ∧ 0 ≤ marginBottom p c ∧ 0 ≤ marginTop p c := by
    intro p hp
    obtain ⟨l, r, b, tp, hl, hr, hb, htp, hc⟩ := hp
    simp only [marginLeft, marginRight, marginBottom, marginTop, hc]
    refine ⟨by linarith, by linarith, by linarith, by linarith⟩
  have hdef : ∃ left right bottom top : Length,
      0 ≤ left ∧ 0 ≤ right ∧ 0 ≤ bottom ∧ 0 ≤ top ∧
      ∀ c, (default : Plot).DataCanvas c =
        ⟨⟨c.Min.X + left, c.Min.Y + bottom⟩, ⟨c.Max.X - right, c.Max.Y - top⟩⟩ :=
    ⟨0, 0, 0, 0, le_refl _, le_refl _, le_refl _, le_refl _, fun c => by simp [default]⟩
  apply key
  unfold plotAt
  by_cases hj : j < plots.length
  · have hrow : plots.getD j [] = plots[j] := by
      rw [List.getD_eq_getElem?_getD, List.getElem?_eq_getElem hj]
      rfl
    rw [hrow]
    by_cases hi : i < plots[j].length
    · have hp : plots[j].getD i default = plots[j][i] := by
        rw [List.getD_eq_getElem?_getD, List.getElem?_eq_getElem hi]
        rfl
      rw [hp]
      exact h _ (List.getElem_mem hj) _ (List.getElem_mem hi)
    · have hp : plots[j].getD i default = default := by
        rw [List.getD_eq_getElem?_getD, List.getElem?_eq_none (by omega)]
        rfl
      rw [hp]
      exact hdef
  · have hrow : plots.getD j [] = [] := by
      rw [List.getD_eq_getElem?_getD, List.getElem?_eq_none (by omega)]
      rfl
    rw [hrow]
    exact hdef

theorem tile_width (t : Tiles) (dc : Canvas) (h : IsEqualTiling t dc) (j i : Nat)
    (hj : (j : Int) < t.Rows) (hi : (i : Int) < t.Cols) :
    (tileOf t dc j i).Max.X - (tileOf t dc j i).Min.X = (dc.Max.X - dc.Min.X) / (t.Cols : ℚ) := by
  rw [tile_equal t dc h j i hj hi]
  simp only [equalAt]
  push_cast
  ring

theorem tile_height (t : Tiles) (dc : Canvas) (h : IsEqualTiling t dc) (j i : Nat)
    (hj : (j : Int) < t.Rows) (hi : (i : Int) < t.Cols) :
    (tileOf t dc j i).Max.Y - (tileOf t dc j i).Min.Y = (dc.Max.Y - dc.Min.Y) / (t.Rows : ℚ) := by
  rw [tile_equal t dc h j i hj hi]
  simp only [equalAt]
  push_cast
  ring

theorem shiftH_equal (P : Nat → Nat → Plot) (t : Tiles) (dc : Canvas)
    (h : IsEqualTiling t dc) (R C j i : Nat) (hj : (j : Int) < t.Rows)
    (hi : (i : Int) ≤ t.Cols) :
    shiftH P t dc R C j i = ∑ k in Finset.range i, colShare P t dc R C k
      - (i : ℚ) * ((dc.Max.X - dc.Min.X) / (t.Cols : ℚ)) := by
  unfold shiftH
  have : ∀ k ∈ Finset.range i, (avgW P t dc R C -
      ((tileOf t dc j k).Max.X - (tileOf t dc j k).Min.X
        - (xSp P (tileOf t dc) R k).n - (xSp P (tileOf t dc) R k).p)) =
      colShare P t dc R C k - (dc.Max.X - dc.Min.X) / (t.Cols : ℚ) := by
    intro k hk
    have hk' := Finset.mem_range.mp hk
    rw [tile_width t dc h j k hj (by omega)]
    unfold colShare
    ring
  rw [Finset.sum_congr rfl this, Finset.sum_sub_distrib, Finset.sum_const, Finset.card_range,
    nsmul_eq_mul]

theorem shiftV_equal (P : Nat → Nat → Plot) (t : Tiles) (dc : Canvas)
    (h : IsEqualTiling t dc) (R C j i : Nat) (hR : (R : Int) = t.Rows) (hj : j ≤ R)
    (hi : (i : Int) < t.Cols) :
    shiftV P t dc R C j i = ∑ k in Finset.Ico j R, rowShare P t dc R C k
      - ((R : ℚ) - (j : ℚ)) * ((dc.Max.Y - dc.Min.Y) / (t.Rows : ℚ)) := by
  unfold shiftV
  have : ∀ k ∈ Finset.Ico j R, (avgH P t dc R C -
      ((tileOf t dc k i).Max.Y - (tileOf t dc k i).Min.Y
        - (ySp P (tileOf t dc) C k).n - (ySp P (tileOf t dc) C k).p)) =
      rowShare P t dc R C k - (dc.Max.Y - dc.Min.Y) / (t.Rows : ℚ) := by
    intro k hk
    have hk' := (Finset.mem_Ico.mp hk).2
    rw [tile_height t dc h k i (by omega) hi]
    unfold rowShare
    ring
  rw [Finset.sum_congr rfl this, Finset.sum_sub_distrib, Finset.sum_const, Nat.card_Ico,
    nsmul_eq_mul, Nat.cast_sub hj]

theorem colShare_total (P : Nat → Nat → Plot) (t : Tiles) (dc : Canvas) (R C : Nat)
    (hC : (C : Int) = t.Cols) (hpos : 0 < C) :
    ∑ k in Finset.range C, colShare P t dc R C k = dc.Max.X - dc.Min.X := by
  have hq : (t.Cols : ℚ) = (C : ℚ) := by
    rw [← hC]
    exact Int.cast_natCast C
  have hne : (C : ℚ) ≠ 0 := by exact_mod_cast (by omega : C ≠ 0)
  have e : ∀ k ∈ Finset.range C, colShare P t dc R C k = avgW P t dc R C +
      ((xSp P (tileOf t dc) R k).n + (xSp P (tileOf t dc) R k).p) := by
    intro k _
    unfold colShare
    ring
  rw [Finset.sum_congr rfl e, Finset.sum_add_distrib, Finset.sum_const, Finset.card_range,
    nsmul_eq_mul, ← totalSpace_tab1]
  unfold avgW
  rw [hq]
  field_simp

theorem rowShare_total (P : Nat → Nat → Plot) (t : Tiles) (dc : Canvas) (R C : Nat)
    (hR : (R : Int) = t.Rows) (hpos : 0 < R) :
    ∑ k in Finset.range R, rowShare P t dc R C k = dc.Max.Y - dc.Min.Y := by
  have hq : (t.Rows : ℚ) = (R : ℚ) := by
    rw [← hR]
    exact Int.cast_natCast R
  have hne : (R : ℚ) ≠ 0 := by exact_mod_cast (by omega : R ≠ 0)
  have e : ∀ k ∈ Finset.range R, rowShare P t dc R C k = avgH P t dc R C +
      ((ySp P (tileOf t dc) C k).n + (ySp P (tileOf t dc) C k).p) := by
    intro k _
    unfold rowShare
    ring
  rw [Finset.sum_congr rfl e, Finset.sum_add_distrib, Finset.sum_const, Finset.card_range,
    nsmul_eq_mul, ← totalSpace_tab1]
  unfold avgH
  rw [hq]
  field_simp

/-- The returned cell `(j, i)` of a grid of fixed-margin plots on an equal
tiling, measured from the edges of the canvas. -/
theorem gridV_equal (P : Nat → Nat → Plot) (t : Tiles) (dc : Canvas)
    (h : IsEqualTiling t dc) (R C j i : Nat) (hP : ∀ j i, IsFixedMargin (P j i))
    (hR : (R : Int) = t.Rows) (hC : (C : Int) = t.Cols) (hj : j < R) (hi : i < C) :
    (gridV Crop P t dc R C j i).Min.X = dc.Min.X
      + ((xSp P (tileOf t dc) R i).n - marginLeft (P j i) (tileOf t dc j i))
      + ∑ k in Finset.range i, colShare P t dc R C k ∧
    (gridV Crop P t dc R C j i).Max.X = dc.Min.X
      + ∑ k in Finset.range (i + 1), colShare P t dc R C k
      - ((xSp P (tileOf t dc) R i).p - marginRight (P j i) (tileOf t dc j i)) ∧
    (gridV Crop P t dc R C j i).Min.Y = dc.Min.Y
      + ((ySp P (tileOf t dc) C j).n - marginBottom (P j i) (tileOf t dc j i))
      + ∑ k in Finset.Ico (j + 1) R, rowShare P t dc R C k ∧
    (gridV Crop P t dc R C j i).Max.Y = dc.Min.Y
      + ∑ k in Finset.Ico j R, rowShare P t dc R C k
      - ((ySp P (tileOf t dc) C j).p - marginTop (P j i) (tileOf t dc j i)) := by
  have hjI : (j : Int) < t.Rows := by omega
  have hiI : (i : Int) < t.Cols := by omega
  have hRq : (t.Rows : ℚ) = (R : ℚ) := by
    rw [← hR]
    exact Int.cast_natCast R
  have hRne : (R : ℚ) ≠ 0 := by exact_mod_cast (by omega : R ≠ 0)
  rw [gridV_fixed P t dc R C j i hP hj]
  simp only []
  rw [shiftH_equal P t dc h R C j i hjI (by omega),
    shiftH_equal P t dc h R C j (i + 1) hjI (by push_cast; omega),
    shiftV_equal P t dc h R C (j + 1) i hR (by omega) hiI,
    shiftV_equal P t dc h R C j i hR (by omega) hiI,
    tile_equal t dc h j i hjI hiI]
  simp only [equalAt]
  rw [hRq]
  push_cast
  refine ⟨by ring, by ring, ?_, ?_⟩
  · field_simp
    ring
  · field_simp
    ring

theorem colShare_nonneg (P : Nat → Nat → Plot) (t : Tiles) (dc : Canvas) (R C k : Nat)
    (h : 0 ≤ avgW P t dc R C) : 0 ≤ colShare P t dc R C k := by
  unfold colShare
  have h1 := runMax_nonneg (fun j => marginLeft (P j k) (tileOf t dc j k)) R
  have h2 := runMax_nonneg (fun j => marginRight (P j k) (tileOf t dc j k)) R
  have e1 : (xSp P (tileOf t dc) R k).n
      = runMax (fun j => marginLeft (P j k) (tileOf t dc j k)) R := rfl
  have e2 : (xSp P (tileOf t dc) R k).p
      = runMax (fun j => marginRight (P j k) (tileOf t dc j k)) R := rfl
  rw [e1, e2]
  linarith

theorem rowShare_nonneg (P : Nat → Nat → Plot) (t : Tiles) (dc : Canvas) (R C k : Nat)
    (h : 0 ≤ avgH P t dc R C) : 0 ≤ rowShare P t dc R C k := by
  unfold rowShare
  have h1 := runMax_nonneg (fun i => marginBottom (P k i) (tileOf t dc k i)) C
  have h2 := runMax_nonneg (fun i => marginTop (P k i) (tileOf t dc k i)) C
  have e1 : (ySp P (tileOf t dc) C k).n
      = runMax (fun i => marginBottom (P k i) (tileOf t dc k i)) C := rfl
  have e2 : (ySp P (tileOf t dc) C k).p
      = runMax (fun i => marginTop (P k i) (tileOf t dc k i)) C := rfl
  rw [e1, e2]
  linarith

/-- C3, as the code has it. Conservation of extent when the layout fits: for a
well-formed grid of fixed-margin plots with non-negative margins on an equal
tiling (row 0 at the top, additive `Crop`, exact arithmetic), `Align` returns a
grid such that, if `avgWidth` is not negative, every returned cell lies between
`canvas.Min.X` and `canvas.Max.X`, some cell has `Min.X = canvas.Min.X` and some
cell has `Max.X = canvas.Max.X`; and, if `avgHeight` is not negative, every
returned cell lies between `canvas.Min.Y` and `canvas.Max.Y`, some cell has
`Min.Y = canvas.Min.Y` and some cell has `Max.Y = canvas.Max.Y`. So the smallest
`Min` and the largest `Max` over the returned cells are those of the canvas. -/
theorem extent_conserved (plots : List (List Plot)) (t : Tiles) (dc : Canvas)
    (hwf : WellFormed plots t) (hnn : NonnegMargins plots) (heq : IsEqualTiling t dc) :
    ∃ tr : Trace, alignTrace Crop plots t dc = .ok tr ∧ Align Crop plots t dc = .ok tr.out ∧
      (0 ≤ tr.avgWidth →
        (∀ j i : Nat, (j : Int) < t.Rows → (i : Int) < t.Cols →
          ∃ c, getCell tr.out j i = .ok c ∧ dc.Min.X ≤ c.Min.X ∧ c.Max.X ≤ dc.Max.X) ∧
        (∃ j i c, getCell tr.out j i = .ok c ∧ c.Min.X = dc.Min.X) ∧
        (∃ j i c, getCell tr.out j i = .ok c ∧ c.Max.X = dc.Max.X)) ∧
      (0 ≤ tr.avgHeight →
        (∀ j i : Nat, (j : Int) < t.Rows → (i : Int) < t.Cols →
          ∃ c, getCell tr.out j i = .ok c ∧ dc.Min.Y ≤ c.Min.Y ∧ c.Max.Y ≤ dc.Max.Y) ∧
        (∃ j i c, getCell tr.out j i = .ok c ∧ c.Min.Y = dc.Min.Y) ∧
        (∃ j i c, getCell tr.out j i = .ok c ∧ c.Max.Y = dc.Max.Y)) := by
  have hrun := alignTrace_wellFormed Crop plots t dc hwf
  have hP := plotAt_fixed plots (nonneg_fixed plots hnn)
  have hR : ((t.Rows.toNat : Nat) : Int) = t.Rows :=
    Int.toNat_of_nonneg (by have := hwf.1; omega)
  have hC : ((t.Cols.toNat : Nat) : Int) = t.Cols :=
    Int.toNat_of_nonneg (by have := hwf.2.1; omega)
  have hRpos : 0 < t.Rows.toNat := by have := hwf.1; omega
  have hCpos : 0 < t.Cols.toNat := by have := hwf.2.1; omega
  have hcell := fun j i (hj : j < t.Rows.toNat) (hi : i < t.Cols.toNat) =>
    gridV_equal (plotAt plots) t dc heq t.Rows.toNat t.Cols.toNat j i hP hR hC hj hi
  have hslack := fun j i (hj : j < t.Rows.toNat) (hi : i < t.Cols.toNat) =>
    slack_nonneg (plotAt plots) (tileOf t dc) t.Rows.toNat t.Cols.toNat j i hj hi
  refine ⟨_, hrun, align_eq_out _ _ _ _ _ hrun, ?_, ?_⟩
  · intro hav
    have hav' : 0 ≤ avgW (plotAt plots) t dc t.Rows.toNat t.Cols.toNat := hav
    have hcs := fun k => colShare_nonneg (plotAt plots) t dc t.Rows.toNat t.Cols.toNat k hav'
    have htot := colShare_total (plotAt plots) t dc t.Rows.toNat t.Cols.toNat hC hCpos
    refine ⟨?_, ?_, ?_⟩
    · intro j i hj hi
      refine ⟨_, getCell_out Crop plots t dc j i hj hi, ?_, ?_⟩
      · rw [(hcell j i (by omega) (by omega)).1]
        have h1 := (hslack j i (by omega) (by omega)).1
        have h2 : 0 ≤ ∑ k in Finset.range i,
            colShare (plotAt plots) t dc t.Rows.toNat t.Cols.toNat k :=
          Finset.sum_nonneg (fun k _ => hcs k)
        linarith
      · rw [(hcell j i (by omega) (by omega)).2.1]
        have h1 := (hslack j i (by omega) (by omega)).2.1
        have h2 : ∑ k in Finset.range (i + 1),
            colShare (plotAt plots) t dc t.Rows.toNat t.Cols.toNat k ≤
            ∑ k in Finset.range t.Cols.toNat,
              colShare (plotAt plots) t dc t.Rows.toNat t.Cols.toNat k :=
          Finset.sum_le_sum_of_subset_of_nonneg
            (Finset.range_subset.mpr (by omega)) (fun k _ _ => hcs k)
        linarith
    · obtain ⟨j, hj, hjm⟩ := runMax_attained
        (fun j => marginLeft (plotAt plots j 0) (tileOf t dc j 0)) t.Rows.toNat hRpos
        (fun k _ => (plotAt_nonneg plots hnn k 0 _).1)
      refine ⟨j, 0, _, getCell_out Crop plots t dc j 0 (by omega) (by omega), ?_⟩
      rw [(hcell j 0 hj hCpos).1]
      have e : (xSp (plotAt plots) (tileOf t dc) t.Rows.toNat 0).n
          = marginLeft (plotAt plots j 0) (tileOf t dc j 0) := hjm.symm
      rw [e]
      simp
    · obtain ⟨j, hj, hjm⟩ := runMax_attained
        (fun j => marginRight (plotAt plots j (t.Cols.toNat - 1))
          (tileOf t dc j (t.Cols.toNat - 1))) t.Rows.toNat hRpos
        (fun k _ => (plotAt_nonneg plots hnn k (t.Cols.toNat - 1) _).2.1)
      refine ⟨j, t.Cols.toNat - 1, _,
        getCell_out Crop plots t dc j (t.Cols.toNat - 1) (by omega) (by omega), ?_⟩
      rw [(hcell j (t.Cols.toNat - 1) hj (by omega)).2.1]
      have e : (xSp (plotAt plots) (tileOf t dc) t.Rows.toNat (t.Cols.toNat - 1)).p
          = marginRight (plotAt plots j (t.Cols.toNat - 1))
            (tileOf t dc j (t.Cols.toNat - 1)) := hjm.symm
      rw [e, show t.Cols.toNat - 1 + 1 = t.Cols.toNat by omega, htot]
      ring
  · intro hav
    have hav' : 0 ≤ avgH (plotAt plots) t dc t.Rows.toNat t.Cols.toNat := hav
    have hrs := fun k => rowShare_nonneg (plotAt plots) t dc t.Rows.toNat t.Cols.toNat k hav'
    have htot := rowShare_total (plotAt plots) t dc t.Rows.toNat t.Cols.toNat hR hRpos
    refine ⟨?_, ?_, ?_⟩
    · intro j i hj hi
      refine ⟨_, getCell_out Crop plots t dc j i hj hi, ?_, ?_⟩
      · rw [(hcell j i (by omega) (by omega)).2.2.1]
        have h1 := (hslack j i (by omega) (by omega)).2.2.1
        have h2 : 0 ≤ ∑ k in Finset.Ico (j + 1) t.Rows.toNat,
            rowShare (plotAt plots) t dc t.Rows.toNat t.Cols.toNat k :=
          Finset.sum_nonneg (fun k _ => hrs k)
        linarith
      · rw [(hcell j i (by omega) (by omega)).2.2.2]
        have h1 := (hslack j i (by omega) (by omega)).2.2.2
        have h2 : ∑ k in Finset.Ico j t.Rows.toNat,
            rowShare (plotAt plots) t dc t.Rows.toNat t.Cols.toNat k ≤
            ∑ k in Finset.range t.Rows.toNat,
              rowShare (plotAt plots) t dc t.Rows.toNat t.Cols.toNat k := by
          apply Finset.sum_le_sum_of_subset_of_nonneg
          · intro k hk
            exact Finset.mem_range.mpr (Finset.mem_Ico.mp hk).2
          · exact fun k _ _ => hrs k
        linarith
    · obtain ⟨i, hi, him⟩ := runMax_attained
        (fun i => marginBottom (plotAt plots (t.Rows.toNat - 1) i)
          (tileOf t dc (t.Rows.toNat - 1) i)) t.Cols.toNat hCpos
        (fun k _ => (plotAt_nonneg plots hnn (t.Rows.toNat - 1) k _).2.2.1)
      refine ⟨t.Rows.toNat - 1, i, _,
        getCell_out Crop plots t dc (t.Rows.toNat - 1) i (by omega) (by omega), ?_⟩
      rw [(hcell (t.Rows.toNat - 1) i (by omega) hi).2.2.1]
      have e : (ySp (plotAt plots) (tileOf t dc) t.Cols.toNat (t.Rows.toNat - 1)).n
          = marginBottom (plotAt plots (t.Rows.toNat - 1) i)
            (tileOf t dc (t.Rows.toNat - 1) i) := him.symm
      rw [e, show t.Rows.toNat - 1 + 1 = t.Rows.toNat by omega]
      simp
    · obtain ⟨i, hi, him⟩ := runMax_attained
        (fun i => marginTop (plotAt plots 0 i) (tileOf t dc 0 i)) t.Cols.toNat hCpos
        (fun k _ => (plotAt_nonneg plots hnn 0 k _).2.2.2)
      refine ⟨0, i, _, getCell_out Crop plots t dc 0 i (by omega) (by omega), ?_⟩
      rw [(hcell 0 i hRpos hi).2.2.2]
      have e : (ySp (plotAt plots) (tileOf t dc) t.Cols.toNat 0).p
          = marginTop (plotAt plots 0 i) (tileOf t dc 0 i) := him.symm
      rw [e, ← Finset.range_eq_Ico, htot]
      ring

theorem scenario_nonneg : NonnegMargins scenarioPlots := by
  intro row hrow p hp
  simp only [scenarioPlots, List.mem_singleton] at hrow
  subst hrow
  simp only [List.mem_cons, List.mem_singleton, List.not_mem_nil, or_false] at hp
  rcases hp with rfl | rfl
  · exact ⟨1/10, 1/10, 1/10, 1/10, by norm_num, by norm_num, by norm_num, by norm_num,
      fun _ => rfl⟩
  · exact ⟨1/5, 1/5, 1/5, 1/5, by norm_num, by norm_num, by norm_num, by norm_num,
      fun _ => rfl⟩

theorem extent_conserved_witness :
    WellFormed scenarioPlots (equalTiles 1 2) ∧ NonnegMargins scenarioPlots ∧
    IsEqualTiling (equalTiles 1 2) unitCanvas ∧
    ∃ tr : Trace, Align Crop scenarioPlots (equalTiles 1 2) unitCanvas = .ok tr.out ∧
      (0 ≤ tr.avgWidth →
        (∀ j i : Nat, (j : Int) < 1 → (i : Int) < 2 →
          ∃ c, getCell tr.out j i = .ok c ∧ unitCanvas.Min.X ≤ c.Min.X ∧
            c.Max.X ≤ unitCanvas.Max.X) ∧
        (∃ j i c, getCell tr.out j i = .ok c ∧ c.Min.X = unitCanvas.Min.X) ∧
        (∃ j i c, getCell tr.out j i = .ok c ∧ c.Max.X = unitCanvas.Max.X)) := by
  obtain ⟨tr, _, h2, h3, _⟩ :=
    extent_conserved scenarioPlots (equalTiles 1 2) unitCanvas scenario_wellFormed
      scenario_nonneg (equalTiles_isEqualTiling 1 2 unitCanvas)
  exact ⟨scenario_wellFormed, scenario_nonneg, equalTiles_isEqualTiling 1 2 unitCanvas,
    tr, h2, h3⟩

theorem tight_out :
    tab 1 2 (gridV Crop (plotAt tightPlots) (equalTiles 1 2) unitCanvas 1 2) =
      [[⟨⟨0, 0⟩, ⟨-1, 1⟩⟩, ⟨⟨-1, 0⟩, ⟨1, 1⟩⟩]] := by
  have h0 : plotAt tightPlots 0 0 = fixedMargin 0 0 0 0 := rfl
  have h1 : plotAt tightPlots 0 1 = fixedMargin 3 0 0 0 := rfl
  have hP := plotAt_fixed tightPlots tight_fixed
  simp only [tab, tab1_one, tab1_two]
  rw [gridV_fixed _ _ _ 1 2 0 0 hP (by decide), gridV_fixed _ _ _ 1 2 0 1 hP (by decide)]
  simp only [shiftH, shiftV, avgW, avgH, totalSpace_tab1, Finset.sum_range_succ,
    Finset.sum_range_zero, Finset.Ico_self, Finset.sum_empty, Nat.Ico_succ_singleton,
    Finset.sum_singleton, xSp, ySp, runMax, h0, h1, marginLeft, marginRight, marginBottom,
    marginTop, fixedMargin, tileOf, equalTiles, equalAt, unitCanvas]
  norm_num

theorem stickingOut_fixed : FixedGrid stickingOutPlots := by
  apply fixedGrid_of_forall
  simp [stickingOutPlots]
  exact ⟨_, _, _, _, rfl⟩

theorem stickingOut_out :
    tab 1 1 (gridV Crop (plotAt stickingOutPlots) (equalTiles 1 1) unitCanvas 1 1) =
      [[⟨⟨1, 1⟩, ⟨0, 0⟩⟩]] := by
  have h0 : plotAt stickingOutPlots 0 0 = fixedMargin (-1) (-1) (-1) (-1) := rfl
  have hP := plotAt_fixed stickingOutPlots stickingOut_fixed
  simp only [tab, tab1_one]
  rw [gridV_fixed _ _ _ 1 1 0 0 hP (by decide)]
  simp only [shiftH, shiftV, avgW, avgH, totalSpace_tab1, Finset.sum_range_succ,
    Finset.sum_range_zero, Finset.Ico_self, Finset.sum_empty, Nat.Ico_succ_singleton,
    Finset.sum_singleton, xSp, ySp, runMax, h0, marginLeft, marginRight, marginBottom,
    marginTop, fixedMargin, tileOf, equalTiles, equalAt, unitCanvas]
  norm_num

/-- C3, as stated, fails. First input: one row of two plots on the unit square
cut into two equal tiles, the second plot with a left margin of 3, wider than
the canvas; `Align` returns the cells `[0,-1]x[0,1]` and `[-1,1]x[0,1]`, so the
smallest `Min.X` is -1, not `canvas.Min.X = 0`. Second input: a single plot
whose data canvas sticks out of its tile by 1 on every side; `Align` returns the
one cell with `Min = (1,1)` and `Max = (0,0)`, so the smallest `Min.X` is 1 and
the largest `Max.X` is 0, not 0 and 1. -/
theorem extent_counterexample :
    (WellFormed tightPlots (equalTiles 1 2) ∧ FixedGrid tightPlots ∧
      IsEqualTiling (equalTiles 1 2) unitCanvas ∧
      ∃ tr : Trace, alignTrace Crop tightPlots (equalTiles 1 2) unitCanvas = .ok tr ∧
        Align Crop tightPlots (equalTiles 1 2) unitCanvas = .ok tr.out ∧
        tr.out = [[⟨⟨0, 0⟩, ⟨-1, 1⟩⟩, ⟨⟨-1, 0⟩, ⟨1, 1⟩⟩]] ∧
        ∃ c, getCell tr.out 0 1 = .ok c ∧ c.Min.X < unitCanvas.Min.X) ∧
    (WellFormed stickingOutPlots (equalTiles 1 1) ∧ FixedGrid stickingOutPlots ∧
      IsEqualTiling (equalTiles 1 1) unitCanvas ∧
      ∃ tr : Trace, alignTrace Crop stickingOutPlots (equalTiles 1 1) unitCanvas = .ok tr ∧
        Align Crop stickingOutPlots (equalTiles 1 1) unitCanvas = .ok tr.out ∧
        tr.out = [[⟨⟨1, 1⟩, ⟨0, 0⟩⟩]] ∧
        ∃ c, getCell tr.out 0 0 = .ok c ∧ unitCanvas.Min.X < c.Min.X ∧
          c.Max.X < unitCanvas.Max.X) := by
  have hrun1 := alignTrace_wellFormed Crop tightPlots (equalTiles 1 2) unitCanvas
    tight_wellFormed
  have hrun2 := alignTrace_wellFormed Crop stickingOutPlots (equalTiles 1 1) unitCanvas
    stickingOut_wellFormed
  refine ⟨⟨tight_wellFormed, tight_fixed, equalTiles_isEqualTiling 1 2 unitCanvas, _, hrun1,
      align_eq_out _ _ _ _ _ hrun1, tight_out, ?_⟩,
    ⟨stickingOut_wellFormed, stickingOut_fixed, equalTiles_isEqualTiling 1 1 unitCanvas, _,
      hrun2, align_eq_out _ _ _ _ _ hrun2, stickingOut_out, ?_⟩⟩
  · refine ⟨⟨⟨-1, 0⟩, ⟨1, 1⟩⟩, ?_, ?_⟩
    · show getCell (tab 1 2 (gridV Crop (plotAt tightPlots) (equalTiles 1 2) unitCanvas 1 2))
        0 1 = _
      rw [tight_out]
      rfl
    · show (-1 : ℚ) < 0
      norm_num
  · refine ⟨⟨⟨1, 1⟩, ⟨0, 0⟩⟩, ?_, ?_, ?_⟩
    · show getCell (tab 1 1 (gridV Crop (plotAt stickingOutPlots) (equalTiles 1 1) unitCanvas
        1 1)) 0 0 = _
      rw [stickingOut_out]
      rfl
    · show (0 : ℚ) < 1
      norm_num
    · show (0 : ℚ) < 1
      norm_num

theorem bind_eq_ok {β γ : Type} (x : Except Fault β) (f : β → Except Fault γ) (c : γ)
    (h : (x >>= f) = .ok c) : ∃ a, x = .ok a ∧ f a = .ok c := by
  cases x with
  | error e => cases h
  | ok a => exact ⟨a, rfl, h⟩

theorem getAt_ok {α : Type} (xs : List α) (i : Nat) (v : α) (h : getAt xs i = .ok v) :
    xs[i]? = some v := by
  unfold getAt at h
  cases hx : xs[i]? with
  | none => rw [hx] at h; cases h
  | some w =>
    rw [hx] at h
    cases h
    rfl

theorem getAt_ok_lt {α : Type} (xs : List α) (i : Nat) (v : α) (h : getAt xs i = .ok v) :
    i < xs.length := by
  have := getAt_ok xs i v h
  by_contra hn
  rw [List.getElem?_eq_none (by omega)] at this
  cases this

theorem setAt_ok {α : Type} (xs : List α) (i : Nat) (v : α) (xs' : List α)
    (h : setAt xs i v = .ok xs') : i < xs.length ∧ xs' = xs.set i v := by
  unfold setAt at h
  by_cases hi : i < xs.length
  · rw [if_pos hi] at h
    cases h
    exact ⟨hi, rfl⟩
  · rw [if_neg hi] at h
    cases h

theorem modifyAt_ok {α : Type} (xs : List α) (i : Nat) (f : α → α) (xs' : List α)
    (h : modifyAt xs i f = .ok xs') : i < xs.length ∧ xs'.length = xs.length := by
  unfold modifyAt at h
  obtain ⟨v, _, h2⟩ := bind_eq_ok _ _ _ h
  obtain ⟨hi, rfl⟩ := setAt_ok _ _ _ _ h2
  exact ⟨hi, List.length_set _ _ _⟩

theorem rowLen_of_getElem? {α : Type} (o : List (List α)) (k : Nat) (row : List α)
    (h : o[k]? = some row) : rowLen o k = row.length := by
  unfold rowLen
  rw [List.getD_eq_getElem?_getD, h]
  rfl

theorem rowLen_of_le {α : Type} (o : List (List α)) (k : Nat) (h : o.length ≤ k) :
    rowLen o k = 0 := by
  unfold rowLen
  rw [List.getD_eq_getElem?_getD, List.getElem?_eq_none h]
  rfl

theorem rowLen_set {α : Type} (o : List (List α)) (j : Nat) (r : List α) (k : Nat)
    (hj : j < o.length) :
    rowLen (o.set j r) k = if k = j then r.length else rowLen o k := by
  unfold rowLen
  rw [List.getD_eq_getElem?_getD, List.getD_eq_getElem?_getD, List.getElem?_set]
  by_cases e : j = k
  · subst e
    simp [hj]
  · have e' : ¬ k = j := fun h => e h.symm
    simp [e, e']

theorem getCell_ok {α : Type} (o : List (List α)) (j i : Nat) (c : α)
    (h : getCell o j i = .ok c) : j < o.length ∧ i < rowLen o j := by
  unfold getCell at h
  obtain ⟨row, h1, h2⟩ := bind_eq_ok _ _ _ h
  have hrow := getAt_ok o j row h1
  rw [rowLen_of_getElem? o j row hrow]
  exact ⟨getAt_ok_lt o j row h1, getAt_ok_lt row i c h2⟩

theorem setCell_ok {α : Type} (o : List (List α)) (j i : Nat) (v : α) (o' : List (List α))
    (h : setCell o j i v = .ok o') :
    j < o.length ∧ i < rowLen o j ∧ o'.length = o.length ∧ ∀ k, rowLen o' k = rowLen o k := by
  unfold setCell at h
  obtain ⟨row, h1, h2⟩ := bind_eq_ok _ _ _ h
  obtain ⟨row', h3, h4⟩ := bind_eq_ok _ _ _ h2
  obtain ⟨hi, rfl⟩ := setAt_ok _ _ _ _ h3
  obtain ⟨hj, rfl⟩ := setAt_ok _ _ _ _ h4
  have hrow := rowLen_of_getElem? o j row (getAt_ok o j row h1)
  refine ⟨hj, by rw [hrow]; exact hi, List.length_set _ _ _, ?_⟩
  intro k
  rw [rowLen_set o j _ k hj]
  by_cases e : k = j
  · subst e
    rw [if_pos rfl, List.length_set, hrow]
  · rw [if_neg e]

/-- A loop that ends well has kept every invariant its body keeps, and every
round of it has ended well from a state with the invariant. -/
theorem forUp_ok {σ : Type} (body : Nat → σ → Except Fault σ) (I : σ → Prop)
    (hI : ∀ k s s', I s → body k s = .ok s' → I s') (lo n : Nat) (s s' : σ)
    (hs : I s) (h : forUp body lo n s = .ok s') :
    I s' ∧ ∀ k, k < n → ∃ s1 s2, I s1 ∧ body (lo + k) s1 = .ok s2 := by
  induction n generalizing lo s with
  | zero =>
    cases h
    exact ⟨hs, fun k hk => absurd hk (Nat.not_lt_zero k)⟩
  | succ n ih =>
    obtain ⟨s1, h1, h2⟩ := bind_eq_ok _ _ _ (show (body lo s >>= forUp body (lo + 1) n) = _ from h)
    obtain ⟨hfin, hall⟩ := ih (lo + 1) s1 (hI lo s s1 hs h1) h2
    refine ⟨hfin, ?_⟩
    intro k hk
    cases k with
    | zero => exact ⟨s, s1, hs, h1⟩
    | succ k =>
      obtain ⟨a, b, ha, hb⟩ := hall k (by omega)
      refine ⟨a, b, ha, ?_⟩
      rw [show lo + (k + 1) = lo + 1 + k by omega]
      exact hb

theorem forDown_ok {σ : Type} (body : Nat → σ → Except Fault σ) (I : σ → Prop)
    (hI : ∀ k s s', I s → body k s = .ok s' → I s') (n : Nat) (s s' : σ)
    (hs : I s) (h : forDown body n s = .ok s') :
    I s' ∧ ∀ k, k < n → ∃ s1 s2, I s1 ∧ body k s1 = .ok s2 := by
  induction n generalizing s with
  | zero =>
    cases h
    exact ⟨hs, fun k hk => absurd hk (Nat.not_lt_zero k)⟩
  | succ n ih =>
    obtain ⟨s1, h1, h2⟩ := bind_eq_ok _ _ _ (show (body n s >>= forDown body n) = _ from h)
    obtain ⟨hfin, hall⟩ := ih s1 (hI n s s1 hs h1) h2
    refine ⟨hfin, ?_⟩
    intro k hk
    by_cases e : k = n
    · subst e
      exact ⟨s, s1, hs, h1⟩
    · exact hall k (by omega)

theorem forRange_ok {β σ : Type} (body : Nat → β → σ → Except Fault σ) (I : σ → Prop)
    (hI : ∀ k x s s', I s → body k x s = .ok s' → I s') (lo : Nat) (xs : List β) (s s' : σ)
    (hs : I s) (h : forRange body lo xs s = .ok s') :
    I s' ∧ ∀ k x, xs[k]? = some x → ∃ s1 s2, I s1 ∧ body (lo + k) x s1 = .ok s2 := by
  induction xs generalizing lo s with
  | nil =>
    cases h
    refine ⟨hs, ?_⟩
    intro k x hk
    simp at hk
  | cons y rest ih =>
    obtain ⟨s1, h1, h2⟩ :=
      bind_eq_ok _ _ _ (show (body lo y s >>= forRange body (lo + 1) rest) = _ from h)
    obtain ⟨hfin, hall⟩ := ih (lo + 1) s1 (hI lo y s s1 hs h1) h2
    refine ⟨hfin, ?_⟩
    intro k x hk
    cases k with
    | zero =>
      simp at hk
      subst hk
      exact ⟨s, s1, hs, h1⟩
    | succ k =>
      obtain ⟨a, b, ha, hb⟩ := hall k x (by simpa using hk)
      refine ⟨a, b, ha, ?_⟩
      rw [show lo + (k + 1) = lo + 1 + k by omega]
      exact hb

theorem rowLen_replicate_nil {α : Type} (n k : Nat) :
    rowLen (List.replicate n ([] : List α)) k = 0 := by
  unfold rowLen
  rw [List.getD_eq_getElem?_getD, List.getElem?_replicate]
  by_cases h : k < n
  · rw [if_pos h]
    rfl
  · rw [if_neg h]
    rfl

theorem map_length_eq_of_rowLen {α β : Type} (o : List (List α)) (q : List (List β))
    (hlen : o.length = q.length) (h : ∀ k, rowLen o k = rowLen q k) :
    o.map List.length = q.map List.length := by
  apply List.ext_getElem?
  intro k
  rw [List.getElem?_map, List.getElem?_map]
  by_cases hk : k < o.length
  · have hk' : k < q.length := by omega
    have e1 := rowLen_of_getElem? o k o[k] (List.getElem?_eq_getElem hk)
    have e2 := rowLen_of_getElem? q k q[k] (List.getElem?_eq_getElem hk')
    rw [List.getElem?_eq_getElem hk, List.getElem?_eq_getElem hk']
    show some (o[k].length) = some (q[k].length)
    rw [← e1, ← e2, h k]
  · rw [List.getElem?_eq_none (by omega), List.getElem?_eq_none (by omega)]
    rfl

theorem makeSlice_ok {α : Type} (n : Int) (z : α) (l : List α) (h : makeSlice n z = .ok l) :
    0 ≤ n ∧ l.length = n.toNat := by
  unfold makeSlice at h
  by_cases hn : n < 0
  · rw [if_pos hn] at h
    cases h
  · rw [if_neg hn] at h
    cases h
    exact ⟨by omega, List.length_replicate _ _⟩

/-- The grid of initial tiles has as many rows as the grid of plots, none of
them longer than the row of plots. -/
theorem initialTiles_shape (plots : List (List Plot)) (t : Tiles) (dc : Canvas)
    (o : List (List Canvas)) (h : initialTiles plots t dc = .ok o) :
    o.length = plots.length ∧ ∀ k, rowLen o k ≤ rowLen plots k := by
  unfold initialTiles at h
  have hkeep : ∀ (j : Nat) (k : Nat) (s s' : List (List Canvas)),
      (s.length = plots.length ∧ ∀ k, rowLen s k ≤ rowLen plots k) →
      setCell s j k (t.At dc k j) = .ok s' →
      (s'.length = plots.length ∧ ∀ k, rowLen s' k ≤ rowLen plots k) := by
    intro j k s s' hs hset
    obtain ⟨_, _, hl, hr⟩ := setCell_ok _ _ _ _ _ hset
    refine ⟨by rw [hl]; exact hs.1, ?_⟩
    intro k'
    rw [hr k']
    exact hs.2 k'
  refine (forUp_ok _ (fun s => s.length = plots.length ∧ ∀ k, rowLen s k ≤ rowLen plots k)
    ?_ 0 _ _ o ⟨List.length_replicate _ _, ?_⟩ h).1
  · intro j s s' hs hbody
    obtain ⟨row, h1, h2⟩ := bind_eq_ok _ _ _ hbody
    obtain ⟨s1, h3, h4⟩ := bind_eq_ok _ _ _ h2
    obtain ⟨hj, rfl⟩ := setAt_ok _ _ _ _ h3
    refine (forUp_ok _ (fun s => s.length = plots.length ∧ ∀ k, rowLen s k ≤ rowLen plots k)
      (hkeep j) 0 _ _ s' ⟨by rw [List.length_set]; exact hs.1, ?_⟩ h4).1
    intro k
    rw [rowLen_set s j _ k hj]
    by_cases e : k = j
    · subst e
      rw [if_pos rfl, List.length_replicate,
        rowLen_of_getElem? plots k row (getAt_ok plots k row h1)]
    · rw [if_neg e]
      exact hs.2 k
  · intro k
    rw [rowLen_replicate_nil]
    exact Nat.zero_le _

theorem spacingStep_ok (o : List (List Canvas)) (j i : Nat) (p : Plot)
    (s s' : List posNeg × List posNeg) (h : spacingStep o j i p s = .ok s') :
    i < rowLen o j ∧ i < s.1.length ∧ j < s.2.length ∧
      s'.1.length = s.1.length ∧ s'.2.length = s.2.length := by
  unfold spacingStep at h
  obtain ⟨c, h1, h2⟩ := bind_eq_ok _ _ _ h
  simp only [] at h2
  obtain ⟨x1, h3, h4⟩ := bind_eq_ok _ _ _ h2
  obtain ⟨x2, h5, h6⟩ := bind_eq_ok _ _ _ h4
  obtain ⟨y1, h7, h8⟩ := bind_eq_ok _ _ _ h6
  obtain ⟨y2, h9, h10⟩ := bind_eq_ok _ _ _ h8
  cases h10
  obtain ⟨hi, e1⟩ := modifyAt_ok _ _ _ _ h3
  obtain ⟨_, e2⟩ := modifyAt_ok _ _ _ _ h5
  obtain ⟨hj, e3⟩ := modifyAt_ok _ _ _ _ h7
  obtain ⟨_, e4⟩ := modifyAt_ok _ _ _ _ h9
  exact ⟨(getCell_ok o j i c h1).2, hi, hj, by rw [e2, e1], by rw [e4, e3]⟩

/-- When the spacing loop ends well, every cell of the grid of plots lies in the
grid of rectangles and within the tiling. -/
theorem spacing_cells (plots : List (List Plot)) (t : Tiles) (o : List (List Canvas))
    (sp : List posNeg × List posNeg) (h : spacing plots t o = .ok sp) :
    ∀ j row, plots[j]? = some row → ∀ i, i < row.length →
      i < rowLen o j ∧ i < t.Cols.toNat ∧ j < t.Rows.toNat := by
  unfold spacing at h
  obtain ⟨xs0, h1, h2⟩ := bind_eq_ok _ _ _ h
  obtain ⟨ys0, h3, h4⟩ := bind_eq_ok _ _ _ h2
  have hx := (makeSlice_ok _ _ _ h1).2
  have hy := (makeSlice_ok _ _ _ h3).2
  have hstep : ∀ (j i : Nat) (p : Plot) (s s' : List posNeg × List posNeg),
      (s.1.length = t.Cols.toNat ∧ s.2.length = t.Rows.toNat) →
      spacingStep o j i p s = .ok s' →
      (s'.1.length = t.Cols.toNat ∧ s'.2.length = t.Rows.toNat) := by
    intro j i p s s' hs hb
    obtain ⟨_, _, _, e1, e2⟩ := spacingStep_ok o j i p s s' hb
    exact ⟨by rw [e1]; exact hs.1, by rw [e2]; exact hs.2⟩
  have houter := (forRange_ok _
    (fun s => s.1.length = t.Cols.toNat ∧ s.2.length = t.Rows.toNat) ?_ 0 plots _ sp
    ⟨hx, hy⟩ h4).2
  · intro j row hrow i hi
    obtain ⟨s1, s2, hs1, hb⟩ := houter j row hrow
    have hinner := (forRange_ok _
      (fun s => s.1.length = t.Cols.toNat ∧ s.2.length = t.Rows.toNat)
      (fun i p s s' hs hb => hstep (0 + j) i p s s' hs hb) 0 row s1 s2 hs1 hb).2
    obtain ⟨s3, s4, hs3, hb'⟩ := hinner i row[i] (List.getElem?_eq_getElem hi)
    obtain ⟨e1, e2, e3, _, _⟩ := spacingStep_ok o _ _ _ s3 s4 hb'
    simp only [Nat.zero_add] at e1 e2 e3
    exact ⟨e1, by rw [← hs3.1]; exact e2, by rw [← hs3.2]; exact e3⟩
  · intro j row s s' hs hb
    exact (forRange_ok _
      (fun s => s.1.length = t.Cols.toNat ∧ s.2.length = t.Rows.toNat)
      (fun i p s s' hs hb => hstep j i p s s' hs hb) 0 row s s' hs hb).1

theorem spacing_shape (plots : List (List Plot)) (t : Tiles) (o : List (List Canvas))
    (sp : List posNeg × List posNeg) (h : spacing plots t o = .ok sp) (k : Nat) :
    rowLen plots k ≤ rowLen o k := by
  by_cases hk : k < plots.length
  · have hrow := List.getElem?_eq_getElem hk
    rw [rowLen_of_getElem? plots k _ hrow]
    by_cases h0 : plots[k].length = 0
    · omega
    · have := (spacing_cells plots t o sp h k _ hrow (plots[k].length - 1) (by omega)).1
      omega
  · rw [rowLen_of_le plots k (by omega)]
    exact Nat.zero_le _

theorem normalise_shape (crop : CropFn) (plots : List (List Plot)) (xs ys : List posNeg)
    (o o' : List (List Canvas)) (h : normalise crop plots xs ys o = .ok o') :
    o'.length = o.length ∧ ∀ k, rowLen o' k = rowLen o k := by
  unfold normalise at h
  have hstep : ∀ (j i : Nat) (p : Plot) (s s' : List (List Canvas)),
      (s.length = o.length ∧ ∀ k, rowLen s k = rowLen o k) →
      normaliseStep crop xs ys j i p s = .ok s' →
      (s'.length = o.length ∧ ∀ k, rowLen s' k = rowLen o k) := by
    intro j i p s s' hs hb
    unfold normaliseStep at hb
    obtain ⟨c, _, h2⟩ := bind_eq_ok _ _ _ hb
    simp only [] at h2
    obtain ⟨x, _, h3⟩ := bind_eq_ok _ _ _ h2
    obtain ⟨y, _, h4⟩ := bind_eq_ok _ _ _ h3
    obtain ⟨_, _, hl, hr⟩ := setCell_ok _ _ _ _ _ h4
    exact ⟨by rw [hl]; exact hs.1, fun k => by rw [hr k]; exact hs.2 k⟩
  refine (forRange_ok _ (fun s => s.length = o.length ∧ ∀ k, rowLen s k = rowLen o k)
    ?_ 0 plots o o' ⟨rfl, fun _ => rfl⟩ h).1
  intro j row s s' hs hb
  exact (forRange_ok _ (fun s => s.length = o.length ∧ ∀ k, rowLen s k = rowLen o k)
    (fun i p s s' hs hb => hstep j i p s s' hs hb) 0 row s s' hs hb).1

theorem horizontalStep_ok (crop : CropFn) (plots : List (List Plot)) (avgWidth : Length)
    (j i : Nat) (s s' : List (List Canvas) × Length)
    (h : horizontalStep crop plots avgWidth j i s = .ok s') :
    (∃ p, getCell plots j i = .ok p) ∧ s'.1.length = s.1.length ∧
      ∀ k, rowLen s'.1 k = rowLen s.1 k := by
  unfold horizontalStep at h
  obtain ⟨c, _, h2⟩ := bind_eq_ok _ _ _ h
  obtain ⟨p, hp, h3⟩ := bind_eq_ok _ _ _ h2
  simp only [] at h3
  obtain ⟨o1, h4, h5⟩ := bind_eq_ok _ _ _ h3
  cases h5
  obtain ⟨_, _, hl, hr⟩ := setCell_ok _ _ _ _ _ h4
  exact ⟨⟨p, hp⟩, hl, hr⟩

theorem verticalStep_ok (crop : CropFn) (plots : List (List Plot)) (avgHeight : Length)
    (i j : Nat) (s s' : List (List Canvas) × Length)
    (h : verticalStep crop plots avgHeight i j s = .ok s') :
    (∃ p, getCell plots j i = .ok p) ∧ s'.1.length = s.1.length ∧
      ∀ k, rowLen s'.1 k = rowLen s.1 k := by
  unfold verticalStep at h
  obtain ⟨c, _, h2⟩ := bind_eq_ok _ _ _ h
  obtain ⟨p, hp, h3⟩ := bind_eq_ok _ _ _ h2
  simp only [] at h3
  obtain ⟨o1, h4, h5⟩ := bind_eq_ok _ _ _ h3
  cases h5
  obtain ⟨_, _, hl, hr⟩ := setCell_ok _ _ _ _ _ h4
  exact ⟨⟨p, hp⟩, hl, hr⟩

/-- When the horizontal pass ends well it has kept the shape of the grid, and
every cell of the tiling holds a plot. -/
theorem horizontalPass_ok (crop : CropFn) (plots : List (List Plot)) (t : Tiles)
    (avgWidth : Length) (o o' : List (List Canvas))
    (h : horizontalPass crop plots t avgWidth o = .ok o') :
    (o'.length = o.length ∧ ∀ k, rowLen o' k = rowLen o k) ∧
      ∀ j i, j < t.Rows.toNat → i < t.Cols.toNat → ∃ p, getCell plots j i = .ok p := by
  unfold horizontalPass at h
  have hstep : ∀ (j i : Nat) (s s' : List (List Canvas) × Length),
      (s.1.length = o.length ∧ ∀ k, rowLen s.1 k = rowLen o k) →
      horizontalStep crop plots avgWidth j i s = .ok s' →
      (s'.1.length = o.length ∧ ∀ k, rowLen s'.1 k = rowLen o k) := by
    intro j i s s' hs hb
    obtain ⟨_, hl, hr⟩ := horizontalStep_ok crop plots avgWidth j i s s' hb
    exact ⟨by rw [hl]; exact hs.1, fun k => by rw [hr k]; exact hs.2 k⟩
  have houter : ∀ (j : Nat) (s s' : List (List Canvas)),
      (s.length = o.length ∧ ∀ k, rowLen s k = rowLen o k) →
      (forUp (fun i s => horizontalStep crop plots avgWidth j i s) 0 t.Cols.toNat (s, 0)
        >>= fun s => .ok s.1) = .ok s' →
      (s'.length = o.length ∧ ∀ k, rowLen s' k = rowLen o k) := by
    intro j s s' hs hb
    obtain ⟨s3, hb1, hb2⟩ := bind_eq_ok _ _ _ hb
    cases hb2
    exact (forUp_ok _
      (fun s : List (List Canvas) × Length =>
        s.1.length = o.length ∧ ∀ k, rowLen s.1 k = rowLen o k)
      (fun i s s' hs hb => hstep j i s s' hs hb) 0 _ (s, 0) s3 hs hb1).1
  obtain ⟨hfin, hall⟩ := forUp_ok _
    (fun s => s.length = o.length ∧ ∀ k, rowLen s k = rowLen o k) houter 0 _ o o'
    ⟨rfl, fun _ => rfl⟩ h
  refine ⟨hfin, ?_⟩
  intro j i hj hi
  obtain ⟨s1, s2, hs1, hb⟩ := hall j hj
  obtain ⟨s3, hb1, _⟩ := bind_eq_ok _ _ _ hb
  obtain ⟨_, hin⟩ := forUp_ok _
    (fun s : List (List Canvas) × Length =>
      s.1.length = o.length ∧ ∀ k, rowLen s.1 k = rowLen o k)
    (fun i s s' hs hb => hstep (0 + j) i s s' hs hb) 0 _ (s1, 0) s3 hs1 hb1
  obtain ⟨s4, s5, _, hb2⟩ := hin i hi
  have := (horizontalStep_ok crop plots avgWidth _ _ s4 s5 hb2).1
  simpa only [Nat.zero_add] using this

theorem verticalPass_ok (crop : CropFn) (plots : List (List Plot)) (t : Tiles)
    (avgHeight : Length) (o o' : List (List Canvas))
    (h : verticalPass crop plots t avgHeight o = .ok o') :
    o'.length = o.length ∧ ∀ k, rowLen o' k = rowLen o k := by
  unfold verticalPass at h
  have hstep : ∀ (i j : Nat) (s s' : List (List Canvas) × Length),
      (s.1.length = o.length ∧ ∀ k, rowLen s.1 k = rowLen o k) →
      verticalStep crop plots avgHeight i j s = .ok s' →
      (s'.1.length = o.length ∧ ∀ k, rowLen s'.1 k = rowLen o k) := by
    intro i j s s' hs hb
    obtain ⟨_, hl, hr⟩ := verticalStep_ok crop plots avgHeight i j s s' hb
    exact ⟨by rw [hl]; exact hs.1, fun k => by rw [hr k]; exact hs.2 k⟩
  refine (forUp_ok _ (fun s => s.length = o.length ∧ ∀ k, rowLen s k = rowLen o k)
    ?_ 0 _ o o' ⟨rfl, fun _ => rfl⟩ h).1
  intro i s s' hs hb
  obtain ⟨s3, hb1, hb2⟩ := bind_eq_ok _ _ _ hb
  cases hb2
  exact (forDown_ok _
    (fun s : List (List Canvas) × Length =>
      s.1.length = o.length ∧ ∀ k, rowLen s.1 k = rowLen o k)
    (fun j s s' hs hb => hstep i j s s' hs hb) _ (s, 0) s3 hs hb1).1

/-- What a run of `Align` that ends well says about its stages. -/
theorem align_ok_stages (crop : CropFn) (plots : List (List Plot)) (t : Tiles) (dc : Canvas)
    (out : List (List Canvas)) (h : Align crop plots t dc = .ok out) :
    ∃ tiles sp normalised avgWidth horizontal avgHeight,
      initialTiles plots t dc = .ok tiles ∧ spacing plots t tiles = .ok sp ∧
      normalise crop plots sp.1 sp.2 tiles = .ok normalised ∧
      horizontalPass crop plots t avgWidth normalised = .ok horizontal ∧
      verticalPass crop plots t avgHeight horizontal = .ok out := by
  unfold Align at h
  obtain ⟨tr, h1, h2⟩ := bind_eq_ok _ _ _ h
  cases h2
  unfold alignTrace at h1
  obtain ⟨tiles, e1, h3⟩ := bind_eq_ok _ _ _ h1
  obtain ⟨sp, e2, h4⟩ := bind_eq_ok _ _ _ h3
  obtain ⟨nm, e3, h5⟩ := bind_eq_ok _ _ _ h4
  simp only [] at h5
  obtain ⟨hz, e4, h6⟩ := bind_eq_ok _ _ _ h5
  obtain ⟨vt, e5, h7⟩ := bind_eq_ok _ _ _ h6
  cases h7
  exact ⟨tiles, sp, nm, _, hz, _, e1, e2, e3, e4, e5⟩

/-- C11. Output shape: whenever `Align` returns, for any `Crop`, tiling and
plots, the result has exactly `len(plots)` rows and row `j` of the result has
exactly `len(plots[j])` rectangles; in particular, when `len(plots) = rows` and
every row of plots has length `cols`, the result is a `rows` by `cols` grid. -/
theorem output_shape (crop : CropFn) (plots : List (List Plot)) (t : Tiles) (dc : Canvas)
    (out : List (List Canvas)) (h : Align crop plots t dc = .ok out) :
    out.length = plots.length ∧ out.map List.length = plots.map List.length ∧
      (WellFormed plots t →
        (out.length : Int) = t.Rows ∧ ∀ row ∈ out, (row.length : Int) = t.Cols) := by
  obtain ⟨tiles, sp, nm, aw, hz, ah, e1, e2, e3, e4, e5⟩ := align_ok_stages crop plots t dc out h
  obtain ⟨l1, r1⟩ := initialTiles_shape plots t dc tiles e1
  have r2 := spacing_shape plots t tiles sp e2
  obtain ⟨l3, r3⟩ := normalise_shape crop plots _ _ tiles nm e3
  obtain ⟨⟨l4, r4⟩, _⟩ := horizontalPass_ok crop plots t aw nm hz e4
  obtain ⟨l5, r5⟩ := verticalPass_ok crop plots t ah hz out e5
  have hlen : out.length = plots.length := by rw [l5, l4, l3, l1]
  have hrow : ∀ k, rowLen out k = rowLen plots k := by
    intro k
    rw [r5 k, r4 k, r3 k]
    exact Nat.le_antisymm (r1 k) (r2 k)
  have hmap := map_length_eq_of_rowLen out plots hlen hrow
  refine ⟨hlen, hmap, ?_⟩
  intro hwf
  refine ⟨by rw [hlen]; exact hwf.2.2.1, ?_⟩
  intro row hrow'
  have hmem : row.length ∈ out.map List.length := List.mem_map.mpr ⟨row, hrow', rfl⟩
  rw [hmap] at hmem
  obtain ⟨prow, hp, hpl⟩ := List.mem_map.mp hmem
  rw [← hpl]
  exact hwf.2.2.2 prow hp

theorem output_shape_witness :
    Align Crop scenarioPlots (equalTiles 1 2) unitCanvas =
        .ok (traceOf Crop (plotAt scenarioPlots) (equalTiles 1 2) unitCanvas 1 2).out ∧
      (traceOf Crop (plotAt scenarioPlots) (equalTiles 1 2) unitCanvas 1 2).out.map List.length
        = scenarioPlots.map List.length :=
  ⟨align_eq_out _ _ _ _ _
      (alignTrace_wellFormed Crop scenarioPlots (equalTiles 1 2) unitCanvas scenario_wellFormed),
    (output_shape Crop scenarioPlots (equalTiles 1 2) unitCanvas _
      (align_eq_out _ _ _ _ _
        (alignTrace_wellFormed Crop scenarioPlots (equalTiles 1 2) unitCanvas
          scenario_wellFormed))).2.1⟩

theorem noNeg_bind {β γ : Type} (x : Except Fault β) (f : β → Except Fault γ)
    (hx : x ≠ .error .negativeLen) (hf : ∀ a, f a ≠ .error .negativeLen) :
    (x >>= f) ≠ .error .negativeLen := by
  cases x with
  | error e =>
    intro h
    have he : (Except.error e : Except Fault γ) = .error .negativeLen := h
    have e' : e = Fault.negativeLen := by
      injection he
    exact hx (by rw [e'])
  | ok a => exact hf a

theorem getAt_noNeg {α : Type} (xs : List α) (i : Nat) : getAt xs i ≠ .error .negativeLen := by
  unfold getAt
  cases xs[i]? with
  | none => intro h; cases h
  | some v => intro h; cases h

theorem setAt_noNeg {α : Type} (xs : List α) (i : Nat) (v : α) :
    setAt xs i v ≠ .error .negativeLen := by
  unfold setAt
  by_cases h : i < xs.length
  · rw [if_pos h]
    intro e
    cases e
  · rw [if_neg h]
    intro e
    cases e

theorem modifyAt_noNeg {α : Type} (xs : List α) (i : Nat) (f : α → α) :
    modifyAt xs i f ≠ .error .negativeLen :=
  noNeg_bind _ _ (getAt_noNeg xs i) (fun _ => setAt_noNeg _ _ _)

theorem getCell_noNeg {α : Type} (o : List (List α)) (j i : Nat) :
    getCell o j i ≠ .error .negativeLen :=
  noNeg_bind _ _ (getAt_noNeg o j) (fun _ => getAt_noNeg _ _)

theorem setCell_noNeg {α : Type} (o : List (List α)) (j i : Nat) (v : α) :
    setCell o j i v ≠ .error .negativeLen :=
  noNeg_bind _ _ (getAt_noNeg o j)
    (fun _ => noNeg_bind _ _ (setAt_noNeg _ _ _) (fun _ => setAt_noNeg _ _ _))

theorem ok_noNeg {β : Type} (a : β) : (Except.ok a : Except Fault β) ≠ .error .negativeLen := by
  intro h
  cases h

theorem forUp_noNeg {σ : Type} (body : Nat → σ → Except Fault σ)
    (hb : ∀ k s, body k s ≠ .error .negativeLen) (lo n : Nat) (s : σ) :
    forUp body lo n s ≠ .error .negativeLen := by
  induction n generalizing lo s with
  | zero => exact ok_noNeg s
  | succ n ih => exact noNeg_bind _ _ (hb lo s) (fun a => ih (lo + 1) a)

theorem forDown_noNeg {σ : Type} (body : Nat → σ → Except Fault σ)
    (hb : ∀ k s, body k s ≠ .error .negativeLen) (n : Nat) (s : σ) :
    forDown body n s ≠ .error .negativeLen := by
  induction n generalizing s with
  | zero => exact ok_noNeg s
  | succ n ih => exact noNeg_bind _ _ (hb n s) (fun a => ih a)

theorem forRange_noNeg {β σ : Type} (body : Nat → β → σ → Except Fault σ)
    (hb : ∀ k x s, body k x s ≠ .error .negativeLen) (lo : Nat) (xs : List β) (s : σ) :
    forRange body lo xs s ≠ .error .negativeLen := by
  induction xs generalizing lo s with
  | nil => exact ok_noNeg s
  | cons x rest ih => exact noNeg_bind _ _ (hb lo x s) (fun a => ih (lo + 1) a)

theorem makeSlice_noNeg {α : Type} (n : Int) (z : α) (h : 0 ≤ n) :
    makeSlice n z ≠ .error .negativeLen := by
  unfold makeSlice
  rw [if_neg (by omega)]
  exact ok_noNeg _

/-- With a tiling of non-negative `Rows` and `Cols`, the only way `Align` can
fail is an index out of range. -/
theorem align_noNeg (crop : CropFn) (plots : List (List Plot)) (t : Tiles) (dc : Canvas)
    (hR : 0 ≤ t.Rows) (hC : 0 ≤ t.Cols) : Align crop plots t dc ≠ .error .negativeLen := by
  unfold Align
  refine noNeg_bind _ _ ?_ (fun _ => ok_noNeg _)
  unfold alignTrace
  refine noNeg_bind _ _ ?_ (fun tiles => noNeg_bind _ _ ?_ (fun sp => noNeg_bind _ _ ?_
    (fun nm => noNeg_bind _ _ ?_ (fun hz => noNeg_bind _ _ ?_ (fun _ => ok_noNeg _)))))
  · unfold initialTiles
    apply forUp_noNeg
    intro j o
    exact noNeg_bind _ _ (getAt_noNeg _ _) (fun _ => noNeg_bind _ _ (setAt_noNeg _ _ _)
      (fun _ => forUp_noNeg _ (fun _ _ => setCell_noNeg _ _ _ _) _ _ _))
  · unfold spacing
    refine noNeg_bind _ _ (makeSlice_noNeg _ _ hC) (fun _ =>
      noNeg_bind _ _ (makeSlice_noNeg _ _ hR) (fun _ => ?_))
    apply forRange_noNeg
    intro j row s
    apply forRange_noNeg
    intro i p s
    unfold spacingStep
    exact noNeg_bind _ _ (getCell_noNeg _ _ _) (fun _ =>
      noNeg_bind _ _ (modifyAt_noNeg _ _ _) (fun _ =>
      noNeg_bind _ _ (modifyAt_noNeg _ _ _) (fun _ =>
      noNeg_bind _ _ (modifyAt_noNeg _ _ _) (fun _ =>
      noNeg_bind _ _ (modifyAt_noNeg _ _ _) (fun _ => ok_noNeg _)))))
  · unfold normalise
    apply forRange_noNeg
    intro j row s
    apply forRange_noNeg
    intro i p s
    unfold normaliseStep
    exact noNeg_bind _ _ (getCell_noNeg _ _ _) (fun _ =>
      noNeg_bind _ _ (getAt_noNeg _ _) (fun _ =>
      noNeg_bind _ _ (getAt_noNeg _ _) (fun _ => setCell_noNeg _ _ _ _)))
  · unfold horizontalPass
    apply forUp_noNeg
    intro j o
    refine noNeg_bind _ _ ?_ (fun _ => ok_noNeg _)
    apply forUp_noNeg
    intro i s
    unfold horizontalStep
    exact noNeg_bind _ _ (getCell_noNeg _ _ _) (fun _ =>
      noNeg_bind _ _ (getCell_noNeg _ _ _) (fun _ =>
      noNeg_bind _ _ (setCell_noNeg _ _ _ _) (fun _ => ok_noNeg _)))
  · unfold verticalPass
    apply forUp_noNeg
    intro i o
    refine noNeg_bind _ _ ?_ (fun _ => ok_noNeg _)
    apply forDown_noNeg
    intro j s
    unfold verticalStep
    exact noNeg_bind _ _ (getCell_noNeg _ _ _) (fun _ =>
      noNeg_bind _ _ (getCell_noNeg _ _ _) (fun _ =>
      noNeg_bind _ _ (setCell_noNeg _ _ _ _) (fun _ => ok_noNeg _)))

/-- C12, as the code has it. Shape mismatch surfaces as an index failure,
except for empty surplus rows: for every input with `rows >= 1` and
`cols >= 1` such that `len(plots) < rows`, or `len(plots[j]) != cols` for some
row `j < rows`, or `plots[j]` is not empty for some row `j >= rows`, `Align`
fails with an out-of-range index error instead of returning a result. -/
theorem shape_mismatch_fails (crop : CropFn) (plots : List (List Plot)) (t : Tiles)
    (dc : Canvas) (hR : 1 ≤ t.Rows) (hC : 1 ≤ t.Cols)
    (hbad : (plots.length : Int) < t.Rows ∨
      (∃ (j : Nat) (row : List Plot), plots[j]? = some row ∧ (j : Int) < t.Rows ∧
        (row.length : Int) ≠ t.Cols) ∨
      (∃ (j : Nat) (row : List Plot), plots[j]? = some row ∧ t.Rows ≤ (j : Int) ∧ row ≠ [])) :
    Align crop plots t dc = .error .indexOutOfRange := by
  cases hrun : Align crop plots t dc with
  | error e =>
    cases e with
    | indexOutOfRange => rfl
    | negativeLen => exact absurd hrun (align_noNeg crop plots t dc (by omega) (by omega))
  | ok out =>
    exfalso
    obtain ⟨tiles, sp, nm, aw, hz, ah, _, e2, _, e4, _⟩ :=
      align_ok_stages crop plots t dc out hrun
    have hcells := spacing_cells plots t tiles sp e2
    have hall := (horizontalPass_ok crop plots t aw nm hz e4).2
    rcases hbad with h1 | ⟨j, row, hrow, hj, hne⟩ | ⟨j, row, hrow, hj, hne⟩
    · obtain ⟨p, hp⟩ := hall plots.length 0 (by omega) (by omega)
      have := (getCell_ok plots _ _ p hp).1
      omega
    · by_cases hlt : (row.length : Int) < t.Cols
      · obtain ⟨p, hp⟩ := hall j row.length (by omega) (by omega)
        have := (getCell_ok plots _ _ p hp).2
        rw [rowLen_of_getElem? plots j row hrow] at this
        omega
      · have := (hcells j row hrow t.Cols.toNat (by omega)).2.1
        omega
    · have hpos : 0 < row.length := by
        cases row with
        | nil => exact absurd rfl hne
        | cons x xs => exact Nat.succ_pos _
      have := (hcells j row hrow 0 hpos).2.2
      omega

theorem shape_mismatch_fails_witness :
    (1 : Int) ≤ (equalTiles 2 1).Rows ∧ (1 : Int) ≤ (equalTiles 2 1).Cols ∧
    (singlePlots.length : Int) < (equalTiles 2 1).Rows ∧
    Align Crop singlePlots (equalTiles 2 1) unitCanvas = .error .indexOutOfRange :=
  ⟨by decide, by decide, by decide,
    shape_mismatch_fails Crop singlePlots (equalTiles 2 1) unitCanvas (by decide) (by decide)
      (Or.inl (by decide))⟩

/-- C12, as stated, fails: with one row and one column in the tiling and two
rows of plots, the second one empty, `len(plots) = 2` is not `rows = 1`, yet
`Align` returns a grid, the tile of the one plot and an empty second row. -/
theorem shape_mismatch_counterexample :
    (1 : Int) ≤ (equalTiles 1 1).Rows ∧ (1 : Int) ≤ (equalTiles 1 1).Cols ∧
    (raggedPlots.length : Int) ≠ (equalTiles 1 1).Rows ∧
    Align Crop raggedPlots (equalTiles 1 1) unitCanvas = .ok [[⟨⟨0, 0⟩, ⟨1, 1⟩⟩], []] := by
  refine ⟨by decide, by decide, by decide, ?_⟩
  simp [Align, alignTrace, initialTiles, spacing, spacingStep, normalise, normaliseStep,
    horizontalPass, horizontalStep, verticalPass, verticalStep, totalSpace, forUp, forDown,
    forRange, getAt, setAt, modifyAt, getCell, setCell, makeSlice, raggedPlots, equalTiles,
    equalAt, unitCanvas, fixedMargin, Crop, zeroCanvas, bind, Except.bind, pure, Except.pure]

theorem horizontalPass_eq_rows (crop : CropFn) (plots : List (List Plot)) (t : Tiles)
    (avgWidth : Length) (o : List (List Canvas)) :
    horizontalPass crop plots t avgWidth o =
      horizontalRows crop plots t avgWidth t.Rows.toNat o := rfl

theorem verticalPass_eq_columns (crop : CropFn) (plots : List (List Plot)) (t : Tiles)
    (avgHeight : Length) (o : List (List Canvas)) :
    verticalPass crop plots t avgHeight o =
      verticalColumns crop plots t avgHeight t.Cols.toNat o := rfl

theorem cellAt_of_getCell (o : List (List Canvas)) (j i : Nat) (c : Canvas)
    (h : getCell o j i = .ok c) : cellAt o j i = c := by
  unfold getCell at h
  obtain ⟨row, h1, h2⟩ := bind_eq_ok _ _ _ h
  have e1 : o.getD j [] = row := by
    rw [List.getD_eq_getElem?_getD, getAt_ok o j row h1]
    rfl
  have e2 : row.getD i zeroCanvas = c := by
    rw [List.getD_eq_getElem?_getD, getAt_ok row i c h2]
    rfl
  unfold cellAt
  rw [e1, e2]

theorem cellAt_tab (R C : Nat) (f : Nat → Nat → Canvas) (j i : Nat) (hj : j < R) (hi : i < C) :
    cellAt (tab R C f) j i = f j i :=
  cellAt_of_getCell _ j i _ (getCell_tab R C f j i hj hi)

theorem horizontalRow_tab (crop : CropFn) (R C : Nat) (P : Nat → Nat → Plot)
    (N : Nat → Nat → Canvas) (t : Tiles) (avgWidth : Length) (hC : t.Cols = C) (j : Nat)
    (hj : j < R) :
    horizontalRow crop (tab R C P) t avgWidth j
        (tab R C (prog j 0 (horCell crop avgWidth P N) N)) =
      .ok (tab R C (prog j C (horCell crop avgWidth P N) N), moveH avgWidth P N j C) := by
  unfold horizontalRow
  rw [hC, Int.toNat_natCast]
  have inner := forUp_seq (fun i s => horizontalStep crop (tab R C P) avgWidth j i s)
    (fun i => (tab R C (prog j i (horCell crop avgWidth P N) N), moveH avgWidth P N j i))
    0 C ?_
  · have e0 : moveH avgWidth P N j 0 = 0 := by simp [moveH]
    rw [e0] at inner
    exact inner
  · intro i hi
    simp only [Nat.zero_add]
    unfold horizontalStep
    simp only []
    rw [getCell_tab R C _ j i hj hi, ok_bind, getCell_tab R C P j i hj hi, ok_bind,
      setCell_tab R C _ j i _ hj hi, ok_bind]
    have e : prog j i (horCell crop avgWidth P N) N j i = N j i := by
      simp [prog]
    rw [e]
    congr 1
    apply Prod.ext
    · apply tab_congr
      intro j' i' _ _
      rw [← upd2_prog]
      rfl
    · show moveH avgWidth P N j i + (avgWidth - dataWidth (P j i) (N j i)) = _
      unfold moveH
      rw [Finset.sum_range_succ]

theorem horizontalRows_tab (crop : CropFn) (R C : Nat) (P : Nat → Nat → Plot)
    (N : Nat → Nat → Canvas) (t : Tiles) (avgWidth : Length) (hC : t.Cols = C) (n : Nat)
    (hn : n ≤ R) :
    horizontalRows crop (tab R C P) t avgWidth n (tab R C N) =
      .ok (tab R C (prog n 0 (horCell crop avgWidth P N) N)) := by
  unfold horizontalRows
  have key := forUp_seq
    (fun j o => horizontalRow crop (tab R C P) t avgWidth j o >>= fun s => .ok s.1)
    (fun j => tab R C (prog j 0 (horCell crop avgWidth P N) N)) 0 n ?_
  · rw [prog_start] at key
    exact key
  · intro j hj
    simp only [Nat.zero_add]
    rw [horizontalRow_tab crop R C P N t avgWidth hC j (by omega), ok_bind, prog_row]

theorem verticalColumn_tab (crop : CropFn) (R C : Nat) (P : Nat → Nat → Plot)
    (H : Nat → Nat → Canvas) (t : Tiles) (avgHeight : Length) (hR : t.Rows = R) (i : Nat)
    (hi : i < C) :
    verticalColumn crop (tab R C P) t avgHeight i
        (tab R C (progV i R (verCell crop avgHeight P H R) H)) =
      .ok (tab R C (progV i 0 (verCell crop avgHeight P H R) H),
        ∑ k in Finset.Ico 0 R, (avgHeight - dataHeight (P k i) (H k i))) := by
  unfold verticalColumn
  rw [hR, Int.toNat_natCast]
  have inner := forDown_seq (fun j s => verticalStep crop (tab R C P) avgHeight i j s)
    (fun k => (tab R C (progV i k (verCell crop avgHeight P H R) H),
      ∑ k' in Finset.Ico k R, (avgHeight - dataHeight (P k' i) (H k' i))))
    R ?_
  · simp only [Finset.Ico_self, Finset.sum_empty] at inner
    exact inner
  · intro k hk
    unfold verticalStep
    simp only []
    rw [getCell_tab R C _ k i hk hi, ok_bind, getCell_tab R C P k i hk hi, ok_bind,
      setCell_tab R C _ k i _ hk hi, ok_bind]
    have e : progV i (k + 1) (verCell crop avgHeight P H R) H k i = H k i := by
      simp [progV]
    rw [e]
    congr 1
    apply Prod.ext
    · apply tab_congr
      intro j' i' _ _
      rw [← upd2_progV]
      rfl
    · show _ + (avgHeight - dataHeight (P k i) (H k i)) = _
      rw [Finset.sum_eq_sum_Ico_succ_bot hk, add_comm]

theorem verticalColumns_tab (crop : CropFn) (R C : Nat) (P : Nat → Nat → Plot)
    (H : Nat → Nat → Canvas) (t : Tiles) (avgHeight : Length) (hR : t.Rows = R) (n : Nat)
    (hn : n ≤ C) :
    verticalColumns crop (tab R C P) t avgHeight n (tab R C H) =
      .ok (tab R C (progV n R (verCell crop avgHeight P H R) H)) := by
  unfold verticalColumns
  have key := forUp_seq
    (fun i o => verticalColumn crop (tab R C P) t avgHeight i o >>= fun s => .ok s.1)
    (fun i => tab R C (progV i R (verCell crop avgHeight P H R) H)) 0 n ?_
  · rw [progV_start] at key
    exact key
  · intro i hi
    simp only [Nat.zero_add]
    rw [verticalColumn_tab crop R C P H t avgHeight hR i (by omega), ok_bind, progV_col]

/-- The running horizontal shift of a whole row is zero when the tile widths of
the row sum to the canvas width. -/
theorem shiftH_total (P : Nat → Nat → Plot) (t : Tiles) (dc : Canvas) (R C j : Nat)
    (hC : (C : Int) = t.Cols) (hpos : 0 < C)
    (hW : ∑ i in Finset.range C, ((tileOf t dc j i).Max.X - (tileOf t dc j i).Min.X)
      = dc.Max.X - dc.Min.X) :
    shiftH P t dc R C j C = 0 := by
  have htot := colShare_total P t dc R C hC hpos
  unfold shiftH
  have e : ∀ k ∈ Finset.range C, (avgW P t dc R C -
      ((tileOf t dc j k).Max.X - (tileOf t dc j k).Min.X
        - (xSp P (tileOf t dc) R k).n - (xSp P (tileOf t dc) R k).p)) =
      colShare P t dc R C k - ((tileOf t dc j k).Max.X - (tileOf t dc j k).Min.X) := by
    intro k _
    unfold colShare
    ring
  rw [Finset.sum_congr rfl e, Finset.sum_sub_distrib, htot, hW, sub_self]

/-- The running vertical shift of a whole column is zero when the tile heights
of the column sum to the canvas height. -/
theorem shiftV_total (P : Nat → Nat → Plot) (t : Tiles) (dc : Canvas) (R C i : Nat)
    (hR : (R : Int) = t.Rows) (hpos : 0 < R)
    (hH : ∑ j in Finset.range R, ((tileOf t dc j i).Max.Y - (tileOf t dc j i).Min.Y)
      = dc.Max.Y - dc.Min.Y) :
    shiftV P t dc R C 0 i = 0 := by
  have htot := rowShare_total P t dc R C hR hpos
  unfold shiftV
  rw [← Finset.range_eq_Ico]
  have e : ∀ k ∈ Finset.range R, (avgH P t dc R C -
      ((tileOf t dc k i).Max.Y - (tileOf t dc k i).Min.Y
        - (ySp P (tileOf t dc) C k).n - (ySp P (tileOf t dc) C k).p)) =
      rowShare P t dc R C k - ((tileOf t dc k i).Max.Y - (tileOf t dc k i).Min.Y) := by
    intro k _
    unfold rowShare
    ring
  rw [Finset.sum_congr rfl e, Finset.sum_sub_distrib, htot, hH, sub_self]

theorem getCell_horizontal (crop : CropFn) (plots : List (List Plot)) (t : Tiles) (dc : Canvas)
    (j i : Nat) (hj : (j : Int) < t.Rows) (hi : (i : Int) < t.Cols) :
    getCell (traceOf crop (plotAt plots) t dc t.Rows.toNat t.Cols.toNat).horizontal j i =
      .ok (gridH crop (plotAt plots) t dc t.Rows.toNat t.Cols.toNat j i) :=
  getCell_tab _ _ _ j i (by omega) (by omega)

/-- C13. The running shift of a complete line is zero: for a well-formed grid
of fixed-margin plots whose tile widths sum to the canvas width along every row
and whose tile heights sum to the canvas height down every column (additive
`Crop`, exact arithmetic), the inner loop of the horizontal pass ends, for every
row `j`, with `moveHorizontal`, the sum over `i` of `avgWidth` minus the width
of the normalised data canvas of cell `(j, i)`, equal to 0, so
`out[j][0].Min.X` and `out[j][cols-1].Max.X` are as the normalisation loop set
them; and the inner loop of the vertical pass ends, for every column `i`, with
`moveVertical` equal to 0, so `out[rows-1][i].Min.Y` and `out[0][i].Max.Y` are
left as they were. -/
theorem running_shift_zero (plots : List (List Plot)) (t : Tiles) (dc : Canvas)
    (hwf : WellFormed plots t) (hfm : FixedGrid plots)
    (hW : ∀ j : Nat, (j : Int) < t.Rows →
      ∑ i in Finset.range t.Cols.toNat, ((t.At dc i j).Max.X - (t.At dc i j).Min.X)
        = dc.Max.X - dc.Min.X)
    (hH : ∀ i : Nat, (i : Int) < t.Cols →
      ∑ j in Finset.range t.Rows.toNat, ((t.At dc i j).Max.Y - (t.At dc i j).Min.Y)
        = dc.Max.Y - dc.Min.Y) :
    ∃ tr : Trace, alignTrace Crop plots t dc = .ok tr ∧
      (∀ j : Nat, (j : Int) < t.Rows →
        ∃ o s, horizontalRows Crop plots t tr.avgWidth j tr.normalised = .ok o ∧
          horizontalRow Crop plots t tr.avgWidth j o = .ok s ∧
          s.2 = ∑ i in Finset.range t.Cols.toNat,
            (tr.avgWidth - dataWidth (plotAt plots j i) (cellAt tr.normalised j i)) ∧
          s.2 = 0 ∧
          ∃ c n c' n', getCell tr.out j 0 = .ok c ∧ getCell tr.normalised j 0 = .ok n ∧
            c.Min.X = n.Min.X ∧
            getCell tr.out j (t.Cols.toNat - 1) = .ok c' ∧
            getCell tr.normalised j (t.Cols.toNat - 1) = .ok n' ∧ c'.Max.X = n'.Max.X) ∧
      (∀ i : Nat, (i : Int) < t.Cols →
        ∃ o s, verticalColumns Crop plots t tr.avgHeight i tr.horizontal = .ok o ∧
          verticalColumn Crop plots t tr.avgHeight i o = .ok s ∧
          s.2 = ∑ j in Finset.range t.Rows.toNat,
            (tr.avgHeight - dataHeight (plotAt plots j i) (cellAt tr.horizontal j i)) ∧
          s.2 = 0 ∧
          ∃ c h c' h', getCell tr.out (t.Rows.toNat - 1) i = .ok c ∧
            getCell tr.horizontal (t.Rows.toNat - 1) i = .ok h ∧ c.Min.Y = h.Min.Y ∧
            getCell tr.out 0 i = .ok c' ∧ getCell tr.horizontal 0 i = .ok h' ∧
            c'.Max.Y = h'.Max.Y) := by
  have hrun := alignTrace_wellFormed Crop plots t dc hwf
  have hP := plotAt_fixed plots hfm
  have hR : ((t.Rows.toNat : Nat) : Int) = t.Rows :=
    Int.toNat_of_nonneg (by have := hwf.1; omega)
  have hC : ((t.Cols.toNat : Nat) : Int) = t.Cols :=
    Int.toNat_of_nonneg (by have := hwf.2.1; omega)
  have hRpos : 0 < t.Rows.toNat := by have := hwf.1; omega
  have hCpos : 0 < t.Cols.toNat := by have := hwf.2.1; omega
  refine ⟨_, hrun, ?_, ?_⟩
  · intro j hj
    have hjR : j < t.Rows.toNat := by omega
    have e1 := horizontalRows_tab Crop t.Rows.toNat t.Cols.toNat (plotAt plots)
      (gridN Crop (plotAt plots) t dc t.Rows.toNat t.Cols.toNat) t
      (avgW (plotAt plots) t dc t.Rows.toNat t.Cols.toNat) hC.symm j (by omega)
    have e2 := horizontalRow_tab Crop t.Rows.toNat t.Cols.toNat (plotAt plots)
      (gridN Crop (plotAt plots) t dc t.Rows.toNat t.Cols.toNat) t
      (avgW (plotAt plots) t dc t.Rows.toNat t.Cols.toNat) hC.symm j hjR
    rw [← wellFormed_tab plots t hwf] at e1 e2
    have hzero : moveH (avgW (plotAt plots) t dc t.Rows.toNat t.Cols.toNat) (plotAt plots)
        (gridN Crop (plotAt plots) t dc t.Rows.toNat t.Cols.toNat) j t.Cols.toNat = 0 := by
      rw [moveH_fixed _ t dc _ _ j _ hP]
      exact shiftH_total _ t dc _ _ j hC hCpos (hW j hj)
    have hs0 : shiftH (plotAt plots) t dc t.Rows.toNat t.Cols.toNat j 0 = 0 := by
      simp [shiftH]
    have hsC : shiftH (plotAt plots) t dc t.Rows.toNat t.Cols.toNat j
        (t.Cols.toNat - 1 + 1) = 0 := by
      rw [show t.Cols.toNat - 1 + 1 = t.Cols.toNat by omega]
      exact shiftH_total _ t dc _ _ j hC hCpos (hW j hj)
    refine ⟨_, _, e1, e2, ?_, hzero, _, _, _, _,
      getCell_out Crop plots t dc j 0 hj (by omega),
      getCell_normalised Crop plots t dc j 0 hj (by omega), ?_,
      getCell_out Crop plots t dc j (t.Cols.toNat - 1) hj (by omega),
      getCell_normalised Crop plots t dc j (t.Cols.toNat - 1) hj (by omega), ?_⟩
    · show moveH _ _ _ j _ = _
      unfold moveH
      apply Finset.sum_congr rfl
      intro i hi
      have hi' := Finset.mem_range.mp hi
      have : cellAt (traceOf Crop (plotAt plots) t dc t.Rows.toNat t.Cols.toNat).normalised j i
          = gridN Crop (plotAt plots) t dc t.Rows.toNat t.Cols.toNat j i :=
        cellAt_tab _ _ _ j i hjR hi'
      rw [this]
      rfl
    · rw [gridV_fixed _ t dc _ _ j 0 hP hjR, gridN_fixed, hs0]
      simp
    · rw [gridV_fixed _ t dc _ _ j (t.Cols.toNat - 1) hP hjR, gridN_fixed, hsC]
      simp
  · intro i hi
    have hiC : i < t.Cols.toNat := by omega
    have e1 := verticalColumns_tab Crop t.Rows.toNat t.Cols.toNat (plotAt plots)
      (gridH Crop (plotAt plots) t dc t.Rows.toNat t.Cols.toNat) t
      (avgH (plotAt plots) t dc t.Rows.toNat t.Cols.toNat) hR.symm i (by omega)
    have e2 := verticalColumn_tab Crop t.Rows.toNat t.Cols.toNat (plotAt plots)
      (gridH Crop (plotAt plots) t dc t.Rows.toNat t.Cols.toNat) t
      (avgH (plotAt plots) t dc t.Rows.toNat t.Cols.toNat) hR.symm i hiC
    rw [← wellFormed_tab plots t hwf] at e1 e2
    have hsum : ∑ k in Finset.Ico 0 t.Rows.toNat,
        (avgH (plotAt plots) t dc t.Rows.toNat t.Cols.toNat
          - dataHeight (plotAt plots k i)
              (gridH Crop (plotAt plots) t dc t.Rows.toNat t.Cols.toNat k i))
        = shiftV (plotAt plots) t dc t.Rows.toNat t.Cols.toNat 0 i := by
      unfold shiftV
      apply Finset.sum_congr rfl
      intro k _
      rw [dataHeight_gridH _ t dc _ _ k i hP]
    have hzero := shiftV_total (plotAt plots) t dc t.Rows.toNat t.Cols.toNat i hR hRpos
      (hH i hi)
    have hsR : shiftV (plotAt plots) t dc t.Rows.toNat t.Cols.toNat
        (t.Rows.toNat - 1 + 1) i = 0 := by
      rw [show t.Rows.toNat - 1 + 1 = t.Rows.toNat by omega]
      simp [shiftV]
    refine ⟨_, _, e1, e2, ?_, by rw [hsum]; exact hzero, _, _, _, _,
      getCell_out Crop plots t dc (t.Rows.toNat - 1) i (by omega) hi,
      getCell_horizontal Crop plots t dc (t.Rows.toNat - 1) i (by omega) hi, ?_,
      getCell_out Crop plots t dc 0 i (by omega) hi,
      getCell_horizontal Crop plots t dc 0 i (by omega) hi, ?_⟩
    · rw [← Finset.range_eq_Ico]
      show ∑ k in Finset.range t.Rows.toNat,
        (avgH (plotAt plots) t dc t.Rows.toNat t.Cols.toNat - dataHeight (plotAt plots k i)
          (gridH Crop (plotAt plots) t dc t.Rows.toNat t.Cols.toNat k i)) = _
      apply Finset.sum_congr rfl
      intro k hk
      have hk' := Finset.mem_range.mp hk
      have : cellAt (traceOf Crop (plotAt plots) t dc t.Rows.toNat t.Cols.toNat).horizontal k i
          = gridH Crop (plotAt plots) t dc t.Rows.toNat t.Cols.toNat k i :=
        cellAt_tab _ _ _ k i hk' hiC
      rw [this]
      rfl
    · rw [gridV_fixed _ t dc _ _ (t.Rows.toNat - 1) i hP (by omega),
        gridH_fixed _ t dc _ _ (t.Rows.toNat - 1) i hP, hsR]
      simp
    · rw [gridV_fixed _ t dc _ _ 0 i hP hRpos, gridH_fixed _ t dc _ _ 0 i hP, hzero]
      simp

theorem running_shift_zero_witness :
    WellFormed scenarioPlots (equalTiles 1 2) ∧ FixedGrid scenarioPlots ∧
    ∃ tr : Trace, alignTrace Crop scenarioPlots (equalTiles 1 2) unitCanvas = .ok tr ∧
      ∀ j : Nat, (j : Int) < 1 →
        ∃ o s, horizontalRows Crop scenarioPlots (equalTiles 1 2) tr.avgWidth j tr.normalised
            = .ok o ∧
          horizontalRow Crop scenarioPlots (equalTiles 1 2) tr.avgWidth j o = .ok s ∧
          s.2 = 0 := by
  obtain ⟨tr, h1, h2, _⟩ :=
    running_shift_zero scenarioPlots (equalTiles 1 2) unitCanvas scenario_wellFormed
      scenario_fixed
      (by
        intro j _
        show ∑ i in Finset.range 2, _ = _
        simp only [Finset.sum_range_succ, Finset.sum_range_zero, equalTiles, equalAt,
          unitCanvas]
        norm_num)
      (by
        intro i _
        show ∑ j in Finset.range 1, _ = _
        simp only [Finset.sum_range_succ, Finset.sum_range_zero, equalTiles, equalAt,
          unitCanvas]
        norm_num)
  refine ⟨scenario_wellFormed, scenario_fixed, tr, h1, ?_⟩
  intro j hj
  obtain ⟨o, s, e1, e2, _, e4, _⟩ := h2 j hj
  exact ⟨o, s, e1, e2, e4⟩

theorem runMax_zero_or (f : Nat → ℚ) (n : Nat) :
    runMax f n = 0 ∨ ∃ k, k < n ∧ f k = runMax f n := by
  induction n with
  | zero => exact Or.inl rfl
  | succ n ih =>
    by_cases hle : runMax f n ≤ f n
    · refine Or.inr ⟨n, by omega, ?_⟩
      show f n = max (f n) (runMax f n)
      rw [max_eq_left hle]
    · have e : runMax f (n + 1) = runMax f n := by
        show max (f n) (runMax f n) = runMax f n
        exact max_eq_right (le_of_lt (lt_of_not_le hle))
      rw [e]
      rcases ih with h0 | ⟨k, hk, hk'⟩
      · exact Or.inl h0
      · exact Or.inr ⟨k, by omega, hk'⟩

/-- C14. Spacing between neighbouring data canvases: for a well-formed grid of
fixed-margin plots on an equal tiling (additive `Crop`, exact arithmetic), in
the grid `Align` returns the horizontal gap
`DataCanvas(out[j][i+1]).Min.X - DataCanvas(out[j][i]).Max.X` is
`xSpacing[i].p + xSpacing[i+1].n` for every row `j` and every `i < cols - 1`,
and the vertical gap `DataCanvas(out[j][i]).Min.Y - DataCanvas(out[j+1][i]).Max.Y`
is `ySpacing[j+1].p + ySpacing[j].n` for every column `i` and every row
`j + 1 >= 1`. -/
theorem data_canvas_spacing (plots : List (List Plot)) (t : Tiles) (dc : Canvas)
    (hwf : WellFormed plots t) (hfm : FixedGrid plots) (heq : IsEqualTiling t dc) :
    ∃ tr : Trace, alignTrace Crop plots t dc = .ok tr ∧ Align Crop plots t dc = .ok tr.out ∧
      (∀ j i : Nat, (j : Int) < t.Rows → (i : Int) + 1 < t.Cols →
        ∃ d d' xs xs', dataOf plots tr.out j i = .ok d ∧
          dataOf plots tr.out j (i + 1) = .ok d' ∧
          getAt tr.xSpacing i = .ok xs ∧ getAt tr.xSpacing (i + 1) = .ok xs' ∧
          d'.Min.X - d.Max.X = xs.p + xs'.n) ∧
      (∀ j i : Nat, (j : Int) + 1 < t.Rows → (i : Int) < t.Cols →
        ∃ d d' ys ys', dataOf plots tr.out (j + 1) i = .ok d ∧
          dataOf plots tr.out j i = .ok d' ∧
          getAt tr.ySpacing (j + 1) = .ok ys ∧ getAt tr.ySpacing j = .ok ys' ∧
          d'.Min.Y - d.Max.Y = ys.p + ys'.n) := by
  have hrun := alignTrace_wellFormed Crop plots t dc hwf
  have hP := plotAt_fixed plots hfm
  refine ⟨_, hrun, align_eq_out _ _ _ _ _ hrun, ?_, ?_⟩
  · intro j i hj hi
    have hi1 : ((i + 1 : Nat) : Int) < t.Cols := by push_cast; omega
    have hi0 : (i : Int) < t.Cols := by omega
    refine ⟨_, _, _, _, dataOf_tab plots t hwf _ j i hj hi0,
      dataOf_tab plots t hwf _ j (i + 1) hj hi1,
      getAt_xSpacing Crop plots t dc i hi0, getAt_xSpacing Crop plots t dc (i + 1) hi1, ?_⟩
    rw [data_gridV_fixed _ t dc _ _ j i hP (by omega),
      data_gridV_fixed _ t dc _ _ j (i + 1) hP (by omega)]
    simp only []
    rw [tile_abut_X t dc heq j i hj hi]
    ring
  · intro j i hj hi
    have hj1 : ((j + 1 : Nat) : Int) < t.Rows := by push_cast; omega
    have hj0 : (j : Int) < t.Rows := by omega
    refine ⟨_, _, _, _, dataOf_tab plots t hwf _ (j + 1) i hj1 hi,
      dataOf_tab plots t hwf _ j i hj0 hi,
      getAt_ySpacing Crop plots t dc (j + 1) hj1, getAt_ySpacing Crop plots t dc j hj0, ?_⟩
    rw [data_gridV_fixed _ t dc _ _ (j + 1) i hP (by omega),
      data_gridV_fixed _ t dc _ _ j i hP (by omega)]
    simp only []
    rw [tile_abut_Y t dc heq j i hj hi]
    ring

theorem data_canvas_spacing_witness :
    WellFormed gapPlots (equalTiles 2 2) ∧ FixedGrid gapPlots ∧
    IsEqualTiling (equalTiles 2 2) unitCanvas ∧
    ∃ tr : Trace, Align Crop gapPlots (equalTiles 2 2) unitCanvas = .ok tr.out ∧
      ∀ j i : Nat, (j : Int) < 2 → (i : Int) + 1 < 2 →
        ∃ d d' xs xs', dataOf gapPlots tr.out j i = .ok d ∧
          dataOf gapPlots tr.out j (i + 1) = .ok d' ∧
          getAt tr.xSpacing i = .ok xs ∧ getAt tr.xSpacing (i + 1) = .ok xs' ∧
          d'.Min.X - d.Max.X = xs.p + xs'.n := by
  obtain ⟨tr, _, h2, h3, _⟩ :=
    data_canvas_spacing gapPlots (equalTiles 2 2) unitCanvas gap_wellFormed gap_fixed
      (equalTiles_isEqualTiling 2 2 unitCanvas)
  exact ⟨gap_wellFormed, gap_fixed, equalTiles_isEqualTiling 2 2 unitCanvas, tr, h2, h3⟩

/-- Spacings are clamped at zero, in exact arithmetic: for every well-formed
grid and every `DataCanvas` (and every `Crop`), each of `xSpacing[i].n`, `xSpacing[i].p`,
`ySpacing[j].n` and `ySpacing[j].p` is the larger of 0 and the largest
corresponding margin over the cells of that column or row; so it is not
negative, it is at least the margin of every cell of its line, and it is either
0 or the margin of some cell of its line. -/
theorem spacings_clamped_at_zero (crop : CropFn) (plots : List (List Plot)) (t : Tiles)
    (dc : Canvas) (hwf : WellFormed plots t) :
    ∃ tr : Trace, alignTrace crop plots t dc = .ok tr ∧
      (∀ i : Nat, (i : Int) < t.Cols → ∃ xs, getAt tr.xSpacing i = .ok xs ∧
        xs.n = max 0 (maxUpTo (fun j => marginLeft (plotAt plots j i) (t.At dc i j))
          (t.Rows.toNat - 1)) ∧
        xs.p = max 0 (maxUpTo (fun j => marginRight (plotAt plots j i) (t.At dc i j))
          (t.Rows.toNat - 1)) ∧
        0 ≤ xs.n ∧ 0 ≤ xs.p ∧
        (∀ j : Nat, (j : Int) < t.Rows →
          marginLeft (plotAt plots j i) (t.At dc i j) ≤ xs.n ∧
          marginRight (plotAt plots j i) (t.At dc i j) ≤ xs.p) ∧
        (xs.n = 0 ∨ ∃ j : Nat, (j : Int) < t.Rows ∧
          marginLeft (plotAt plots j i) (t.At dc i j) = xs.n) ∧
        (xs.p = 0 ∨ ∃ j : Nat, (j : Int) < t.Rows ∧
          marginRight (plotAt plots j i) (t.At dc i j) = xs.p)) ∧
      (∀ j : Nat, (j : Int) < t.Rows → ∃ ys, getAt tr.ySpacing j = .ok ys ∧
        ys.n = max 0 (maxUpTo (fun i => marginBottom (plotAt plots j i) (t.At dc i j))
          (t.Cols.toNat - 1)) ∧
        ys.p = max 0 (maxUpTo (fun i => marginTop (plotAt plots j i) (t.At dc i j))
          (t.Cols.toNat - 1)) ∧
        0 ≤ ys.n ∧ 0 ≤ ys.p ∧
        (∀ i : Nat, (i : Int) < t.Cols →
          marginBottom (plotAt plots j i) (t.At dc i j) ≤ ys.n ∧
          marginTop (plotAt plots j i) (t.At dc i j) ≤ ys.p) ∧
        (ys.n = 0 ∨ ∃ i : Nat, (i : Int) < t.Cols ∧
          marginBottom (plotAt plots j i) (t.At dc i j) = ys.n) ∧
        (ys.p = 0 ∨ ∃ i : Nat, (i : Int) < t.Cols ∧
          marginTop (plotAt plots j i) (t.At dc i j) = ys.p)) := by
  have hrun := alignTrace_wellFormed crop plots t dc hwf
  have hR := toNat_pred_succ t.Rows hwf.1
  have hC := toNat_pred_succ t.Cols hwf.2.1
  have hor : ∀ (f : Nat → ℚ) (n : Nat) (m : Int), (n : Int) = m →
      (runMax f n = 0 ∨ ∃ k : Nat, (k : Int) < m ∧ f k = runMax f n) := by
    intro f n m hm
    rcases runMax_zero_or f n with h0 | ⟨k, hk, hk'⟩
    · exact Or.inl h0
    · exact Or.inr ⟨k, by omega, hk'⟩
  have hRI : ((t.Rows.toNat : Nat) : Int) = t.Rows :=
    Int.toNat_of_nonneg (by have := hwf.1; omega)
  have hCI : ((t.Cols.toNat : Nat) : Int) = t.Cols :=
    Int.toNat_of_nonneg (by have := hwf.2.1; omega)
  refine ⟨_, hrun, ?_, ?_⟩
  · intro i hi
    refine ⟨_, getAt_xSpacing crop plots t dc i hi, ?_, ?_, runMax_nonneg _ _,
      runMax_nonneg _ _, ?_, hor _ _ _ hRI, hor _ _ _ hRI⟩
    · rw [← runMax_eq_max, hR]
      rfl
    · rw [← runMax_eq_max, hR]
      rfl
    · intro j hj
      exact ⟨le_runMax (fun j => marginLeft (plotAt plots j i) (t.At dc i j)) _ j (by omega),
        le_runMax (fun j => marginRight (plotAt plots j i) (t.At dc i j)) _ j (by omega)⟩
  · intro j hj
    refine ⟨_, getAt_ySpacing crop plots t dc j hj, ?_, ?_, runMax_nonneg _ _,
      runMax_nonneg _ _, ?_, hor _ _ _ hCI, hor _ _ _ hCI⟩
    · rw [← runMax_eq_max, hC]
      rfl
    · rw [← runMax_eq_max, hC]
      rfl
    · intro i hi
      exact ⟨le_runMax (fun i => marginBottom (plotAt plots j i) (t.At dc i j)) _ i (by omega),
        le_runMax (fun i => marginTop (plotAt plots j i) (t.At dc i j)) _ i (by omega)⟩

theorem spacings_clamped_at_zero_witness :
    WellFormed stickingOutPlots (equalTiles 1 1) ∧
    ∃ tr : Trace, alignTrace Crop stickingOutPlots (equalTiles 1 1) unitCanvas = .ok tr ∧
      ∀ i : Nat, (i : Int) < 1 → ∃ xs, getAt tr.xSpacing i = .ok xs ∧ 0 ≤ xs.n ∧ 0 ≤ xs.p := by
  obtain ⟨tr, h1, h2, _⟩ :=
    spacings_clamped_at_zero Crop stickingOutPlots (equalTiles 1 1) unitCanvas
      stickingOut_wellFormed
  refine ⟨stickingOut_wellFormed, tr, h1, ?_⟩
  intro i hi
  obtain ⟨xs, e1, _, _, e4, e5, _⟩ := h2 i hi
  exact ⟨xs, e1, e4, e5⟩

/-- C16. Normalisation only shrinks a cell: for every well-formed grid and
every `DataCanvas` (additive `Crop`, exact arithmetic), the rectangle the
normalisation loop assigns to the cell `(j, i)` lies within the initial tile of
the cell on every edge: its `Min.X` and `Min.Y` are at least those of the tile
and its `Max.X` and `Max.Y` at most those of the tile. -/
theorem normalisation_only_shrinks (plots : List (List Plot)) (t : Tiles) (dc : Canvas)
    (hwf : WellFormed plots t) :
    ∃ tr : Trace, alignTrace Crop plots t dc = .ok tr ∧
      ∀ j i : Nat, (j : Int) < t.Rows → (i : Int) < t.Cols →
        ∃ T c, getCell tr.tiles j i = .ok T ∧ getCell tr.normalised j i = .ok c ∧
          T.Min.X ≤ c.Min.X ∧ T.Min.Y ≤ c.Min.Y ∧ c.Max.X ≤ T.Max.X ∧ c.Max.Y ≤ T.Max.Y := by
  have hrun := alignTrace_wellFormed Crop plots t dc hwf
  refine ⟨_, hrun, ?_⟩
  intro j i hj hi
  obtain ⟨h1, h2, h3, h4⟩ := slack_nonneg (plotAt plots) (tileOf t dc) t.Rows.toNat
    t.Cols.toNat j i (by omega) (by omega)
  refine ⟨_, _, getCell_tiles Crop plots t dc j i hj hi,
    getCell_normalised Crop plots t dc j i hj hi, ?_, ?_, ?_, ?_⟩
  · rw [gridN_fixed]
    show (tileOf t dc j i).Min.X ≤ (tileOf t dc j i).Min.X + _
    linarith
  · rw [gridN_fixed]
    show (tileOf t dc j i).Min.Y ≤ (tileOf t dc j i).Min.Y + _
    linarith
  · rw [gridN_fixed]
    show (tileOf t dc j i).Max.X + _ ≤ (tileOf t dc j i).Max.X
    linarith
  · rw [gridN_fixed]
    show (tileOf t dc j i).Max.Y + _ ≤ (tileOf t dc j i).Max.Y
    linarith

theorem normalisation_only_shrinks_witness :
    WellFormed columnPlots (equalTiles 2 1) ∧
    ∃ tr : Trace, alignTrace Crop columnPlots (equalTiles 2 1) unitCanvas = .ok tr ∧
      ∀ j i : Nat, (j : Int) < 2 → (i : Int) < 1 →
        ∃ T c, getCell tr.tiles j i = .ok T ∧ getCell tr.normalised j i = .ok c ∧
          T.Min.X ≤ c.Min.X ∧ T.Min.Y ≤ c.Min.Y ∧ c.Max.X ≤ T.Max.X ∧ c.Max.Y ≤ T.Max.Y := by
  obtain ⟨tr, h1, h2⟩ :=
    normalisation_only_shrinks columnPlots (equalTiles 2 1) unitCanvas column_wellFormed
  exact ⟨column_wellFormed, tr, h1, h2⟩

theorem nan_run :
    spacingRunF goSub nanPlots oneTileF unitCanvasF =
      .ok ([⟨.num 0, .nan⟩], [⟨.num 0, .num 0⟩]) := by
  simp [spacingRunF, initialTilesF, spacingF, spacingStepF, forUp, forRange, getAt, setAt,
    modifyAt, getCell, setCell, makeSlice, nanPlots, oneTileF, unitCanvasF, zeroCanvasF,
    goSub, goMax, bind, Except.bind]

theorem initialTilesF_tab (R C : Nat) (P : Nat → Nat → PlotF) (t : TilesF) (dc : CanvasF)
    (hR : t.Rows = R) (hC : t.Cols = C) :
    initialTilesF (tab R C P) t dc = .ok (tab R C (tileOfF t dc)) := by
  have hR' : t.Rows.toNat = R := by rw [hR]; exact Int.toNat_natCast R
  have hC' : t.Cols.toNat = C := by rw [hC]; exact Int.toNat_natCast C
  unfold initialTilesF
  rw [hR', hC']
  have hlen : (tab R C P).length = R := by unfold tab; exact tab1_length R _
  rw [hlen]
  have key := forUp_seq (fun j o =>
      getAt (tab R C P) j >>= fun row =>
      setAt o j (List.replicate row.length zeroCanvasF) >>= fun o =>
      forUp (fun i o => setCell o j i (t.At dc i j)) 0 C o)
    (fun j => tab1 R (fun j' => if j' < j then tab1 C (tileOfF t dc j') else [])) 0 R ?_
  · have e0 : (List.replicate R ([] : List CanvasF)) =
        tab1 R (fun j' => if j' < 0 then tab1 C (tileOfF t dc j') else []) := by
      rw [replicate_eq_tab1]
      apply tab1_congr
      intro j' _
      simp
    have eR : tab1 R (fun j' => if j' < R then tab1 C (tileOfF t dc j') else []) =
        tab R C (tileOfF t dc) := by
      unfold tab
      apply tab1_congr
      intro j' hj'
      simp [hj']
    rw [e0, ← eR]
    exact key
  · intro j hj
    simp only [Nat.zero_add]
    have hrow : getAt (tab R C P) j = .ok (tab1 C (P j)) := by
      unfold tab
      exact getAt_tab1 R _ j hj
    rw [hrow, ok_bind, tab1_length, setAt_tab1 R _ j _ hj, ok_bind]
    have inner := forUp_seq (fun i o => setCell o j i (t.At dc i j))
      (fun i => tab1 R (fun j' => if j' < j then tab1 C (tileOfF t dc j')
        else if j' = j then tab1 C (fun i' => if i' < i then tileOfF t dc j i' else zeroCanvasF)
        else [])) 0 C ?_
    · have e0 : tab1 R (Function.update
            (fun j' => if j' < j then tab1 C (tileOfF t dc j') else [])
            j (List.replicate C zeroCanvasF)) =
          tab1 R (fun j' => if j' < j then tab1 C (tileOfF t dc j')
            else if j' = j then tab1 C (fun i' => if i' < 0 then tileOfF t dc j i' else zeroCanvasF)
            else []) := by
        apply tab1_congr
        intro j' _
        by_cases hjj : j' = j
        · subst hjj
          simp [replicate_eq_tab1]
        · have : ¬ (j' < j) ∨ j' < j := by omega
          simp [Function.update_noteq hjj, hjj]
      have eC : tab1 R (fun j' => if j' < j then tab1 C (tileOfF t dc j')
            else if j' = j then tab1 C (fun i' => if i' < C then tileOfF t dc j i' else zeroCanvasF)
            else []) =
          tab1 R (fun j' => if j' < j + 1 then tab1 C (tileOfF t dc j') else []) := by
        apply tab1_congr
        intro j' _
        by_cases h1 : j' < j
        · have h2 : j' < j + 1 := by omega
          simp [h1, h2]
        · by_cases h2 : j' = j
          · subst h2
            simp
            apply tab1_congr
            intro i' hi'
            simp [hi']
          · have h3 : ¬ (j' < j + 1) := by omega
            simp [h1, h2, h3]
      rw [e0, ← eC]
      exact inner
    · intro i hi
      simp only [Nat.zero_add]
      unfold setCell
      rw [getAt_tab1 R _ j hj, ok_bind]
      simp only [Nat.lt_irrefl, if_false, if_true]
      rw [setAt_tab1 C _ i _ hi, ok_bind, setAt_tab1 R _ j _ hj]
      congr 1
      apply tab1_congr
      intro j' _
      by_cases hjj : j' = j
      · subst hjj
        simp only [Function.update_same, Nat.lt_irrefl, if_false, if_true]
        apply tab1_congr
        intro i' _
        by_cases hii : i' = i
        · subst hii
          simp [tileOfF]
        · have : (i' < i + 1) = (i' < i) := by
            apply propext
            omega
          simp [Function.update_noteq hii, this]
      · simp [Function.update_noteq hjj, hjj]

theorem spacingStepF_tab (sub : GoFloat → GoFloat → GoFloat) (R C : Nat)
    (P : Nat → Nat → PlotF) (T : Nat → Nat → CanvasF)
    (j i : Nat) (hj : j < R) (hi : i < C) :
    spacingStepF sub (tab R C T) j i (P j i) (spStateF sub R C P T j i) =
      .ok (spStateF sub R C P T j (i + 1)) := by
  unfold spacingStepF spStateF
  rw [getCell_tab R C T j i hj hi, ok_bind]
  simp only []
  rw [modifyAt_tab1 C _ i _ hi, ok_bind, modifyAt_tab1 C _ i _ hi, ok_bind,
    modifyAt_tab1 R _ j _ hj, ok_bind, modifyAt_tab1 R _ j _ hj, ok_bind]
  congr 1
  apply Prod.ext
  · apply tab1_congr
    intro i' _
    by_cases h : i' = i
    · subst h
      simp [xSpF, runMaxF, marginLeftF, marginRightF]
    · have : (i' < i + 1) = (i' < i) := by
        apply propext
        omega
      simp [Function.update_noteq h, this]
  · apply tab1_congr
    intro j' _
    by_cases h : j' = j
    · subst h
      simp [ySpF, runMaxF, marginBottomF, marginTopF]
    · simp [Function.update_noteq h, h]

theorem spacingF_tab (sub : GoFloat → GoFloat → GoFloat) (R C : Nat) (P : Nat → Nat → PlotF) (T : Nat → Nat → CanvasF) (t : TilesF)
    (hR : t.Rows = R) (hC : t.Cols = C) :
    spacingF sub (tab R C P) t (tab R C T) = .ok (tab1 C (xSpF sub P T R), tab1 R (ySpF sub P T C)) := by
  unfold spacingF makeSlice
  rw [hR, hC, if_neg (by omega), if_neg (by omega), ok_bind, ok_bind, Int.toNat_natCast,
    Int.toNat_natCast]
  have hrow : ∀ k row, (tab R C P)[k]? = some row → k < R ∧ row = tab1 C (P k) := by
    intro k row h
    unfold tab at h
    rw [tab1_getElem?] at h
    by_cases hk : k < R
    · rw [if_pos hk] at h
      exact ⟨hk, (Option.some.inj h).symm⟩
    · rw [if_neg hk] at h
      cases h
  have hcell : ∀ k i p, (tab1 C (P k))[i]? = some p → i < C ∧ p = P k i := by
    intro k i p h
    rw [tab1_getElem?] at h
    by_cases hi : i < C
    · rw [if_pos hi] at h
      exact ⟨hi, (Option.some.inj h).symm⟩
    · rw [if_neg hi] at h
      cases h
  have key := forRange_seq
    (fun j row s => forRange (fun i p s => spacingStepF sub (tab R C T) j i p s) 0 row s)
    (fun j => spStateF sub R C P T j 0) 0 (tab R C P) ?_
  · have hlen : (tab R C P).length = R := by unfold tab; exact tab1_length R _
    rw [hlen] at key
    have e0 : ((List.replicate C (⟨.num 0, .num 0⟩ : posNegF), List.replicate R (⟨.num 0, .num 0⟩ : posNegF))) =
        spStateF sub R C P T 0 0 := by
      unfold spStateF
      apply Prod.ext
      · show List.replicate C (⟨.num 0, .num 0⟩ : posNegF) = _
        rw [replicate_eq_tab1]
        apply tab1_congr
        intro i' _
        simp [xSpF, runMaxF]
      · show List.replicate R (⟨.num 0, .num 0⟩ : posNegF) = _
        rw [replicate_eq_tab1]
        apply tab1_congr
        intro j' _
        simp [ySpF, runMaxF]
    have eR : spStateF sub R C P T R 0 = (tab1 C (xSpF sub P T R), tab1 R (ySpF sub P T C)) := by
      unfold spStateF
      apply Prod.ext
      · apply tab1_congr
        intro i' _
        simp
      · apply tab1_congr
        intro j' hj'
        simp [hj']
    rw [e0, ← eR]
    exact key
  · intro j row hjrow
    obtain ⟨hj, rfl⟩ := hrow j row hjrow
    simp only [Nat.zero_add]
    have inner := forRange_seq (fun i p s => spacingStepF sub (tab R C T) j i p s)
      (fun i => spStateF sub R C P T j i) 0 (tab1 C (P j)) ?_
    · rw [tab1_length] at inner
      have eC : spStateF sub R C P T j C = spStateF sub R C P T (j + 1) 0 := by
        unfold spStateF
        apply Prod.ext
        · apply tab1_congr
          intro i' hi'
          simp [hi']
        · apply tab1_congr
          intro j' _
          by_cases h1 : j' < j
          · have h2 : j' < j + 1 := by omega
            simp [h1, h2]
          · by_cases h2 : j' = j
            · subst h2
              simp
            · have h3 : ¬ (j' < j + 1) := by omega
              have h4 : j' ≠ j + 1 ∨ j' = j + 1 := by omega
              simp [h1, h2, h3]
      rw [← eC]
      exact inner
    · intro i p hip
      obtain ⟨hi, rfl⟩ := hcell j i p hip
      simp only [Nat.zero_add]
      exact spacingStepF_tab sub R C P T j i hj hi

theorem wellFormedF_tab (plots : List (List PlotF)) (t : TilesF) (h : WellFormedF plots t) :
    plots = tab t.Rows.toNat t.Cols.toNat (plotAtF plots) := by
  obtain ⟨_, _, hlen, hrows⟩ := h
  have hR : t.Rows.toNat = plots.length := by rw [← hlen]; exact Int.toNat_natCast _
  rw [hR]
  conv_lhs => rw [list_eq_tab1 plots []]
  unfold tab
  apply tab1_congr
  intro j hj
  have hmem : plots.getD j [] ∈ plots := by
    rw [List.getD_eq_getElem?_getD, List.getElem?_eq_getElem hj]
    exact List.getElem_mem hj
  have hC : t.Cols.toNat = (plots.getD j []).length := by
    rw [← hrows _ hmem]
    exact Int.toNat_natCast _
  rw [hC]
  exact list_eq_tab1 _ default

/-- On a well-formed grid the loops of lines 20-47, on `float64` values, end
well, with every spacing the running `math.Max` of the margins of its line. -/
theorem spacingRunF_wellFormed (sub : GoFloat → GoFloat → GoFloat) (plots : List (List PlotF))
    (t : TilesF) (dc : CanvasF) (h : WellFormedF plots t) :
    spacingRunF sub plots t dc =
      .ok (tab1 t.Cols.toNat (xSpF sub (plotAtF plots) (tileOfF t dc) t.Rows.toNat),
        tab1 t.Rows.toNat (ySpF sub (plotAtF plots) (tileOfF t dc) t.Cols.toNat)) := by
  have hR : t.Rows = (t.Rows.toNat : Int) := (Int.toNat_of_nonneg (by have := h.1; omega)).symm
  have hC : t.Cols = (t.Cols.toNat : Int) := (Int.toNat_of_nonneg (by have := h.2.1; omega)).symm
  have e1 := initialTilesF_tab t.Rows.toNat t.Cols.toNat (plotAtF plots) t dc hR hC
  have e2 := spacingF_tab sub t.Rows.toNat t.Cols.toNat (plotAtF plots) (tileOfF t dc) t hR hC
  rw [← wellFormedF_tab plots t h] at e1 e2
  unfold spacingRunF
  rw [e1, ok_bind, e2]

theorem goMax_comm (x y : GoFloat) : goMax x y = goMax y x := by
  cases x <;> cases y <;> simp [goMax, max_comm]

theorem goMax_assoc (x y z : GoFloat) : goMax (goMax x y) z = goMax x (goMax y z) := by
  cases x <;> cases y <;> cases z <;> simp [goMax, max_assoc]

theorem goMax_ne_nan (x y : GoFloat) (hx : x ≠ .nan) (hy : y ≠ .nan) : goMax x y ≠ .nan := by
  cases x <;> cases y <;> simp [goMax] at hx hy ⊢

theorem goLe_goMax_left (x y : GoFloat) (hx : x ≠ .nan) (hy : y ≠ .nan) :
    goLe x (goMax x y) := by
  cases x <;> cases y <;> simp [goMax, goLe] at hx hy ⊢

theorem goLe_goMax_right (x y : GoFloat) (hx : x ≠ .nan) (hy : y ≠ .nan) :
    goLe y (goMax x y) := by
  cases x <;> cases y <;> simp [goMax, goLe] at hx hy ⊢

theorem goLe_trans (x y z : GoFloat) (h1 : goLe x y) (h2 : goLe y z) : goLe x z := by
  cases x <;> cases y <;> cases z <;> simp [goLe] at h1 h2 ⊢
  exact le_trans h1 h2

theorem goMax_eq_or (x y : GoFloat) (hx : x ≠ .nan) (hy : y ≠ .nan) :
    goMax x y = x ∨ goMax x y = y := by
  cases x <;> cases y <;> simp [goMax] at hx hy ⊢
  exact le_total _ _

theorem runMaxF_eq_max (f : Nat → GoFloat) (k : Nat) :
    runMaxF f (k + 1) = goMax (.num 0) (maxUpToF f k) := by
  induction k with
  | zero => exact goMax_comm _ _
  | succ k ih =>
    show goMax (f (k + 1)) (runMaxF f (k + 1)) = goMax (.num 0) (goMax (maxUpToF f k) (f (k + 1)))
    rw [ih, goMax_comm (f (k + 1)), goMax_assoc]

/-- When no value is NaN, the running `math.Max` from 0 is a number that is at
least 0 and at least every value, and is 0 or one of the values. -/
theorem runMaxF_props (f : Nat → GoFloat) (n : Nat) (h : ∀ k, k < n → f k ≠ .nan) :
    runMaxF f n ≠ .nan ∧ goLe (.num 0) (runMaxF f n) ∧
      (∀ k, k < n → goLe (f k) (runMaxF f n)) ∧
      (runMaxF f n = .num 0 ∨ ∃ k, k < n ∧ f k = runMaxF f n) := by
  induction n with
  | zero =>
    refine ⟨by simp [runMaxF], by simp [runMaxF, goLe], fun k hk => absurd hk (Nat.not_lt_zero k),
      Or.inl rfl⟩
  | succ n ih =>
    obtain ⟨h1, h2, h3, h4⟩ := ih (fun k hk => h k (by omega))
    have hn := h n (Nat.lt_succ_self n)
    have hR : goLe (runMaxF f n) (goMax (f n) (runMaxF f n)) := goLe_goMax_right _ _ hn h1
    refine ⟨goMax_ne_nan _ _ hn h1, goLe_trans _ _ _ h2 hR, ?_, ?_⟩
    · intro k hk
      by_cases e : k = n
      · subst e
        exact goLe_goMax_left _ _ hn h1
      · exact goLe_trans _ _ _ (h3 k (by omega)) hR
    · rcases goMax_eq_or (f n) (runMaxF f n) hn h1 with e | e
      · exact Or.inr ⟨n, by omega, e.symm⟩
      · show goMax (f n) (runMaxF f n) = .num 0 ∨ ∃ k, k < n + 1 ∧ f k = goMax (f n) (runMaxF f n)
        rw [e]
        rcases h4 with h0 | ⟨k, hk, hk'⟩
        · exact Or.inl h0
        · exact Or.inr ⟨k, by omega, hk'⟩

theorem clampedMax_runMaxF (f : Nat → GoFloat) (n : Nat) (hn : 0 < n)
    (h : ∀ k, k < n → f k ≠ .nan) : ClampedMax f n (runMaxF f n) := by
  obtain ⟨_, h2, h3, h4⟩ := runMaxF_props f n h
  refine ⟨?_, h2, h3, h4⟩
  rw [← runMaxF_eq_max, show n - 1 + 1 = n by omega]

theorem getAt_xSpacingF (sub : GoFloat → GoFloat → GoFloat) (P : Nat → Nat → PlotF)
    (T : Nat → Nat → CanvasF) (R C i : Nat) (hi : i < C) :
    getAt (tab1 C (xSpF sub P T R)) i = .ok (xSpF sub P T R i) := getAt_tab1 _ _ i hi

theorem getAt_ySpacingF (sub : GoFloat → GoFloat → GoFloat) (P : Nat → Nat → PlotF)
    (T : Nat → Nat → CanvasF) (R C j : Nat) (hj : j < R) :
    getAt (tab1 R (ySpF sub P T C)) j = .ok (ySpF sub P T C j) := getAt_tab1 _ _ j hj

/-- C15, as the code has it. Spacings are clamped at zero unless a margin is
NaN: for every well-formed grid, every `DataCanvas` and every `float64`
subtraction, the loops of lines 20-47 end well, and each of `xSpacing[i].n`,
`xSpacing[i].p`, `ySpacing[j].n` and `ySpacing[j].p` for which no margin of its
line is NaN is the larger of 0 and the largest corresponding margin over the
cells of that column or row: it is at least 0, at least the margin of every cell
of its line, and either 0 or the margin of some cell of its line. -/
theorem spacings_clamped_unless_nan (sub : GoFloat → GoFloat → GoFloat)
    (plots : List (List PlotF)) (t : TilesF) (dc : CanvasF) (hwf : WellFormedF plots t) :
    ∃ sp, spacingRunF sub plots t dc = .ok sp ∧
      (∀ i : Nat, (i : Int) < t.Cols → ∃ xs, getAt sp.1 i = .ok xs ∧
        ((∀ j : Nat, (j : Int) < t.Rows →
            marginLeftF sub (plotAtF plots j i) (t.At dc i j) ≠ .nan) →
          ClampedMax (fun j => marginLeftF sub (plotAtF plots j i) (t.At dc i j))
            t.Rows.toNat xs.n) ∧
        ((∀ j : Nat, (j : Int) < t.Rows →
            marginRightF sub (plotAtF plots j i) (t.At dc i j) ≠ .nan) →
          ClampedMax (fun j => marginRightF sub (plotAtF plots j i) (t.At dc i j))
            t.Rows.toNat xs.p)) ∧
      (∀ j : Nat, (j : Int) < t.Rows → ∃ ys, getAt sp.2 j = .ok ys ∧
        ((∀ i : Nat, (i : Int) < t.Cols →
            marginBottomF sub (plotAtF plots j i) (t.At dc i j) ≠ .nan) →
          ClampedMax (fun i => marginBottomF sub (plotAtF plots j i) (t.At dc i j))
            t.Cols.toNat ys.n) ∧
        ((∀ i : Nat, (i : Int) < t.Cols →
            marginTopF sub (plotAtF plots j i) (t.At dc i j) ≠ .nan) →
          ClampedMax (fun i => marginTopF sub (plotAtF plots j i) (t.At dc i j))
            t.Cols.toNat ys.p)) := by
  have hrun := spacingRunF_wellFormed sub plots t dc hwf
  have hRpos : 0 < t.Rows.toNat := by have := hwf.1; omega
  have hCpos : 0 < t.Cols.toNat := by have := hwf.2.1; omega
  refine ⟨_, hrun, ?_, ?_⟩
  · intro i hi
    refine ⟨_, getAt_xSpacingF sub _ _ _ _ i (by omega), ?_, ?_⟩
    · intro hnan
      exact clampedMax_runMaxF _ _ hRpos (fun k hk => hnan k (by omega))
    · intro hnan
      exact clampedMax_runMaxF _ _ hRpos (fun k hk => hnan k (by omega))
  · intro j hj
    refine ⟨_, getAt_ySpacingF sub _ _ _ _ j (by omega), ?_, ?_⟩
    · intro hnan
      exact clampedMax_runMaxF _ _ hCpos (fun k hk => hnan k (by omega))
    · intro hnan
      exact clampedMax_runMaxF _ _ hCpos (fun k hk => hnan k (by omega))

theorem inset_wellFormed : WellFormedF insetPlots oneTileF := by
  simp [WellFormedF, insetPlots, oneTileF]

theorem spacings_clamped_unless_nan_witness :
    WellFormedF insetPlots oneTileF ∧
    ∃ sp, spacingRunF goSub insetPlots oneTileF unitCanvasF = .ok sp ∧
      ∃ xs, getAt sp.1 0 = .ok xs ∧
        ClampedMax (fun j => marginLeftF goSub (plotAtF insetPlots j 0)
          (oneTileF.At unitCanvasF 0 j)) 1 xs.n := by
  obtain ⟨sp, h1, h2, _⟩ :=
    spacings_clamped_unless_nan goSub insetPlots oneTileF unitCanvasF inset_wellFormed
  obtain ⟨xs, h3, h4, _⟩ := h2 0 (by decide)
  refine ⟨inset_wellFormed, sp, h1, xs, h3, h4 ?_⟩
  intro j hj
  have hj0 : j = 0 := by
    have : (j : Int) < 1 := hj
    omega
  subst hj0
  have hp : plotAtF insetPlots 0 0 =
      ⟨fun _ => ⟨⟨.num (1/10), .num (1/10)⟩, ⟨.num (9/10), .num (9/10)⟩⟩⟩ := rfl
  rw [hp]
  simp [marginLeftF, oneTileF, unitCanvasF, goSub]

theorem nan_wellFormed : WellFormedF nanPlots oneTileF := by
  simp [WellFormedF, nanPlots, oneTileF]

/-- C15, as stated, fails: for the single plot whose data canvas has NaN for
`Min.X`, on the unit square as its only tile, the left margin of the cell is
`NaN - 0 = NaN` and `math.Max(NaN, 0)` is NaN, so `xSpacing[0].n` is NaN: it is
not `>= 0`, it is not 0 and it is not `>=` the margin of the cell. -/
theorem nan_spacing_counterexample :
    WellFormedF nanPlots oneTileF ∧
    ∃ sp, spacingRunF goSub nanPlots oneTileF unitCanvasF = .ok sp ∧
      ∃ xs, getAt sp.1 0 = .ok xs ∧ xs.n = .nan ∧ ¬ goLe (.num 0) xs.n ∧ xs.n ≠ .num 0 ∧
        marginLeftF goSub (plotAtF nanPlots 0 0) (oneTileF.At unitCanvasF 0 0) = .nan ∧
        ¬ goLe (marginLeftF goSub (plotAtF nanPlots 0 0) (oneTileF.At unitCanvasF 0 0)) xs.n := by
  refine ⟨nan_wellFormed, _, nan_run, ⟨.num 0, .nan⟩, rfl, rfl, ?_, ?_, ?_, ?_⟩
  · simp [goLe]
  · simp
  · have hp : plotAtF nanPlots 0 0 = ⟨fun c => ⟨⟨.nan, c.Min.Y⟩, c.Max⟩⟩ := rfl
    rw [hp]
    simp [marginLeftF, goSub]
  · have hp : plotAtF nanPlots 0 0 = ⟨fun c => ⟨⟨.nan, c.Min.Y⟩, c.Max⟩⟩ := rfl
    rw [hp]
    simp [marginLeftF, goSub, goLe]

theorem tab1_map {α β : Type} (n : Nat) (f : Nat → α) (g : α → β) :
    (tab1 n f).map g = tab1 n (fun i => g (f i)) := by
  unfold tab1
  rw [List.map_map]
  rfl

theorem tab_map {α β : Type} (R C : Nat) (f : Nat → Nat → α) (g : α → β) :
    (tab R C f).map (List.map g) = tab R C (fun j i => g (f j i)) := by
  unfold tab
  rw [tab1_map]
  apply tab1_congr
  intro j _
  exact tab1_map C (f j) g

theorem lowerCanvas_lift (c : Canvas) : lowerCanvas (liftCanvas c) = some c := rfl

theorem liftPlot_lift (p : Plot) (c : Canvas) :
    (liftPlot p).DataCanvas (liftCanvas c) = liftCanvas (p.DataCanvas c) := rfl

theorem tileOfF_lift (t : Tiles) (dc : Canvas) (j i : Nat) :
    tileOfF (liftTiles t) (liftCanvas dc) j i = liftCanvas (tileOf t dc j i) := rfl

theorem runMaxF_num (f : Nat → ℚ) (n : Nat) :
    runMaxF (fun k => .num (f k)) n = .num (runMax f n) := by
  induction n with
  | zero => rfl
  | succ n ih =>
    show goMax (.num (f n)) (runMaxF (fun k => .num (f k)) n) = .num (max (f n) (runMax f n))
    rw [ih]
    rfl

theorem xSpF_lift (P : Nat → Nat → Plot) (t : Tiles) (dc : Canvas) (R i : Nat) :
    xSpF goSub (fun j i => liftPlot (P j i)) (tileOfF (liftTiles t) (liftCanvas dc)) R i =
      liftPosNeg (xSp P (tileOf t dc) R i) := by
  unfold xSpF xSp liftPosNeg
  rw [← runMaxF_num, ← runMaxF_num]
  rfl

theorem ySpF_lift (P : Nat → Nat → Plot) (t : Tiles) (dc : Canvas) (C j : Nat) :
    ySpF goSub (fun j i => liftPlot (P j i)) (tileOfF (liftTiles t) (liftCanvas dc)) C j =
      liftPosNeg (ySp P (tileOf t dc) C j) := by
  unfold ySpF ySp liftPosNeg
  rw [← runMaxF_num, ← runMaxF_num]
  rfl

/-- On finite values the two models agree: for a well-formed grid, the spacings
`Align` computes on rationals are those the loops of lines 20-47 compute on
`float64` values with `math.Max`, when the subtraction does not round. -/
theorem spacing_agrees_on_numbers (crop : CropFn) (plots : List (List Plot)) (t : Tiles)
    (dc : Canvas) (hwf : WellFormed plots t) :
    ∃ tr : Trace, alignTrace crop plots t dc = .ok tr ∧
      spacingRunF goSub (plots.map (List.map liftPlot)) (liftTiles t) (liftCanvas dc) =
        .ok (tr.xSpacing.map liftPosNeg, tr.ySpacing.map liftPosNeg) := by
  have hrun := alignTrace_wellFormed crop plots t dc hwf
  refine ⟨_, hrun, ?_⟩
  have hR : (liftTiles t).Rows = (t.Rows.toNat : Int) := by
    show t.Rows = _
    exact (Int.toNat_of_nonneg (by have := hwf.1; omega)).symm
  have hC : (liftTiles t).Cols = (t.Cols.toNat : Int) := by
    show t.Cols = _
    exact (Int.toNat_of_nonneg (by have := hwf.2.1; omega)).symm
  have e1 := initialTilesF_tab t.Rows.toNat t.Cols.toNat (fun j i => liftPlot (plotAt plots j i))
    (liftTiles t) (liftCanvas dc) hR hC
  have e2 := spacingF_tab goSub t.Rows.toNat t.Cols.toNat
    (fun j i => liftPlot (plotAt plots j i)) (tileOfF (liftTiles t) (liftCanvas dc))
    (liftTiles t) hR hC
  have hplots : plots.map (List.map liftPlot) =
      tab t.Rows.toNat t.Cols.toNat (fun j i => liftPlot (plotAt plots j i)) := by
    conv_lhs => rw [wellFormed_tab plots t hwf]
    exact tab_map _ _ _ _
  unfold spacingRunF
  rw [hplots, e1, ok_bind, e2]
  congr 1
  apply Prod.ext
  · show tab1 _ _ = (tab1 _ _).map liftPosNeg
    rw [tab1_map]
    apply tab1_congr
    intro i _
    exact xSpF_lift (plotAt plots) t dc _ i
  · show tab1 _ _ = (tab1 _ _).map liftPosNeg
    rw [tab1_map]
    apply tab1_congr
    intro j _
    exact ySpF_lift (plotAt plots) t dc _ j

end GonumPlot
